import Mathlib

/-!
# SilkTex preview pane (`src/gui/gui-preview.c`): render cache, sync nodes, scrolling

A shallow embedding of the page cache, its garbage collector, the SyncTeX
candidate handling, the page layout and fitted scale, the scroll navigation
with its animation and error mode, and the page positions used for painting
and for pointer events, of `gui-preview.c`.

Conventions of the embedding:

* `gint` values are `Int`; the cache budget, a product with a configuration
  value, wraps around as a 32-bit `gint` does (`gint_wrap`), other integer
  arithmetic is exact, and `INT_MAX` is kept where the source names it;
* `gdouble` values are rationals `ℚ`; where the page layout stores a scaled
  size in a `gint` and where the candidates' height is compared with the view,
  the product or quotient is first rounded to the nearest `gdouble`
  (`round_double`), elsewhere the arithmetic is exact; a `gdouble` assigned to
  a `gint` is truncated toward zero (`gint_of_double`); a `gdouble` argument
  that may be NaN is an `Option ℚ` with `none` for NaN;
* a nullable pointer is an `Option`;
* the mutable `GuPreviewGui* pc` is passed and returned explicitly;
* the header `gui-preview.h` and `constants.h` are not part of the sources at
  hand, so their numeric constants are the fields of `Constants`.
-/

namespace GuPreview

/-! ## Data model -/

/-- Numeric constants of the missing headers, taken as parameters. -/
structure Constants where
  BYTES_PER_PIXEL : Int
  DOCUMENT_MARGIN : Int
  PAGE_MARGIN : Int
  PAGE_SHADOW_WIDTH : Int
  ASCROLL_STEPS : Int
  ASCROLL_CONST_A : ℚ
  ASCROLL_CONST_B : ℚ
  ASCROLL_CONST_C : ℚ
deriving DecidableEq, Repr

/-- The value of `INT_MAX` for a 32-bit `gint`. -/
def INT_MAX : Int := 2147483647

/-- Conversion of a `gdouble` to a `gint`: C truncates toward zero. -/
def gint_of_double (q : ℚ) : Int := Int.tdiv q.num q.den

/-- Rounding of an exact value to the nearest integer, a tie going to the even
neighbour. -/
def round_half_even (m : ℚ) : Int :=
  if m - (⌊m⌋ : ℚ) < 1 / 2 then ⌊m⌋
  else if 1 / 2 < m - (⌊m⌋ : ℚ) then ⌊m⌋ + 1
  else if ⌊m⌋ % 2 = 0 then ⌊m⌋ else ⌊m⌋ + 1

/-- The `gdouble` an arithmetic operation delivers for the exact result `q`: the
nearest value with 53 significant binary digits, a tie going to the even one
(IEEE 754 binary64, round to nearest; the exponent range is not limited). -/
def round_double (q : ℚ) : ℚ :=
  if q = 0 then 0
  else
    (round_half_even (q / (2 : ℚ) ^ (Int.log 2 |q| - 52)) : ℚ)
      * (2 : ℚ) ^ (Int.log 2 |q| - 52)

/-- Rectangle tagged with a layer (fields are `gint`). -/
structure LayeredRectangle where
  x : Int := 0
  y : Int := 0
  width : Int := 0
  height : Int := 0
  layer : Int := 0
deriving DecidableEq, Repr

/-- A cairo image surface, reduced to its pixel dimensions. -/
structure Surface where
  width : Int
  height : Int
deriving DecidableEq, Repr

/-- One page: cached rendering (nullable), size in points, inner and outer box. -/
structure GuPreviewPage where
  rendering : Option Surface := none
  width : ℚ := 0
  height : ℚ := 0
  inner : LayeredRectangle := {}
  outer : LayeredRectangle := {}
deriving DecidableEq

/-- The fields of a `GtkAdjustment` the source reads and writes. -/
structure GtkAdjustment where
  value : ℚ := 0
  upper : ℚ := 0
  page_size : ℚ := 0
deriving DecidableEq

/-- The page layouts the source distinguishes. -/
inductive PopplerPageLayout where
  | UNSET
  | SINGLE_PAGE
  | ONE_COLUMN
deriving DecidableEq, Repr

/-- A SyncTeX candidate (struct `SyncNode`). -/
structure SyncNode where
  page : Int := 0
  x : Int := 0
  y : Int := 0
  width : Int := 0
  height : Int := 0
  score : Int := 0
deriving DecidableEq, Repr

/-- The fit modes of the active tab. -/
inductive GuPreviewFitModes where
  | FIT_BOTH
  | FIT_WIDTH
  | FIT_NUMERIC
deriving DecidableEq, Repr

/-- The fields of `g_active_tab` the preview code uses. -/
structure ActiveTab where
  scroll_x : ℚ := 0
  scroll_y : ℚ := 0
  fit_mode : GuPreviewFitModes := .FIT_NUMERIC
deriving DecidableEq

/-- The preview state `GuPreviewGui`, together with the globals it touches.
`n_pages` is the length of `pages` (the source allocates `pages` with
`n_pages` entries and changes both together).  `handler_block_count` is the
block count of the four adjustment handlers, which the source only blocks and
unblocks together; `render_log` and `gc_idle_sources` record the calls made
to the external renderer and to `g_idle_add`; `drawarea_size_request` is the
size last passed to `gtk_widget_set_size_request` for the drawing area;
`ascroll_timeout_sources` counts the calls of `g_timeout_add` that start the
animated scroll. -/
structure GuPreviewGui where
  pageLayout : PopplerPageLayout := .ONE_COLUMN
  hadj : GtkAdjustment := {}
  vadj : GtkAdjustment := {}
  scale : ℚ := 1
  current_page : Int := 0
  pages : List GuPreviewPage := []
  cache_size : Int := 0
  width_scaled : ℚ := 0
  height_scaled : ℚ := 0
  width_pages : ℚ := 0
  height_pages : ℚ := 0
  max_page_height : ℚ := 0
  sync_nodes : List SyncNode := []
  errormode : Bool := false
  window_scale_factor : Option Int := none
  active_tab : Option ActiveTab := some {}
  handler_block_count : Nat := 0
  ascroll_steps_left : Int := 0
  ascroll_end_x : ℚ := 0
  ascroll_end_y : ℚ := 0
  ascroll_dist_x : ℚ := 0
  ascroll_dist_y : ℚ := 0
  render_log : List Int := []
  gc_idle_sources : Nat := 0
  drawarea_size_request : Int × Int := (1, 1)
  ascroll_timeout_sources : Nat := 0
deriving DecidableEq

/-- Field `n_pages`. -/
def GuPreviewGui.n_pages (pc : GuPreviewGui) : Int := pc.pages.length

/-- The page record `pc->pages + i`, when `i` is a valid index. -/
def page_at (pc : GuPreviewGui) (i : Int) : Option GuPreviewPage :=
  if i < 0 then none else pc.pages[i.toNat]?

/-- Whether page `i` exists and holds a cached bitmap (`rendering != NULL`). -/
def has_rendering (pc : GuPreviewGui) (i : Int) : Bool :=
  match page_at pc i with
  | some p => p.rendering.isSome
  | none => false

/-- The macro `page_inner(pc,i)`. -/
def page_inner (pc : GuPreviewGui) (i : Int) : Option LayeredRectangle :=
  (page_at pc i).map (fun p => p.inner)

/-! ## Layout helpers -/

/-- Source: `get_document_margin`. -/
def get_document_margin (k : Constants) (pc : GuPreviewGui) : Int :=
  if pc.pageLayout = .SINGLE_PAGE then 0 else k.DOCUMENT_MARGIN

/-- Source: `get_page_margin`. -/
def get_page_margin (k : Constants) (_pc : GuPreviewGui) : Int := k.PAGE_MARGIN

/-- Source: `is_continuous`. -/
def is_continuous (pc : GuPreviewGui) : Bool :=
  if pc.pageLayout = .ONE_COLUMN then true else false

/-- Source: `get_page_height`. -/
def get_page_height (pc : GuPreviewGui) (page : Int) : ℚ :=
  if page < 0 ∨ page ≥ pc.n_pages then -1
  else match page_at pc page with
    | some p => p.height
    | none => -1

/-- Source: `get_page_width`. -/
def get_page_width (pc : GuPreviewGui) (page : Int) : ℚ :=
  if page < 0 ∨ page ≥ pc.n_pages then -1
  else match page_at pc page with
    | some p => p.width
    | none => -1

/-- Source: `get_retina_scale_factor`. -/
def get_retina_scale_factor (pc : GuPreviewGui) : ℚ :=
  match pc.window_scale_factor with
  | some f => (f : ℚ)
  | none => 1

/-- Source: `get_fov`. -/
def get_fov (pc : GuPreviewGui) : LayeredRectangle :=
  { x := gint_of_double pc.hadj.value
    y := gint_of_double pc.vadj.value
    width := gint_of_double pc.hadj.page_size
    height := gint_of_double pc.vadj.page_size
    layer := if is_continuous pc then 0 else pc.current_page }

/-- Source: `layered_rectangle_intersect`.  The result is the boolean and the
content of `dest` afterwards (`none` when `dest` is `NULL`). -/
def layered_rectangle_intersect (src1 src2 : Option LayeredRectangle)
    (dest : Option LayeredRectangle) : Bool × Option LayeredRectangle :=
  let miss : Bool × Option LayeredRectangle :=
    (false, dest.map (fun d => { d with width := 0, height := 0 }))
  match src1, src2 with
  | some s1, some s2 =>
    if s1.layer = s2.layer then
      let dest_x := max s1.x s2.x
      let dest_y := max s1.y s2.y
      let dest_x2 := min (s1.x + s1.width) (s2.x + s2.width)
      let dest_y2 := min (s1.y + s1.height) (s2.y + s2.height)
      if dest_x2 > dest_x ∧ dest_y2 > dest_y then
        (true, dest.map (fun _ =>
          { x := dest_x, y := dest_y, width := dest_x2 - dest_x,
            height := dest_y2 - dest_y, layer := s1.layer }))
      else miss
    else miss
  | _, _ => miss

/-- The test `layered_rectangle_intersect(&fov, &(page_inner(pc, i)), NULL)`. -/
def page_in_fov (fov : LayeredRectangle) (pc : GuPreviewGui) (i : Int) : Bool :=
  match page_inner pc i with
  | some r => (layered_rectangle_intersect (some fov) (some r) none).1
  | none => false

/-! ## Render cache -/

/-- Source: `remove_page_rendering`.  Returns the new state and the boolean. -/
def remove_page_rendering (k : Constants) (pc : GuPreviewGui) (page : Int) :
    GuPreviewGui × Bool :=
  match page_at pc page with
  | none => (pc, false)
  | some p =>
    match p.rendering with
    | none => (pc, false)
    | some _ =>
      ({ pc with
          pages := pc.pages.set page.toNat { p with rendering := none }
          cache_size := pc.cache_size - p.inner.width * p.inner.height * k.BYTES_PER_PIXEL },
       true)

/-- The loop of `previewgui_invalidate_renderings` over `i = start, ..`. -/
def invalidate_loop (k : Constants) : Nat → Int → GuPreviewGui → GuPreviewGui
  | 0, _, pc => pc
  | fuel + 1, i, pc => invalidate_loop k fuel (i + 1) (remove_page_rendering k pc i).1

/-- Source: `previewgui_invalidate_renderings`.  The second component tells
whether the error "cache not empty" is logged. -/
def previewgui_invalidate_renderings (k : Constants) (pc : GuPreviewGui) :
    GuPreviewGui × Bool :=
  let pc1 := invalidate_loop k pc.pages.length 0 pc
  (pc1, decide (pc1.cache_size ≠ 0))

/-- Source: `do_render`.  `ok` says that the page handle exists and the surface
was created with status `CAIRO_STATUS_SUCCESS`. -/
def do_render (ok : Bool) (pc : GuPreviewGui) (width height : Int) : Option Surface :=
  if ¬ ok then none
  else
    let user_scale := pc.scale
    let dpi_scale := get_retina_scale_factor pc
    some { width := gint_of_double ((width : ℚ) * user_scale * dpi_scale)
           height := gint_of_double ((height : ℚ) * user_scale * dpi_scale) }

/-- Source: `get_page_rendering`.  Returns the new state and the surface. -/
def get_page_rendering (k : Constants) (ok : Bool) (pc : GuPreviewGui) (page : Int) :
    GuPreviewGui × Option Surface :=
  match page_at pc page with
  | none => (pc, none)
  | some p =>
    match p.rendering with
    | some s => (pc, some s)
    | none =>
      let r := do_render ok pc (gint_of_double p.width) (gint_of_double p.height)
      ({ pc with
          pages := pc.pages.set page.toNat { p with rendering := r }
          cache_size := pc.cache_size + p.inner.width * p.inner.height * k.BYTES_PER_PIXEL
          render_log := pc.render_log ++ [page]
          gc_idle_sources := pc.gc_idle_sources + 1 },
       r)

/-! ## Garbage collector -/

/-- The scan of `run_garbage_collector` for `first` and `last`, from page `i`. -/
def gc_scan (fov : LayeredRectangle) (pc : GuPreviewGui) :
    Nat → Int → Int × Int → Int × Int
  | 0, _, fl => fl
  | fuel + 1, i, (first, last) =>
    if page_in_fov fov pc i then
      gc_scan fov pc fuel (i + 1) (if first = -1 then i else first, i)
    else
      gc_scan fov pc fuel (i + 1) (first, last)

/-- One conditional eviction of the loop body: page `idx` is removed when it is
a valid index, does not intersect the field of view and holds a bitmap.  The
source counts the removals in `n`; here each removal is recorded as the pair
of the page index and the value of `cache_size` just before the removal. -/
def gc_evict (k : Constants) (fov : LayeredRectangle) (idx : Int)
    (s : GuPreviewGui × List (Int × Int)) : GuPreviewGui × List (Int × Int) :=
  if idx ≥ 0 ∧ idx < s.1.n_pages then
    if ¬ page_in_fov fov s.1 idx then
      match remove_page_rendering k s.1 idx with
      | (pc1, true) => (pc1, s.2 ++ [(idx, s.1.cache_size)])
      | (pc1, false) => (pc1, s.2)
    else s
  else s

/-- The loop `for (; dist > 0; dist--)` of `run_garbage_collector`. -/
def gc_loop (k : Constants) (fov : LayeredRectangle) (max_cache_size first last : Int) :
    Nat → GuPreviewGui × List (Int × Int) → GuPreviewGui × List (Int × Int)
  | 0, s => s
  | d + 1, s =>
    let dist : Int := (d : Int) + 1
    let s1 := gc_evict k fov (first - dist) s
    if s1.1.cache_size < Int.tdiv max_cache_size 2 then s1
    else
      let s2 := gc_evict k fov (last + dist) s1
      if s2.1.cache_size < Int.tdiv max_cache_size 2 then s2
      else gc_loop k fov max_cache_size first last d s2

/-- The visible index range `(first, last)` computed by `run_garbage_collector`. -/
def gc_range (pc : GuPreviewGui) : Int × Int :=
  gc_scan (get_fov pc) pc pc.pages.length 0 (-1, -1)

/-- The value a 32-bit `gint` holds when an arithmetic result is `n`: the
representative of `n` modulo 2^32 between -2^31 and 2^31 - 1. -/
def gint_wrap (n : Int) : Int := (n + 2147483648) % 4294967296 - 2147483648

/-- The local `max_cache_size` of `run_garbage_collector`:
`config_get_integer ("Preview", "cache_size") * 1024 * 1024`, a product of
`gint`s stored in a `gint`. -/
def gc_max_cache_size (cfg_cache_size : Int) : Int :=
  gint_wrap (cfg_cache_size * 1024 * 1024)

/-- Source: `run_garbage_collector`; `cfg_cache_size` is the configuration
value `Preview/cache_size` (in MB).  Returns the new state and the list of
removals made by the distance loop (its length is the source's `n`). -/
def run_garbage_collector (k : Constants) (cfg_cache_size : Int) (pc : GuPreviewGui) :
    GuPreviewGui × List (Int × Int) :=
  let max_cache_size := gc_max_cache_size cfg_cache_size
  if pc.cache_size < max_cache_size then (pc, [])
  else
    let fov := get_fov pc
    let fl := gc_range pc
    let first := fl.1
    let last := fl.2
    let pc1 := if first = -1 then (previewgui_invalidate_renderings k pc).1 else pc
    let dist := max first (pc.n_pages - 1 - last)
    gc_loop k fov max_cache_size first last dist.toNat (pc1, [])

/-- A page record with its cached bitmap dropped. -/
def clear_rendering (p : GuPreviewPage) : GuPreviewPage := { p with rendering := none }

/-- Relation between a cache state `pc` and a later state `r` in which some
pages outside the field of view have lost their bitmap and nothing else about
the pages has changed. -/
def Evolves (fov : LayeredRectangle) (pc r : GuPreviewGui) : Prop :=
  ∀ j : Int, page_at r j = page_at pc j ∨
    (page_in_fov fov pc j = false ∧ page_at r j = (page_at pc j).map clear_rendering)

/-- What the scan of `run_garbage_collector` knows about `(first, last)` once
the pages below index `i` have been examined. -/
def ScanInv (fov : LayeredRectangle) (pc : GuPreviewGui) (i : Int) (fl : Int × Int) : Prop :=
  (fl.1 = -1 ∧ fl.2 = -1 ∧ ∀ j : Int, 0 ≤ j → j < i → page_in_fov fov pc j = false) ∨
  (0 ≤ fl.1 ∧ fl.1 ≤ fl.2 ∧ fl.2 < i ∧ page_in_fov fov pc fl.1 = true ∧
    page_in_fov fov pc fl.2 = true ∧
    ∀ j : Int, 0 ≤ j → j < i → page_in_fov fov pc j = true → fl.1 ≤ j ∧ j ≤ fl.2)

/-! ## Concrete states used to exercise the statements -/

/-- Constants used in the concrete examples (4 bytes per pixel). -/
def kExample : Constants :=
  { BYTES_PER_PIXEL := 4, DOCUMENT_MARGIN := 10, PAGE_MARGIN := 8,
    PAGE_SHADOW_WIDTH := 4, ASCROLL_STEPS := 25
    ASCROLL_CONST_A := 3 / 8, ASCROLL_CONST_B := -5 / 4, ASCROLL_CONST_C := 15 / 8 }

/-- A rendered page of 512 by 512 pixels whose inner box starts at height `y`. -/
def examplePage (y : Int) : GuPreviewPage :=
  { rendering := some { width := 512, height := 512 }
    width := 512, height := 512
    inner := { x := 10, y := y, width := 512, height := 512, layer := 0 }
    outer := { x := 9, y := y - 1, width := 516, height := 516, layer := 0 } }

/-- Ten equally sized pages (1 MiB of bitmap each), all rendered, stacked in
continuous layout; the view (600 by 500 at vertical offset 2085) shows page 4
only.  With a budget of 5 MiB the cache holds twice the budget. -/
def tenPages : GuPreviewGui :=
  { pageLayout := .ONE_COLUMN
    hadj := { value := 0, upper := 600, page_size := 600 }
    vadj := { value := 2085, upper := 5220, page_size := 500 }
    scale := 1
    current_page := 4
    pages := [examplePage 10, examplePage 530, examplePage 1050, examplePage 1570,
              examplePage 2090, examplePage 2610, examplePage 3130, examplePage 3650,
              examplePage 4170, examplePage 4690]
    cache_size := 10485760
    width_scaled := 512
    height_scaled := 5192 }

/-- The bytes `remove_page_rendering` subtracts for page `i`:
`inner.width * inner.height * BYTES_PER_PIXEL`. -/
def page_footprint (k : Constants) (pc : GuPreviewGui) (i : Int) : Int :=
  match page_at pc i with
  | some p => p.inner.width * p.inner.height * k.BYTES_PER_PIXEL
  | none => 0

/-- Byte accounting of a list of removals: starting from `start` bytes, each
entry `(page, c)` is made when the cache holds exactly `c` bytes and takes the
footprint of `page` away, ending with `final` bytes. -/
def LogConsistent (k : Constants) (pc : GuPreviewGui) : Int → List (Int × Int) → Int → Prop
  | start, [], final => final = start
  | start, (p, c) :: rest, final =>
    c = start ∧ LogConsistent k pc (c - page_footprint k pc p) rest final

/-- Invariant of the eviction loop relative to the state `pc0` at loop entry:
only bitmaps outside the view were dropped, every recorded removal was made
while the cache held at least `half` bytes, the record accounts for the bytes
exactly, and the recorded pages are exactly the pages that lost their bitmap. -/
def GcLogInv (k : Constants) (fov : LayeredRectangle) (half : Int) (pc0 : GuPreviewGui)
    (s : GuPreviewGui × List (Int × Int)) : Prop :=
  Evolves fov pc0 s.1 ∧
  (∀ e ∈ s.2, half ≤ e.2) ∧
  LogConsistent k pc0 pc0.cache_size s.2 s.1.cache_size ∧
  (∀ i : Int, has_rendering pc0 i = true → has_rendering s.1 i = false → ∃ c, (i, c) ∈ s.2) ∧
  (∀ e ∈ s.2, has_rendering pc0 e.1 = true ∧ has_rendering s.1 e.1 = false)

/-- Distance of page index `i` from the visible range `[first, last]`. -/
def gc_dist (first last i : Int) : Int := if i < first then first - i else i - last

/-- A single unrendered page of 10 by 10 points at scale 1 on a window whose
device scale factor is 2 (a high-density display); the cache is empty. -/
def retinaPage : GuPreviewGui :=
  { pageLayout := .ONE_COLUMN
    hadj := { value := 0, upper := 100, page_size := 100 }
    vadj := { value := 0, upper := 100, page_size := 100 }
    scale := 1
    pages := [{ rendering := none, width := 10, height := 10
                inner := { x := 45, y := 45, width := 10, height := 10, layer := 0 }
                outer := { x := 44, y := 44, width := 14, height := 14, layer := 0 } }]
    cache_size := 0
    window_scale_factor := some 2 }

/-- The bytes held by the cached bitmaps: the sum over the pages holding one of
`bitmap.width * bitmap.height * BYTES_PER_PIXEL`. -/
def cache_bitmap_bytes (k : Constants) (pc : GuPreviewGui) : Int :=
  (pc.pages.map (fun p =>
    match p.rendering with
    | some s => s.width * s.height * k.BYTES_PER_PIXEL
    | none => 0)).sum

/-! ## SyncTeX candidates -/

/-- The assignment `node->score = -1` on the `i`-th element of the list
(`g_slist_nth_data (pc->sync_nodes, i)`). -/
def mark_selected : List SyncNode → Nat → List SyncNode
  | [], _ => []
  | sn :: nl, 0 => { sn with score := -1 } :: nl
  | sn :: nl, i + 1 => sn :: mark_selected nl i

/-- The `while` loop of `synctex_one_node_found`, from list position `n` on, with
the current `score_max_id` and `score_other`; returns the final `score_max_id`. -/
def one_node_scan : List SyncNode → Int → Int → Int → Int
  | [], _, score_max_id, _ => score_max_id
  | sn :: nl, n, score_max_id, score_other =>
    if sn.score > score_other then one_node_scan nl (n + 1) n sn.score
    else if sn.score = score_other then one_node_scan nl (n + 1) (-1) score_other
    else one_node_scan nl (n + 1) score_max_id score_other

/-- Source: `synctex_one_node_found`.  The returned node pointer is given as the
index of the node in `sync_nodes` (`none` for `NULL`). -/
def synctex_one_node_found (pc : GuPreviewGui) : GuPreviewGui × Option Nat :=
  if pc.sync_nodes.length = 1 then
    ({ pc with sync_nodes := mark_selected pc.sync_nodes 0 }, some 0)
  else
    let score_max_id := one_node_scan pc.sync_nodes 0 (-1) 0
    if score_max_id ≥ 0 then
      ({ pc with sync_nodes := mark_selected pc.sync_nodes score_max_id.toNat },
       some score_max_id.toNat)
    else (pc, none)

/-- Candidate `i` of the list has a score that is positive and strictly greater
than the score of every other candidate. -/
def IsUniquePositiveMax (l : List SyncNode) (i : Nat) : Prop :=
  ∃ a, l[i]? = some a ∧ 0 < a.score ∧
    ∀ (j : Nat) (b : SyncNode), j ≠ i → l[j]? = some b → b.score < a.score

/-- State of the scan of `synctex_one_node_found` after the candidates `pre`. -/
def ScoreScanInv (pre : List SyncNode) (score_max_id score_other : Int) : Prop :=
  0 ≤ score_other ∧
  (∀ (j : Nat) (b : SyncNode), pre[j]? = some b → b.score ≤ score_other) ∧
  ((score_max_id = -1 ∧
      (score_other = 0 ∨ ∃ (i j : Nat) (a b : SyncNode), i ≠ j ∧ pre[i]? = some a ∧
        pre[j]? = some b ∧ a.score = score_other ∧ b.score = score_other)) ∨
   (0 ≤ score_max_id ∧ 0 < score_other ∧
      (∃ a, pre[score_max_id.toNat]? = some a ∧ a.score = score_other) ∧
      ∀ (j : Nat) (b : SyncNode), j ≠ score_max_id.toNat → pre[j]? = some b →
        b.score < score_other))

/-- A list of candidates on page 0 with the given scores. -/
def nodesWithScores (scores : List Int) : List SyncNode :=
  scores.map (fun s => { page := 0, x := 0, y := 0, width := 10, height := 10, score := s })

/-- The local variables `x1, y1, x2, y2, page` of `synctex_merge_nodes`. -/
structure MergeAcc where
  x1 : Int
  y1 : Int
  x2 : Int
  y2 : Int
  page : Int
deriving DecidableEq, Repr

/-- The `while` loop of `synctex_merge_nodes`; `none` is the early `return` taken
when two nodes are found to be on different pages. -/
def merge_scan : List SyncNode → MergeAcc → Option MergeAcc
  | [], acc => some acc
  | sn :: nl, acc =>
    if acc.page = -1 then
      merge_scan nl
        { x1 := min acc.x1 sn.x, y1 := min acc.y1 sn.y,
          x2 := max acc.x2 (sn.x + sn.width), y2 := max acc.y2 (sn.y + sn.height),
          page := sn.page }
    else if acc.page ≠ sn.page then none
    else
      merge_scan nl
        { x1 := min acc.x1 sn.x, y1 := min acc.y1 sn.y,
          x2 := max acc.x2 (sn.x + sn.width), y2 := max acc.y2 (sn.y + sn.height),
          page := acc.page }

/-- Source: `synctex_merge_nodes`.  The two sides of the test
`(y2-y1)*pc->scale < page_size/3` are the `gdouble` results of the product and
of the quotient. -/
def synctex_merge_nodes (pc : GuPreviewGui) : GuPreviewGui :=
  match merge_scan pc.sync_nodes
      { x1 := INT_MAX, y1 := INT_MAX, x2 := -1, y2 := -1, page := -1 } with
  | none => pc
  | some acc =>
    if round_double (((acc.y2 - acc.y1 : Int) : ℚ) * pc.scale)
        < round_double (pc.vadj.page_size / 3) then
      { pc with sync_nodes :=
          [{ page := acc.page, x := acc.x1, y := acc.y1, width := acc.x2 - acc.x1,
             height := acc.y2 - acc.y1, score := 0 }] }
    else pc

/-- The rectangle `(x, y, w, h)` is the bounding box of the candidates of `l`: it
contains every candidate and each of its four edges is the edge of a candidate. -/
def IsBoundingBox (l : List SyncNode) (x y w h : Int) : Prop :=
  (∀ sn ∈ l, x ≤ sn.x ∧ y ≤ sn.y ∧ sn.x + sn.width ≤ x + w ∧ sn.y + sn.height ≤ y + h) ∧
  (∃ sn ∈ l, sn.x = x) ∧ (∃ sn ∈ l, sn.y = y) ∧
  (∃ sn ∈ l, sn.x + sn.width = x + w) ∧ (∃ sn ∈ l, sn.y + sn.height = y + h)

/-- Three candidates on page 2 whose bounding box is 200 wide and 100 high, in a
view 1000 pixels high at scale 1. -/
def threeClose : GuPreviewGui :=
  { vadj := { value := 0, upper := 3000, page_size := 1000 }
    scale := 1
    sync_nodes :=
      [{ page := 2, x := 100, y := 300, width := 200, height := 20, score := 0 },
       { page := 2, x := 100, y := 340, width := 150, height := 20, score := 0 },
       { page := 2, x := 120, y := 380, width := 100, height := 20, score := 0 }] }

/-- Two candidates on page 0 lying entirely at negative coordinates: their
bounding box is 25 wide and 15 high. -/
def twoNegative : GuPreviewGui :=
  { vadj := { value := 0, upper := 3000, page_size := 1000 }
    scale := 1
    sync_nodes :=
      [{ page := 0, x := -50, y := -50, width := 10, height := 10, score := 0 },
       { page := 0, x := -30, y := -40, width := 5, height := 5, score := 0 }] }

/-- Two candidates on page 0 with a bounding box 1000 high in a view 1000 high,
at the scale `200.0/600` (the `gdouble` nearest to one third). -/
def tiedHeight : GuPreviewGui :=
  { vadj := { value := 0, upper := 3000, page_size := 1000 }
    scale := 6004799503160661 / 18014398509481984
    sync_nodes :=
      [{ page := 0, x := 0, y := 0, width := 10, height := 400, score := 0 },
       { page := 0, x := 0, y := 600, width := 10, height := 400, score := 0 }] }

/-! ## Scrolling to a SyncTeX node -/

/-- The accumulated `get_page_height(pc, i)*pc->scale + get_page_margin(pc)` over
the pages `i < n` (the loop of `synctex_scroll_to_node` in continuous layout). -/
def height_before (k : Constants) (pc : GuPreviewGui) : Nat → ℚ
  | 0 => 0
  | n + 1 =>
    height_before k pc n + (get_page_height pc n * pc.scale + (get_page_margin k pc : ℚ))

/-- The local `adjpage_width` of `synctex_scroll_to_node` (a `gint`). -/
def adjpage_width (pc : GuPreviewGui) : Int := gint_of_double pc.hadj.page_size

/-- The local `adjpage_height` of `synctex_scroll_to_node` (a `gint`). -/
def adjpage_height (pc : GuPreviewGui) : Int := gint_of_double pc.vadj.page_size

/-- The final value of the local `node_x` of `synctex_scroll_to_node`. -/
def sync_node_x (k : Constants) (pc : GuPreviewGui) (node : SyncNode) : ℚ :=
  max (get_document_margin k pc : ℚ) (((adjpage_width pc : ℚ) - pc.width_scaled) / 2)
    + (node.x : ℚ) * pc.scale

/-- The final value of the local `node_y` of `synctex_scroll_to_node`. -/
def sync_node_y (k : Constants) (pc : GuPreviewGui) (node : SyncNode) : ℚ :=
  (if is_continuous pc then
      max (get_document_margin k pc : ℚ) (((adjpage_height pc : ℚ) - pc.height_scaled) / 2)
        + height_before k pc node.page.toNat
    else
      let height := get_page_height pc pc.current_page * pc.scale
      max (get_document_margin k pc : ℚ) (((adjpage_height pc : ℚ) - height) / 2))
    + (node.y : ℚ) * pc.scale

/-- The position `(to_x, to_y)` computed by `synctex_scroll_to_node` before it
navigates there. -/
def synctex_scroll_target (k : Constants) (pc : GuPreviewGui) (node : SyncNode) : ℚ × ℚ :=
  let node_y := sync_node_y k pc node
  let node_x := sync_node_x k pc node
  let node_height := (node.height : ℚ) * pc.scale
  let node_width := (node.width : ℚ) * pc.scale
  let view_x := pc.hadj.value
  let view_width : ℚ := adjpage_width pc
  let view_y := pc.vadj.value
  let view_height : ℚ := adjpage_height pc
  let to_y :=
    if node_y > view_y ∧ node_y + node_height < view_y + view_height then view_y
    else if node_height < view_height then node_y + (node_height - view_height) / 2
    else node_y
  let to_x :=
    if node_x > view_x ∧ node_x + node_width < view_x + view_width then view_x
    else if node_width < view_width then node_x + (node_width - view_width) / 2
    else node_x
  (to_x, to_y)

/-- A continuous two-page document in a 400 by 100 view scrolled to (5, 10). -/
def scrolledView : GuPreviewGui :=
  { pageLayout := .ONE_COLUMN
    hadj := { value := 5, upper := 620, page_size := 400 }
    vadj := { value := 10, upper := 1628, page_size := 100 }
    scale := 1
    pages := [{ width := 600, height := 800 }, { width := 600, height := 800 }]
    width_scaled := 600
    height_scaled := 1608 }

/-- The GLib macro `CLAMP(x, low, high)`:
`((x) > (high)) ? (high) : (((x) < (low)) ? (low) : (x))`. -/
def CLAMP (x low high : ℚ) : ℚ :=
  if x > high then high else if x < low then low else x

/-- Source: `block_handlers_current_page` (the four handlers are blocked together). -/
def block_handlers_current_page (pc : GuPreviewGui) : GuPreviewGui :=
  { pc with handler_block_count := pc.handler_block_count + 1 }

/-- Source: `unblock_handlers_current_page`.  GLib leaves a handler that is not
blocked as it is, hence the truncated subtraction. -/
def unblock_handlers_current_page (pc : GuPreviewGui) : GuPreviewGui :=
  { pc with handler_block_count := pc.handler_block_count - 1 }

/-- Source: `previewgui_save_position`. -/
def previewgui_save_position (pc : GuPreviewGui) : GuPreviewGui :=
  match pc.active_tab with
  | some tab =>
    if ¬ pc.errormode then
      let tab1 : ActiveTab := { tab with scroll_x := pc.hadj.value, scroll_y := pc.vadj.value }
      block_handlers_current_page { pc with active_tab := some tab1 }
    else pc
  | none => pc

/-- The toolkit call `gtk_adjustment_set_value (adjustment, value)`: GTK stores
`MAX (MIN (value, upper - page_size), lower)`.  The lower bound of the two
adjustments of the scrolled window is 0 and the source never changes it. -/
def gtk_adjustment_set_value (adj : GtkAdjustment) (value : ℚ) : GtkAdjustment :=
  { adj with value := max (min value (adj.upper - adj.page_size)) 0 }

/-- Source: `previewgui_goto_xy`; an argument `none` is NaN. -/
def previewgui_goto_xy (pc : GuPreviewGui) (x y : Option ℚ) : GuPreviewGui :=
  match x, y with
  | some x, some y =>
    let x1 := CLAMP x 0 (pc.hadj.upper - pc.hadj.page_size)
    let y1 := CLAMP y 0 (pc.vadj.upper - pc.vadj.page_size)
    let pc1 := block_handlers_current_page pc
    let pc2 := { pc1 with hadj := gtk_adjustment_set_value pc1.hadj x1 }
    let pc3 := { pc2 with vadj := gtk_adjustment_set_value pc2.vadj y1 }
    let pc4 := previewgui_save_position pc3
    unblock_handlers_current_page pc4
  | _, _ => pc

/-- A document 300 by 400 pixels shown at a fixed zoom in a 600 by 500 view: the
content is smaller than the view on both axes (`upper < page_size`). -/
def smallContent : GuPreviewGui :=
  { pageLayout := .ONE_COLUMN
    hadj := { value := 0, upper := 300, page_size := 600 }
    vadj := { value := 0, upper := 400, page_size := 500 }
    scale := 1
    pages := [{ width := 280, height := 380 }]
    width_scaled := 280
    height_scaled := 380 }

/-! ## Cache accounting over a whole document -/

/-- The bytes the counter should hold according to the code's own bookkeeping:
the sum of `inner.width * inner.height * BYTES_PER_PIXEL` over the pages that
hold a bitmap. -/
def cache_footprint_sum (k : Constants) (pc : GuPreviewGui) : Int :=
  (pc.pages.map (fun p =>
    if p.rendering.isSome then p.inner.width * p.inner.height * k.BYTES_PER_PIXEL else 0)).sum

/-- A sequence of `get_page_rendering` calls for the pages `reqs`, with nothing
else in between; `ok` tells whether the renderer succeeds. -/
def get_pages_rendering (k : Constants) (ok : Bool) (pc : GuPreviewGui) :
    List Int → GuPreviewGui
  | [] => pc
  | p :: rest => get_pages_rendering k ok (get_page_rendering k ok pc p).1 rest

/-- The state left by one failed render of page 0 of `retinaPage`: no page holds
a bitmap but the counter is not zero. -/
def staleCounter : GuPreviewGui := (get_page_rendering kExample false retinaPage 0).1
/-! ## Page layout -/

/-- The loop of the continuous branch of `update_page_positions` over the
remaining pages, with the running `y`; returns the pages with their inner
rectangle set and the final `y`. -/
def layout_continuous (k : Constants) (pc : GuPreviewGui) (fov : LayeredRectangle) :
    List GuPreviewPage → Int → List GuPreviewPage × Int
  | [], y => ([], y)
  | p :: ps, y =>
    let w := gint_of_double (round_double (p.width * pc.scale))
    let h := gint_of_double (round_double (p.height * pc.scale))
    let r := layout_continuous k pc fov ps (y + h + get_page_margin k pc)
    ({ p with inner :=
        { y := y, width := w
          x := max (Int.tdiv (fov.width - w) 2) (get_document_margin k pc)
          height := h, layer := 0 } } :: r.1, r.2)

/-- The loop of the single-page branch of `update_page_positions`, from page
index `i` on. -/
def layout_single (k : Constants) (pc : GuPreviewGui) (fov : LayeredRectangle) :
    List GuPreviewPage → Int → List GuPreviewPage
  | [], _ => []
  | p :: ps, i =>
    let h := gint_of_double (round_double (p.height * pc.scale))
    let w := gint_of_double (round_double (p.width * pc.scale))
    { p with inner :=
        { height := h, width := w
          y := max (Int.tdiv (fov.height - h) 2) (get_document_margin k pc)
          x := max (Int.tdiv (fov.width - w) 2) (get_document_margin k pc)
          layer := i } } :: layout_single k pc fov ps (i + 1)

/-- The statement `page_inner(pc, i).y += diff`. -/
def shift_inner (diff : Int) (p : GuPreviewPage) : GuPreviewPage :=
  { p with inner := { p.inner with y := p.inner.y + diff } }

/-- The body of the last loop of `update_page_positions`: the outer rectangle. -/
def set_outer (k : Constants) (p : GuPreviewPage) : GuPreviewPage :=
  { p with outer :=
      { x := p.inner.x - 1, y := p.inner.y - 1
        width := p.inner.width + k.PAGE_SHADOW_WIDTH
        height := p.inner.height + k.PAGE_SHADOW_WIDTH
        layer := p.inner.layer } }

/-- Source: `update_page_positions`. -/
def update_page_positions (k : Constants) (pc : GuPreviewGui) : GuPreviewGui :=
  let fov := get_fov pc
  let pages1 :=
    if is_continuous pc then
      let r := layout_continuous k pc fov pc.pages (get_document_margin k pc)
      let y := r.2 - get_page_margin k pc + get_document_margin k pc
      if y < fov.height then
        let diff := Int.tdiv (fov.height - y) 2
        r.1.map (shift_inner diff)
      else r.1
    else layout_single k pc fov pc.pages 0
  { pc with pages := pages1.map (set_outer k) }

/-- The total stacked height the continuous layout compares with the height of
the field of view: the scaled page heights as stored (truncated to `gint`), the
page margins between the pages and the document margin at top and bottom. -/
def stacked_height (k : Constants) (pc : GuPreviewGui) : Int :=
  2 * get_document_margin k pc
    + (pc.pages.map (fun p => gint_of_double (round_double (p.height * pc.scale)))).sum
    + (pc.n_pages - 1) * get_page_margin k pc

/-- Three pages of 600 by 800 points in continuous layout at scale 1, in a view
of 620 by 900; nothing is rendered and the positions are not yet computed. -/
def threePages : GuPreviewGui :=
  { pageLayout := .ONE_COLUMN
    hadj := { value := 0, upper := 620, page_size := 620 }
    vadj := { value := 0, upper := 2436, page_size := 900 }
    scale := 1
    pages := [{ width := 600, height := 800 }, { width := 600, height := 800 },
              { width := 600, height := 800 }]
    width_scaled := 600
    height_scaled := 2416
    width_pages := 600
    height_pages := 2400
    max_page_height := 800 }

/-- A page of `threePages` as `update_page_positions` leaves it, at height `y`. -/
def laidPage (y : Int) : GuPreviewPage :=
  { width := 600, height := 800
    inner := { x := 10, y := y, width := 600, height := 800, layer := 0 }
    outer := { x := 9, y := y - 1, width := 604, height := 804, layer := 0 } }

/-- The state `threePages` with the page positions computed. -/
def threePagesLaid : GuPreviewGui :=
  { threePages with pages := [laidPage 10, laidPage 818, laidPage 1626] }

/-- Three pages of 595.5 by 841.5 points (the scaled height is not an integer) in
the same view. -/
def threeHalfPointPages : GuPreviewGui :=
  { threePages with
    pages := [{ width := 1191 / 2, height := 1683 / 2 }, { width := 1191 / 2, height := 1683 / 2 },
              { width := 1191 / 2, height := 1683 / 2 }] }

/-- The state `threePages` at scale 0.7, that is at the `gdouble` nearest to
0.7, with the scaled sizes and the adjustment ranges that go with it. -/
def threePagesZoomed : GuPreviewGui :=
  { threePages with
    scale := 3152519739159347 / 4503599627370496
    vadj := { value := 0, upper := 1716, page_size := 900 }
    width_scaled := 420
    height_scaled := 1696 }

/-- The state `threePages` in single-page layout, showing page 1. -/
def singleThree : GuPreviewGui :=
  { threePages with pageLayout := .SINGLE_PAGE, current_page := 1 }

/-! ## Resolving the SyncTeX candidates on refresh -/

/-- Source: `synctex_run_parser`.  `args_present` says that `sync_to` and
`tex_file` are not `NULL`; `results` are the nodes the SyncTeX display query
returns, already converted (page counted from 0, `y` the upper edge, score 0). -/
def synctex_run_parser_fn (args_present : Bool) (results : List SyncNode) (pc : GuPreviewGui) :
    GuPreviewGui × Bool :=
  if ¬ args_present then (pc, false)
  else ({ pc with sync_nodes := results }, true)

/-- Source: `synctex_filter_results`.  `words` holds, for each word found walking
backward from the edit position (the loop stops when there is none, and after
five), the outcome of matching that word against the text under a node. -/
def synctex_filter_results (words : List (SyncNode → Bool)) (pc : GuPreviewGui) :
    GuPreviewGui :=
  if pc.sync_nodes.length = 0 then pc
  else
    (words.take 5).foldl
      (fun st w =>
        { st with sync_nodes :=
            st.sync_nodes.map (fun sn => if w sn then { sn with score := sn.score + 1 } else sn) })
      pc

/-- The resolution of the candidates in `previewgui_refresh` once
`synctex_run_parser` has returned `TRUE`: `synctex_one_node_found`, then
`synctex_merge_nodes` and `synctex_filter_results` each only if no node was
found, then the last `synctex_one_node_found`.  The second component is the node
with which `synctex_scroll_to_node` is called (`none`: it is not called). -/
def refresh_resolve_nodes (words : List (SyncNode → Bool)) (pc : GuPreviewGui) :
    GuPreviewGui × Option Nat :=
  let r1 := synctex_one_node_found pc
  let pc2 := if r1.2 = none then synctex_merge_nodes r1.1 else r1.1
  let r3 := synctex_one_node_found pc2
  let pc4 := if r3.2 = none then synctex_filter_results words r3.1 else r3.1
  synctex_one_node_found pc4

/-- The three laid-out pages after a forward query that returned no candidate. -/
def syncMiss : GuPreviewGui :=
  (synctex_run_parser_fn true [] threePagesLaid).1

/-- Two close candidates on pages 2 and 3. -/
def twoPagesClose : GuPreviewGui :=
  { vadj := { value := 0, upper := 3000, page_size := 1000 }
    scale := 1
    sync_nodes :=
      [{ page := 2, x := 100, y := 300, width := 200, height := 20, score := 0 },
       { page := 3, x := 100, y := 340, width := 150, height := 20, score := 0 }] }

/-! ## Scale and fit -/

/-- What `update_fit_scale` reads from the toolkit: the style property
`scrollbar_spacing`, the preferred size of the horizontal scrollbar, the size of
the viewport's view window and the visibility of the two scrollbars. -/
structure ViewMetrics where
  scrollbar_spacing : Int
  req_width : Int
  req_height : Int
  view_window_width : Int
  view_window_height : Int
  vscrollbar_visible : Bool
  hscrollbar_visible : Bool
deriving DecidableEq, Repr

/-- The fit mode `g_active_tab->fit_mode`.  The source dereferences
`g_active_tab` without a test; for a missing tab the value is taken as
`FIT_NUMERIC`, in which `update_fit_scale` does nothing. -/
def fit_mode_of (pc : GuPreviewGui) : GuPreviewFitModes :=
  match pc.active_tab with
  | some tab => tab.fit_mode
  | none => .FIT_NUMERIC

/-- Source: `update_scaled_size`. -/
def update_scaled_size (k : Constants) (pc : GuPreviewGui) : GuPreviewGui :=
  let height_scaled : ℚ :=
    if is_continuous pc then
      pc.height_pages * pc.scale + (((pc.n_pages - 1) * get_page_margin k pc : Int) : ℚ)
    else get_page_height pc pc.current_page * pc.scale
  { pc with height_scaled := height_scaled, width_scaled := pc.width_pages * pc.scale }

/-- Source: `update_drawarea_size`.  `gtk_adjustment_set_upper` is taken as the
plain store of the value. -/
def update_drawarea_size (k : Constants) (pc : GuPreviewGui) : GuPreviewGui :=
  let w_full := gint_of_double (pc.width_scaled + ((2 * get_document_margin k pc : Int) : ℚ))
  let h_full := gint_of_double (pc.height_scaled + ((2 * get_document_margin k pc : Int) : ℚ))
  let width : Int :=
    match fit_mode_of pc with
    | .FIT_NUMERIC => w_full
    | .FIT_WIDTH => 1
    | .FIT_BOTH => 1
  let height : Int :=
    match fit_mode_of pc with
    | .FIT_NUMERIC => h_full
    | .FIT_WIDTH => h_full
    | .FIT_BOTH => if is_continuous pc then h_full else 1
  let pc1 := block_handlers_current_page { pc with drawarea_size_request := (width, height) }
  let pc2 := { pc1 with hadj :=
    { pc1.hadj with upper := if width = 1 then pc1.hadj.page_size else (width : ℚ) } }
  let pc3 := { pc2 with vadj :=
    { pc2.vadj with upper := if height = 1 then pc2.vadj.page_size else (height : ℚ) } }
  unblock_handlers_current_page pc3

/-- Source: `previewgui_set_scale`; `none` for `x` or `y` is NaN.  The boolean
tells whether the call went past its first test, that is, whether it invoked
`previewgui_invalidate_renderings`.  The block and unblock of the draw handler
around `update_drawarea_size` and the queued redraw are not represented. -/
def previewgui_set_scale (k : Constants) (pc : GuPreviewGui) (scale : ℚ)
    (x y : Option ℚ) : GuPreviewGui × Bool :=
  if pc.scale = scale then (pc, false)
  else
    let pc1 := (previewgui_invalidate_renderings k pc).1
    let pc2 := { pc1 with scale := scale }
    let pc3 := update_scaled_size k pc2
    let pc4 := update_page_positions k pc3
    let pc5 := update_drawarea_size k pc4
    match x, y with
    | some x, some y =>
      if x ≥ 0 ∧ y ≥ 0 then
        let old_x :=
          (pc.hadj.value + x) / (pc.width_scaled + ((2 * get_document_margin k pc : Int) : ℚ))
        let old_y :=
          (pc.vadj.value + y) / (pc.height_scaled + ((2 * get_document_margin k pc : Int) : ℚ))
        let new_x :=
          old_x * (pc5.width_scaled + ((2 * get_document_margin k pc5 : Int) : ℚ)) - x
        let new_y :=
          old_y * (pc5.height_scaled + ((2 * get_document_margin k pc5 : Int) : ℚ)) - y
        (previewgui_goto_xy pc5 (some new_x) (some new_y), true)
      else (pc5, true)
    | _, _ => (pc5, true)

/-- The local `vscrollbar_width` of `update_fit_scale`. -/
def vscrollbar_width (env : ViewMetrics) : Int := env.scrollbar_spacing + env.req_width

/-- The local `hscrollbar_height` of `update_fit_scale`. -/
def hscrollbar_height (env : ViewMetrics) : Int := env.scrollbar_spacing + env.req_height

/-- The local `view_width_without_bar` of `update_fit_scale`. -/
def view_width_without_bar (env : ViewMetrics) : Int :=
  if env.vscrollbar_visible then env.view_window_width + vscrollbar_width env
  else env.view_window_width

/-- The local `view_height_without_bar` of `update_fit_scale`. -/
def view_height_without_bar (env : ViewMetrics) : Int :=
  if env.hscrollbar_visible then env.view_window_height + hscrollbar_height env
  else env.view_window_height

/-- The local `view_width_with_bar` of `update_fit_scale`. -/
def view_width_with_bar (env : ViewMetrics) : Int :=
  view_width_without_bar env - vscrollbar_width env

/-- The local `height_scaling` of `update_fit_scale`: the tallest page in
continuous layout, the current page otherwise. -/
def fit_height_scaling (pc : GuPreviewGui) : ℚ :=
  if is_continuous pc then pc.max_page_height else get_page_height pc pc.current_page

/-- The local `full_height_non_scaling` of `update_fit_scale`. -/
def full_height_non_scaling (k : Constants) (pc : GuPreviewGui) : Int :=
  (pc.n_pages - 1) * get_page_margin k pc + 2 * get_document_margin k pc

/-- The local `scale_height_without_bar` of `update_fit_scale`. -/
def scale_height_without_bar (k : Constants) (env : ViewMetrics) (pc : GuPreviewGui) : ℚ :=
  ((view_height_without_bar env : ℚ) - ((2 * get_document_margin k pc : Int) : ℚ))
    / fit_height_scaling pc

/-- The local `scale_full_height_without_bar` of `update_fit_scale`. -/
def scale_full_height_without_bar (k : Constants) (env : ViewMetrics) (pc : GuPreviewGui) :
    ℚ :=
  ((view_height_without_bar env : ℚ) - (full_height_non_scaling k pc : ℚ)) / pc.height_pages

/-- The local `scale_width_without_bar` of `update_fit_scale`. -/
def scale_width_without_bar (k : Constants) (env : ViewMetrics) (pc : GuPreviewGui) : ℚ :=
  ((view_width_without_bar env : ℚ) - ((2 * get_document_margin k pc : Int) : ℚ))
    / pc.width_pages

/-- The local `scale_width_with_bar` of `update_fit_scale`. -/
def scale_width_with_bar (k : Constants) (env : ViewMetrics) (pc : GuPreviewGui) : ℚ :=
  ((view_width_with_bar env : ℚ) - ((2 * get_document_margin k pc : Int) : ℚ))
    / pc.width_pages

/-- The local `scale_both_full` of `update_fit_scale`. -/
def scale_both_full (k : Constants) (env : ViewMetrics) (pc : GuPreviewGui) : ℚ :=
  min (scale_width_without_bar k env pc) (scale_full_height_without_bar k env pc)

/-- The final value of the local `scale_width` of `update_fit_scale`. -/
def fit_scale_width (k : Constants) (env : ViewMetrics) (pc : GuPreviewGui) : ℚ :=
  max (scale_width_with_bar k env pc) (scale_both_full k env pc)

/-- The final value of the local `scale_both` of `update_fit_scale`. -/
def fit_scale_both (k : Constants) (env : ViewMetrics) (pc : GuPreviewGui) : ℚ :=
  let scale_both := min (scale_width_without_bar k env pc) (scale_height_without_bar k env pc)
  if scale_full_height_without_bar k env pc < scale_both then
    max (scale_both_full k env pc)
      (min (scale_width_with_bar k env pc) (scale_height_without_bar k env pc))
  else scale_both

/-- The final value of the local `scale` of `update_fit_scale`. -/
def fit_scale_target (k : Constants) (env : ViewMetrics) (pc : GuPreviewGui) : ℚ :=
  match fit_mode_of pc with
  | .FIT_WIDTH => fit_scale_width k env pc
  | .FIT_BOTH => fit_scale_both k env pc
  | .FIT_NUMERIC => pc.scale

/-- Source: `update_fit_scale`.  The boolean tells whether
`previewgui_invalidate_renderings` was invoked (through `previewgui_set_scale`). -/
def update_fit_scale (k : Constants) (env : ViewMetrics) (pc : GuPreviewGui) :
    GuPreviewGui × Bool :=
  if fit_mode_of pc = .FIT_NUMERIC then (pc, false)
  else
    let scale := fit_scale_target k env pc
    if scale = pc.scale then (pc, false)
    else previewgui_set_scale k pc scale none none

/-- The state `r` describes the same document and tab as `pc`: same fit mode,
layout, current page, page-size summaries and page heights. -/
def SameDocument (pc r : GuPreviewGui) : Prop :=
  r.active_tab = pc.active_tab ∧ r.pageLayout = pc.pageLayout ∧
  r.current_page = pc.current_page ∧ r.width_pages = pc.width_pages ∧
  r.height_pages = pc.height_pages ∧ r.max_page_height = pc.max_page_height ∧
  r.pages.map (fun p => p.height) = pc.pages.map (fun p => p.height)

/-- A viewport window of 620 by 900 pixels with no scrollbar shown; a scrollbar
takes 3 + 12 pixels. -/
def wideView : ViewMetrics :=
  { scrollbar_spacing := 3, req_width := 12, req_height := 12
    view_window_width := 620, view_window_height := 900
    vscrollbar_visible := false, hscrollbar_visible := false }

/-- The viewport of `wideView` shrunk to a width of 15 pixels. -/
def narrowView : ViewMetrics := { wideView with view_window_width := 15 }

/-- The state `threePages` with the tab in fit-width mode. -/
def fitWidthPages : GuPreviewGui :=
  { threePages with active_tab := some { fit_mode := .FIT_WIDTH } }

/-- The state `threePages` with the tab in fit-both mode. -/
def fitBothPages : GuPreviewGui :=
  { threePages with active_tab := some { fit_mode := .FIT_BOTH } }

/-! ## Animated scrolling, error mode and page jumps -/

/-- Source: `previewgui_scroll_to_xy`; an argument `none` is NaN.  The call of
`g_timeout_add` is counted in `ascroll_timeout_sources`. -/
def previewgui_scroll_to_xy (k : Constants) (pc : GuPreviewGui) (x y : Option ℚ) :
    GuPreviewGui :=
  match x, y with
  | some x, some y =>
    let x1 := CLAMP x 0 (pc.hadj.upper - pc.hadj.page_size)
    let y1 := CLAMP y 0 (pc.vadj.upper - pc.vadj.page_size)
    { pc with
        ascroll_steps_left := k.ASCROLL_STEPS
        ascroll_end_x := x1
        ascroll_end_y := y1
        ascroll_dist_x := pc.hadj.value - x1
        ascroll_dist_y := pc.vadj.value - y1
        ascroll_timeout_sources := pc.ascroll_timeout_sources + 1 }
  | _, _ => pc

/-- The local `r` of `previewgui_animated_scroll_step` for a value of
`ascroll_steps_left`: `(2.*pc->ascroll_steps_left) / ASCROLL_STEPS - 1`. -/
def ascroll_r (k : Constants) (steps_left : Int) : ℚ :=
  (2 * (steps_left : ℚ)) / (k.ASCROLL_STEPS : ℚ) - 1

/-- The local `rel_dist` of `previewgui_animated_scroll_step`, from `r`. -/
def ascroll_rel_dist (k : Constants) (r : ℚ) : ℚ :=
  let r2 := r * r
  (1 / 2) * (k.ASCROLL_CONST_A * r2 * r2 * r + k.ASCROLL_CONST_B * r2 * r
    + k.ASCROLL_CONST_C * r) + 1 / 2

/-- Source: `previewgui_animated_scroll_step`.  The boolean is the return value:
`TRUE` asks the timeout to call the function again. -/
def previewgui_animated_scroll_step (k : Constants) (pc : GuPreviewGui) :
    GuPreviewGui × Bool :=
  if pc.ascroll_steps_left = 0 then (pc, false)
  else if pc.ascroll_steps_left = 1 then
    let pc1 := block_handlers_current_page pc
    let pc2 := previewgui_goto_xy pc1 (some pc1.ascroll_end_x) (some pc1.ascroll_end_y)
    (unblock_handlers_current_page pc2, false)
  else
    let pc0 := { pc with ascroll_steps_left := pc.ascroll_steps_left - 1 }
    let rel_dist := ascroll_rel_dist k (ascroll_r k pc0.ascroll_steps_left)
    let new_x := pc0.ascroll_end_x + pc0.ascroll_dist_x * rel_dist
    let new_y := pc0.ascroll_end_y + pc0.ascroll_dist_y * rel_dist
    let pc1 := block_handlers_current_page pc0
    let pc2 := previewgui_goto_xy pc1 (some new_x) (some new_y)
    (unblock_handlers_current_page pc2, true)

/-- The state after `n` calls of `previewgui_animated_scroll_step` by the
timeout. -/
def ascroll_ticks (k : Constants) : Nat → GuPreviewGui → GuPreviewGui
  | 0, pc => pc
  | n + 1, pc => (previewgui_animated_scroll_step k (ascroll_ticks k n pc)).1

/-- The values returned by the first `n` calls of
`previewgui_animated_scroll_step`. -/
def ascroll_flags (k : Constants) (n : Nat) (pc : GuPreviewGui) : List Bool :=
  (List.range n).map (fun j => (previewgui_animated_scroll_step k (ascroll_ticks k j pc)).2)

/-- Source: `previewgui_set_current_page`.  The page-number entry and the
previous/next buttons it refreshes are not represented. -/
def previewgui_set_current_page (pc : GuPreviewGui) (page : Int) : GuPreviewGui :=
  { pc with current_page := min (max 0 page) (pc.n_pages - 1) }

/-- The loop of `update_current_page` from page index `page` on: the final
`page` and `offset_y`. -/
def current_page_scan (k : Constants) (pc : GuPreviewGui) (view_start_y : ℚ) :
    Nat → Int → ℚ → Int × ℚ
  | 0, page, offset_y => (page, offset_y)
  | fuel + 1, page, offset_y =>
    if page < pc.n_pages then
      let offset_y1 := offset_y + (get_page_height pc page * pc.scale + (get_page_margin k pc : ℚ))
      if offset_y1 ≥ view_start_y then (page, offset_y1)
      else current_page_scan k pc view_start_y fuel (page + 1) offset_y1
    else (page, offset_y)

/-- Source: `update_current_page`. -/
def update_current_page (k : Constants) (pc : GuPreviewGui) : GuPreviewGui :=
  if ¬ is_continuous pc then pc
  else
    let offset_y : ℚ :=
      max (get_document_margin k pc : ℚ) ((pc.vadj.page_size - pc.height_scaled) / 2)
    let view_start_y : ℚ := pc.vadj.value - (get_page_margin k pc : ℚ)
    let view_end_y : ℚ := view_start_y + pc.vadj.page_size + ((2 * get_page_margin k pc : Int) : ℚ)
    let r := current_page_scan k pc view_start_y pc.pages.length 0 offset_y
    let page := if r.2 ≤ (view_start_y + view_end_y) / 2 then r.1 + 1 else r.1
    previewgui_set_current_page pc page

/-- Source: `on_adj_changed`, the handler of the four adjustment signals. -/
def on_adj_changed (k : Constants) (pc : GuPreviewGui) : GuPreviewGui :=
  update_current_page k { pc with ascroll_steps_left := 0 }

/-- Source: `previewgui_restore_position`.  The source reads `g_active_tab`
without a test, so there is no result without a tab. -/
def previewgui_restore_position (pc : GuPreviewGui) : Option GuPreviewGui :=
  match pc.active_tab with
  | some tab =>
    some (unblock_handlers_current_page
      (previewgui_goto_xy pc (some tab.scroll_x) (some tab.scroll_y)))
  | none => none

/-- Source: `previewgui_start_errormode`.  The info screen is not represented. -/
def previewgui_start_errormode (pc : GuPreviewGui) : GuPreviewGui :=
  if pc.errormode then pc
  else { previewgui_save_position pc with errormode := true }

/-- Source: `previewgui_stop_errormode`. -/
def previewgui_stop_errormode (pc : GuPreviewGui) : Option GuPreviewGui :=
  if ¬ pc.errormode then some pc
  else (previewgui_restore_position pc).map (fun r => { r with errormode := false })

/-- Source: `previewgui_goto_page`.  The local `y` it accumulates in continuous
layout is not used by the source, and the queued redraw is not represented. -/
def previewgui_goto_page (k : Constants) (pc : GuPreviewGui) (page : Int) : GuPreviewGui :=
  let page1 := min (max page 0) (pc.n_pages - 1)
  let pc1 := previewgui_set_current_page pc page1
  let pc2 :=
    if ¬ is_continuous pc1 then update_drawarea_size k (update_scaled_size k pc1) else pc1
  previewgui_goto_xy pc2 (some pc2.hadj.value) (some pc2.vadj.value)

/-- Source: `synctex_scroll_to_node`.  `animated` says that the configuration
value `animated_scroll` is `always` or `autosync`. -/
def synctex_scroll_to_node (k : Constants) (animated : Bool) (pc : GuPreviewGui)
    (node : SyncNode) : GuPreviewGui :=
  let target := synctex_scroll_target k pc node
  if ¬ is_continuous pc ∧ pc.current_page ≠ node.page then
    previewgui_goto_xy (previewgui_goto_page k pc node.page) (some target.1) (some target.2)
  else if animated then previewgui_scroll_to_xy k pc (some target.1) (some target.2)
  else previewgui_goto_xy pc (some target.1) (some target.2)

/-- The saved scroll position `(g_active_tab->scroll_x, g_active_tab->scroll_y)`. -/
def saved_position (pc : GuPreviewGui) : Option (ℚ × ℚ) :=
  pc.active_tab.map (fun tab => (tab.scroll_x, tab.scroll_y))

/-- The calls the pane can receive while it shows an error. -/
inductive ErrorModeCall where
  | goto_xy (x y : Option ℚ)
  | start_errormode
deriving DecidableEq

/-- The state after a sequence of calls of `previewgui_goto_xy` and
`previewgui_start_errormode`, in order. -/
def run_error_mode_calls : List ErrorModeCall → GuPreviewGui → GuPreviewGui
  | [], pc => pc
  | .goto_xy x y :: rest, pc => run_error_mode_calls rest (previewgui_goto_xy pc x y)
  | .start_errormode :: rest, pc => run_error_mode_calls rest (previewgui_start_errormode pc)

/-- The view of `scrolledView` in the middle of an animated scroll towards
(100, 300), with 10 steps left. -/
def midScroll : GuPreviewGui :=
  { scrolledView with
    ascroll_steps_left := 10
    ascroll_end_x := 100
    ascroll_end_y := 300
    ascroll_dist_x := -95
    ascroll_dist_y := -290
    ascroll_timeout_sources := 1 }

/-- Two pages of 600 by 400 and 600 by 2000 points in single-page layout at
scale 1 and a fixed zoom, in a view of 500 by 500; page 0 is shown. -/
def singleMixed : GuPreviewGui :=
  { pageLayout := .SINGLE_PAGE
    hadj := { value := 0, upper := 600, page_size := 500 }
    vadj := { value := 0, upper := 400, page_size := 500 }
    scale := 1
    current_page := 0
    pages := [{ width := 600, height := 400 }, { width := 600, height := 2000 }]
    width_scaled := 600
    height_scaled := 400
    width_pages := 600
    height_pages := 2400
    max_page_height := 2000 }

/-- A node on page 1, 600 units below the top of the page. -/
def nodeOnTallPage : SyncNode :=
  { page := 1, x := 100, y := 600, width := 50, height := 20, score := 0 }

/-! ## Painting and pointer positions -/

/-- Source: `page_offset_x`. -/
def page_offset_x (pc : GuPreviewGui) (page : Int) (x : ℚ) : Int :=
  if page < 0 ∨ page ≥ pc.n_pages then 0
  else gint_of_double (x + (pc.width_scaled - get_page_width pc page * pc.scale) / 2)

/-- Source: `page_offset_y`. -/
def page_offset_y (pc : GuPreviewGui) (page : Int) (y : ℚ) : Int :=
  if page < 0 ∨ page ≥ pc.n_pages then 0 else gint_of_double y

/-- A call `paint_page (cr, pc, page, x, y)`. -/
structure PaintCall where
  page : Int
  x : Int
  y : Int
deriving DecidableEq, Repr

/-- The first loop of the continuous branch of `on_draw`, from page index `i`
on: it adds page heights to `offset_y` until `view_start_y` is reached.  The
result is the final `i` and `offset_y`. -/
def draw_skip (k : Constants) (pc : GuPreviewGui) (view_start_y : ℚ) :
    Nat → Int → ℚ → Int × ℚ
  | 0, i, offset_y => (i, offset_y)
  | fuel + 1, i, offset_y =>
    if i < pc.n_pages then
      let offset_y1 := offset_y + (get_page_height pc i * pc.scale + (get_page_margin k pc : ℚ))
      if offset_y1 ≥ view_start_y then (i, offset_y1)
      else draw_skip k pc view_start_y fuel (i + 1) offset_y1
    else (i, offset_y)

/-- The second loop of the continuous branch of `on_draw`, from page index `i`
on: the `paint_page` calls it makes, in order. -/
def draw_paint (k : Constants) (pc : GuPreviewGui) (offset_x view_end_y : ℚ) :
    Nat → Int → ℚ → List PaintCall
  | 0, _, _ => []
  | fuel + 1, i, offset_y =>
    if i < pc.n_pages then
      let call : PaintCall :=
        { page := i, x := page_offset_x pc i offset_x, y := page_offset_y pc i offset_y }
      let offset_y1 := offset_y + (get_page_height pc i * pc.scale + (get_page_margin k pc : ℚ))
      if offset_y1 > view_end_y then [call]
      else call :: draw_paint k pc offset_x view_end_y fuel (i + 1) offset_y1
    else []

/-- Source: `on_draw`, reduced to the `paint_page` calls it makes, in order;
`uri_ok` says that `pc->uri` is set and the file exists, and the result is
`none` when the handler returns `FALSE`.  What `paint_page` does with each call
(bitmap lookup, cairo drawing) is not part of this function. -/
def on_draw (k : Constants) (uri_ok : Bool) (pc : GuPreviewGui) : Option (List PaintCall) :=
  if ¬ uri_ok then none
  else
    let page_width := pc.hadj.page_size
    let page_height := pc.vadj.page_size
    let offset_x : ℚ := max (get_document_margin k pc : ℚ) ((page_width - pc.width_scaled) / 2)
    if is_continuous pc then
      let offset_y : ℚ :=
        max (get_document_margin k pc : ℚ) ((page_height - pc.height_scaled) / 2)
      let view_start_y : ℚ := pc.vadj.value - (get_page_margin k pc : ℚ)
      let view_end_y : ℚ := view_start_y + page_height + ((2 * get_page_margin k pc : Int) : ℚ)
      let r := draw_skip k pc view_start_y pc.pages.length 0 offset_y
      let offset_y1 := r.2 - (get_page_height pc r.1 * pc.scale + (get_page_margin k pc : ℚ))
      some (draw_paint k pc offset_x view_end_y pc.pages.length r.1 offset_y1)
    else
      let height := get_page_height pc pc.current_page * pc.scale
      let offset_y : ℚ := max (get_document_margin k pc : ℚ) ((page_height - height) / 2)
      some [{ page := pc.current_page
              x := page_offset_x pc pc.current_page offset_x
              y := page_offset_y pc pc.current_page offset_y }]

/-- The loop of the continuous branch of `draw2page` from page index `i` on, with
the running `*py` and `*pp`; the result is the final `(*py, *pp)`. -/
def draw2page_loop (k : Constants) (pc : GuPreviewGui) : Nat → Int → Int → Int → Int × Int
  | 0, _, py, pp => (py, pp)
  | fuel + 1, i, py, pp =>
    if i < pc.n_pages - 1 then
      let pheight := gint_of_double (get_page_height pc i * pc.scale + (get_page_margin k pc : ℚ))
      if py > pheight then draw2page_loop k pc fuel (i + 1) (py - pheight) (pp + 1)
      else draw2page_loop k pc fuel (i + 1) py pp
    else (py, pp)

/-- Source: `draw2page`; the result is `(*pp, *px, *py)`.  A compound
assignment `*px -= d` with a `gdouble` `d` subtracts in `gdouble` and truncates
the result to `gint`. -/
def draw2page (k : Constants) (pc : GuPreviewGui) (dx dy : Int) : Int × Int × Int :=
  let px := gint_of_double ((dx : ℚ)
    - max (get_document_margin k pc : ℚ) (((adjpage_width pc : ℚ) - pc.width_scaled) / 2))
  if is_continuous pc then
    let py := gint_of_double ((dy : ℚ)
      - max (get_document_margin k pc : ℚ) (((adjpage_height pc : ℚ) - pc.height_scaled) / 2))
    let r := draw2page_loop k pc pc.pages.length 0 py 0
    (r.2, px, r.1)
  else
    let height := get_page_height pc pc.current_page * pc.scale
    let py := gint_of_double ((dy : ℚ)
      - max (get_document_margin k pc : ℚ) (((adjpage_height pc : ℚ) - height) / 2))
    (0 + pc.current_page, px, py)

/-- A page of 600 by 800 points followed by a page of 400 by 800 points, in
continuous layout at scale 1, laid out by `update_page_positions` in a view of
600 by 900 scrolled down by 700. -/
def mixedWidths : GuPreviewGui :=
  { pageLayout := .ONE_COLUMN
    hadj := { value := 0, upper := 620, page_size := 600 }
    vadj := { value := 700, upper := 1628, page_size := 900 }
    scale := 1
    pages :=
      [{ width := 600, height := 800
         inner := { x := 10, y := 10, width := 600, height := 800, layer := 0 }
         outer := { x := 9, y := 9, width := 604, height := 804, layer := 0 } },
       { width := 400, height := 800
         inner := { x := 100, y := 818, width := 400, height := 800, layer := 0 }
         outer := { x := 99, y := 817, width := 404, height := 804, layer := 0 } }]
    width_scaled := 600
    height_scaled := 1608
    width_pages := 600
    height_pages := 1600
    max_page_height := 800 }

/-- Pages of 600 by 800, 600 by 100 and 600 by 100 points in continuous layout at
scale 1, in a view of 620 by 900 at the top of the document. -/
def mixedHeights : GuPreviewGui :=
  { pageLayout := .ONE_COLUMN
    hadj := { value := 0, upper := 620, page_size := 620 }
    vadj := { value := 0, upper := 1036, page_size := 900 }
    scale := 1
    pages := [{ width := 600, height := 800 }, { width := 600, height := 100 },
              { width := 600, height := 100 }]
    width_scaled := 600
    height_scaled := 1016
    width_pages := 600
    height_pages := 1000
    max_page_height := 800 }

/-- A square of side 10 at the origin, on layer 0. -/
def squareAtOrigin : LayeredRectangle := { x := 0, y := 0, width := 10, height := 10, layer := 0 }

/-- A square of side 10 at (5, 5), on layer 0. -/
def squareShifted : LayeredRectangle := { x := 5, y := 5, width := 10, height := 10, layer := 0 }

/-! ## Rounding to the nearest `gdouble` -/

theorem round_half_even_intCast (z : Int) : round_half_even (z : ℚ) = z := by
  simp [round_half_even]

theorem round_double_dyadic (a : Int) (n : Nat) (ha : |a| < 2 ^ 53) :
    round_double ((a : ℚ) / 2 ^ n) = (a : ℚ) / 2 ^ n := by
  by_cases h0 : a = 0
  · simp [h0, round_double]
  have hq : (a : ℚ) / 2 ^ n ≠ 0 := by
    apply div_ne_zero
    · exact_mod_cast h0
    · positivity
  have habs : |(a : ℚ) / 2 ^ n| < (2 : ℚ) ^ ((53 : Int) - n) := by
    rw [abs_div, abs_of_pos (by positivity : (0 : ℚ) < 2 ^ n), zpow_sub₀ (by norm_num),
      zpow_natCast]
    apply div_lt_div_of_pos_right _ (by positivity)
    have h := (Int.cast_lt (R := ℚ)).2 ha
    push_cast at h
    norm_num
    exact h
  have hlow : (2 : ℚ) ^ Int.log 2 |(a : ℚ) / 2 ^ n| ≤ |(a : ℚ) / 2 ^ n| := by
    have := Int.zpow_log_le_self (b := 2) (r := |(a : ℚ) / 2 ^ n|) (by norm_num) (abs_pos.2 hq)
    simpa using this
  have he : Int.log 2 |(a : ℚ) / 2 ^ n| < 53 - n := by
    have := lt_of_le_of_lt hlow habs
    exact (zpow_lt_zpow_iff_right₀ (by norm_num : (1 : ℚ) < 2)).1 this
  simp only [round_double, hq, if_false]
  generalize Int.log 2 |(a : ℚ) / 2 ^ n| = e at he ⊢
  obtain ⟨d, hd⟩ : ∃ d : Nat, (d : Int) = 52 - e - n := ⟨(52 - e - n).toNat, by omega⟩
  have hm : (a : ℚ) / 2 ^ n / (2 : ℚ) ^ (e - 52) = ((a * 2 ^ d : Int) : ℚ) := by
    have e1 : (e - 52 : Int) = -((d : Int) + n) := by omega
    rw [e1, zpow_neg, zpow_add₀ (by norm_num), zpow_natCast, zpow_natCast]
    push_cast
    field_simp
    ring
  rw [hm, round_half_even_intCast, ← hm]
  have hne : (2 : ℚ) ^ (e - 52) ≠ 0 := zpow_ne_zero _ (by norm_num)
  field_simp
  ring

theorem round_double_intCast (a : Int) (ha : |a| < 2 ^ 53) : round_double (a : ℚ) = a := by
  have := round_double_dyadic a 0 ha
  simpa using this

/-- A value less than one half away from an integer rounds to that integer. -/
theorem round_half_even_near (x : ℚ) (m : Int) (h1 : (m : ℚ) - 1 / 2 < x)
    (h2 : x < (m : ℚ) + 1 / 2) : round_half_even x = m := by
  unfold round_half_even
  have hf1 : (⌊x⌋ : ℚ) ≤ x := Int.floor_le x
  have hf2 : x < (⌊x⌋ : ℚ) + 1 := Int.lt_floor_add_one x
  have hlo : m - 1 ≤ ⌊x⌋ := by
    have : ((m - 1 : Int) : ℚ) < ((⌊x⌋ + 1 : Int) : ℚ) := by push_cast; linarith
    have := (Int.cast_lt (R := ℚ)).1 this
    omega
  have hhi : ⌊x⌋ ≤ m := by
    have : (⌊x⌋ : ℚ) < ((m + 1 : Int) : ℚ) := by push_cast; linarith
    have := (Int.cast_lt (R := ℚ)).1 this
    omega
  rcases (by omega : ⌊x⌋ = m ∨ ⌊x⌋ = m - 1) with h | h
  · rw [h]
    rw [if_pos (by linarith)]
  · rw [h]
    push_cast
    rw [if_neg (by linarith), if_pos (by linarith)]
    ring

/-- Evaluation of `round_double`: for `2^e ≤ |q| < 2^(e+1)`, the result is the
integer nearest to `q / 2^(e-52)` times `2^(e-52)`. -/
theorem round_double_eval (q : ℚ) (e m : Int) (h1 : (2 : ℚ) ^ e ≤ |q|)
    (h2 : |q| < (2 : ℚ) ^ (e + 1))
    (h3 : (m : ℚ) - 1 / 2 < q / (2 : ℚ) ^ (e - 52))
    (h4 : q / (2 : ℚ) ^ (e - 52) < (m : ℚ) + 1 / 2) :
    round_double q = (m : ℚ) * (2 : ℚ) ^ (e - 52) := by
  have hpos : 0 < |q| := lt_of_lt_of_le (zpow_pos (by norm_num) e) h1
  have hq : q ≠ 0 := abs_pos.1 hpos
  have hlog : Int.log 2 |q| = e := by
    apply le_antisymm
    · have := (Int.lt_zpow_iff_log_lt (b := 2) (by norm_num) hpos (x := e + 1)).1
        (by exact_mod_cast h2)
      omega
    · exact (Int.zpow_le_iff_le_log (b := 2) (by norm_num) hpos (x := e)).1
        (by exact_mod_cast h1)
  simp only [round_double, hq, if_false, hlog]
  rw [round_half_even_near _ m h3 h4]

/-! ## Basic facts about the cache operations -/

theorem page_at_of_pages_eq {pc pc1 : GuPreviewGui} (h : pc1.pages = pc.pages) (j : Int) :
    page_at pc1 j = page_at pc j := by
  simp [page_at, h]

theorem page_at_remove (k : Constants) (pc : GuPreviewGui) (p j : Int) :
    page_at (remove_page_rendering k pc p).1 j =
      if j = p then (page_at pc j).map clear_rendering else page_at pc j := by
  cases hp : page_at pc p with
  | none =>
    by_cases hj : j = p
    · subst hj; simp [remove_page_rendering, hp]
    · simp [remove_page_rendering, hp, hj]
  | some q =>
    cases hr : q.rendering with
    | none =>
      by_cases hj : j = p
      · subst hj
        have : clear_rendering q = q := by
          cases q; simp_all [clear_rendering]
        simp [remove_page_rendering, hp, hr, this]
      · simp [remove_page_rendering, hp, hr, hj]
    | some sf =>
      have hp0 : ¬ p < 0 := by
        intro hneg; simp [page_at, hneg] at hp
      simp only [remove_page_rendering, hp, hr]
      by_cases hj : j = p
      · subst hj
        simp only [page_at, hp0, if_false, if_true] at hp ⊢
        rw [List.getElem?_set]
        have hlt : j.toNat < pc.pages.length := by
          by_contra hge
          rw [List.getElem?_eq_none (by omega)] at hp
          exact absurd hp (by simp)
        simp [hlt, hp, clear_rendering]
      · simp only [hj, if_false]
        by_cases hj0 : j < 0
        · simp [page_at, hj0]
        · simp only [page_at, hj0, if_false]
          rw [List.getElem?_set]
          have : ¬ p.toNat = j.toNat := by omega
          simp [this]

theorem page_in_fov_of_page_at {fov : LayeredRectangle} {pc r : GuPreviewGui} {j : Int}
    (h : page_at r j = page_at pc j ∨ page_at r j = (page_at pc j).map clear_rendering) :
    page_in_fov fov r j = page_in_fov fov pc j := by
  rcases h with h | h
  · simp [page_in_fov, page_inner, h]
  · simp only [page_in_fov, page_inner, h]
    cases page_at pc j <;> simp [clear_rendering]

theorem Evolves.refl (fov : LayeredRectangle) (pc : GuPreviewGui) : Evolves fov pc pc :=
  fun _ => Or.inl rfl

theorem Evolves.in_fov_eq {fov : LayeredRectangle} {pc r : GuPreviewGui}
    (h : Evolves fov pc r) (j : Int) : page_in_fov fov r j = page_in_fov fov pc j :=
  page_in_fov_of_page_at ((h j).imp id (fun x => x.2))

theorem Evolves.trans {fov : LayeredRectangle} {a b c : GuPreviewGui}
    (hab : Evolves fov a b) (hbc : Evolves fov b c) : Evolves fov a c := by
  intro j
  have hf := hab.in_fov_eq j
  rcases hab j with h1 | ⟨h1f, h1⟩ <;> rcases hbc j with h2 | ⟨h2f, h2⟩
  · exact Or.inl (h2.trans h1)
  · exact Or.inr ⟨by rw [← hf]; exact h2f, by rw [h2, h1]⟩
  · exact Or.inr ⟨h1f, by rw [h2, h1]⟩
  · refine Or.inr ⟨h1f, ?_⟩
    rw [h2, h1]
    cases page_at a j <;> simp [clear_rendering]

theorem Evolves.kept {fov : LayeredRectangle} {pc r : GuPreviewGui}
    (h : Evolves fov pc r) {j : Int} (hj : page_in_fov fov pc j = true) :
    page_at r j = page_at pc j := by
  rcases h j with h1 | ⟨h1f, _⟩
  · exact h1
  · rw [hj] at h1f; exact absurd h1f (by simp)

theorem Evolves.has_rendering_mono {fov : LayeredRectangle} {pc r : GuPreviewGui}
    (h : Evolves fov pc r) {j : Int} (hj : has_rendering pc j = false) :
    has_rendering r j = false := by
  rcases h j with h1 | ⟨_, h1⟩
  · simpa [has_rendering, h1] using hj
  · simp only [has_rendering, h1]
    cases page_at pc j <;> simp [clear_rendering]

theorem Evolves.length_eq {fov : LayeredRectangle} {pc r : GuPreviewGui}
    (h : Evolves fov pc r) : r.pages.length = pc.pages.length := by
  have key : ∀ n : Nat, (r.pages[n]?).isSome = (pc.pages[n]?).isSome := by
    intro n
    have hn := h (n : Int)
    have h0 : ¬ ((n : Int) < 0) := by omega
    simp only [page_at, h0, if_false, Int.toNat_ofNat] at hn
    rcases hn with h1 | ⟨_, h1⟩
    · rw [h1]
    · rw [h1]; cases pc.pages[n]? <;> simp
  rcases Nat.lt_trichotomy r.pages.length pc.pages.length with hlt | heq | hgt
  · have := key r.pages.length
    simp [List.getElem?_eq_none, hlt] at this
  · exact heq
  · have := key pc.pages.length
    simp [List.getElem?_eq_none, hgt] at this

theorem remove_evolves (k : Constants) (fov : LayeredRectangle) (pc : GuPreviewGui) (p : Int)
    (hp : page_in_fov fov pc p = false) :
    Evolves fov pc (remove_page_rendering k pc p).1 := by
  intro j
  rw [page_at_remove]
  by_cases hj : j = p
  · subst hj; exact Or.inr ⟨hp, by simp⟩
  · exact Or.inl (by simp [hj])

theorem has_rendering_remove_self (k : Constants) (pc : GuPreviewGui) (p : Int) :
    has_rendering (remove_page_rendering k pc p).1 p = false := by
  simp only [has_rendering, page_at_remove, if_true]
  cases page_at pc p <;> simp [clear_rendering]

theorem has_rendering_remove_other (k : Constants) (pc : GuPreviewGui) {p j : Int}
    (hj : j ≠ p) :
    has_rendering (remove_page_rendering k pc p).1 j = has_rendering pc j := by
  simp [has_rendering, page_at_remove, hj]

theorem remove_snd (k : Constants) (pc : GuPreviewGui) (p : Int) :
    (remove_page_rendering k pc p).2 = has_rendering pc p := by
  unfold remove_page_rendering has_rendering
  cases page_at pc p with
  | none => rfl
  | some q => cases hr : q.rendering <;> simp [hr]

theorem page_at_eq_none {pc : GuPreviewGui} {i : Int} (h : i < 0 ∨ pc.n_pages ≤ i) :
    page_at pc i = none := by
  unfold page_at
  by_cases h0 : i < 0
  · simp [h0]
  · simp only [h0, if_false]
    apply List.getElem?_eq_none
    simp only [GuPreviewGui.n_pages] at h
    omega

theorem has_rendering_out_of_range {pc : GuPreviewGui} {i : Int}
    (h : i < 0 ∨ pc.n_pages ≤ i) : has_rendering pc i = false := by
  simp [has_rendering, page_at_eq_none h]

theorem page_in_fov_out_of_range (fov : LayeredRectangle) {pc : GuPreviewGui} {i : Int}
    (h : i < 0 ∨ pc.n_pages ≤ i) : page_in_fov fov pc i = false := by
  simp [page_in_fov, page_inner, page_at_eq_none h]

/-! ## The eviction step and loop -/

theorem gc_evict_evolves (k : Constants) (fov : LayeredRectangle) (idx : Int)
    (s : GuPreviewGui × List (Int × Int)) : Evolves fov s.1 (gc_evict k fov idx s).1 := by
  unfold gc_evict
  split
  · split
    · rename_i hf
      have hf2 : page_in_fov fov s.1 idx = false := by simpa using hf
      have h := remove_evolves k fov s.1 idx hf2
      split <;> rename_i heq <;> (rw [heq] at h; exact h)
    · exact Evolves.refl _ _
  · exact Evolves.refl _ _

theorem gc_evict_other (k : Constants) (fov : LayeredRectangle) (idx : Int)
    (s : GuPreviewGui × List (Int × Int)) {j : Int} (hj : j ≠ idx) :
    has_rendering (gc_evict k fov idx s).1 j = has_rendering s.1 j := by
  unfold gc_evict
  split
  · split
    · have h := has_rendering_remove_other k s.1 hj
      split <;> rename_i heq <;> (rw [heq] at h; exact h)
    · rfl
  · rfl

theorem gc_evict_cleared (k : Constants) (fov : LayeredRectangle) (idx : Int)
    (s : GuPreviewGui × List (Int × Int)) (hf : page_in_fov fov s.1 idx = false) :
    has_rendering (gc_evict k fov idx s).1 idx = false := by
  unfold gc_evict
  split
  · rw [if_pos (by simp [hf])]
    have h := has_rendering_remove_self k s.1 idx
    split <;> rename_i heq <;> (rw [heq] at h; exact h)
  · rename_i hr
    exact has_rendering_out_of_range (by omega)

theorem gc_loop_evolves (k : Constants) (fov : LayeredRectangle) (m first last : Int)
    (n : Nat) (s : GuPreviewGui × List (Int × Int)) :
    Evolves fov s.1 (gc_loop k fov m first last n s).1 := by
  induction n generalizing s with
  | zero => exact Evolves.refl _ _
  | succ d ih =>
    have h1 := gc_evict_evolves k fov (first - ((d : Int) + 1)) s
    have h2 := gc_evict_evolves k fov (last + ((d : Int) + 1))
      (gc_evict k fov (first - ((d : Int) + 1)) s)
    simp only [gc_loop]
    split
    · exact h1
    · split
      · exact h1.trans h2
      · exact (h1.trans h2).trans (ih _)

theorem invalidate_loop_evolves (k : Constants) (fov : LayeredRectangle) (fuel : Nat)
    (i : Int) (pc : GuPreviewGui) (hnone : ∀ j, page_in_fov fov pc j = false) :
    Evolves fov pc (invalidate_loop k fuel i pc) := by
  induction fuel generalizing i pc with
  | zero => exact Evolves.refl _ _
  | succ f ih =>
    simp only [invalidate_loop]
    have h1 := remove_evolves k fov pc i (hnone i)
    exact h1.trans (ih (i + 1) _ (fun j => by rw [h1.in_fov_eq]; exact hnone j))

theorem invalidate_loop_cleared (k : Constants) (fuel : Nat) (i : Int) (pc : GuPreviewGui)
    (j : Int) (hj : i ≤ j ∧ j < i + fuel) :
    has_rendering (invalidate_loop k fuel i pc) j = false := by
  induction fuel generalizing i pc with
  | zero => omega
  | succ f ih =>
    simp only [invalidate_loop]
    by_cases hji : j = i
    · subst hji
      have h0 := has_rendering_remove_self k pc j
      have hev : ∀ (g : Nat) (a : Int) (q : GuPreviewGui), has_rendering q j = false →
          has_rendering (invalidate_loop k g a q) j = false := by
        intro g
        induction g with
        | zero => intro a q hq; exact hq
        | succ g ihg =>
          intro a q hq
          simp only [invalidate_loop]
          apply ihg
          by_cases hja : j = a
          · subst hja; exact has_rendering_remove_self k q j
          · rw [has_rendering_remove_other k q hja]; exact hq
      exact hev f (j + 1) _ h0
    · apply ih
      push_cast at hj
      omega

/-! ## The scan for the visible range -/

theorem gc_scan_inv (fov : LayeredRectangle) (pc : GuPreviewGui) (fuel : Nat) (i : Int)
    (fl : Int × Int) (hi : 0 ≤ i) (h : ScanInv fov pc i fl) :
    ScanInv fov pc (i + fuel) (gc_scan fov pc fuel i fl) := by
  induction fuel generalizing i fl with
  | zero => simpa [gc_scan] using h
  | succ f ih =>
    obtain ⟨first, last⟩ := fl
    simp only [gc_scan]
    have hcast : i + ((f + 1 : Nat) : Int) = (i + 1) + (f : Int) := by push_cast; ring
    rw [hcast]
    by_cases hv : page_in_fov fov pc i = true
    · rw [if_pos hv]
      apply ih (i + 1) _ (by omega)
      right
      rcases h with ⟨h1, _, h3⟩ | ⟨h1, h2, h3, h4, _, h6⟩
      · simp only at h1
        simp only [h1, if_true]
        refine ⟨hi, le_refl _, by omega, hv, hv, ?_⟩
        intro j hj0 hj1 hjv
        by_cases hji : j = i
        · omega
        · have := h3 j hj0 (by omega)
          rw [this] at hjv; exact absurd hjv (by simp)
      · simp only at h1 h2 h3 h4 h6
        have hne : first ≠ -1 := by omega
        simp only [hne, if_false]
        refine ⟨h1, by omega, by omega, h4, hv, ?_⟩
        intro j hj0 hj1 hjv
        by_cases hji : j = i
        · omega
        · have := h6 j hj0 (by omega) hjv
          omega
    · rw [if_neg hv]
      have hv2 : page_in_fov fov pc i = false := by simpa using hv
      apply ih (i + 1) _ (by omega)
      rcases h with ⟨h1, h2, h3⟩ | ⟨h1, h2, h3, h4, h5, h6⟩
      · left
        refine ⟨h1, h2, ?_⟩
        intro j hj0 hj1
        by_cases hji : j = i
        · subst hji; exact hv2
        · exact h3 j hj0 (by omega)
      · right
        refine ⟨h1, h2, by simp only at h3 ⊢; omega, h4, h5, ?_⟩
        intro j hj0 hj1 hjv
        by_cases hji : j = i
        · subst hji; rw [hv2] at hjv; exact absurd hjv (by simp)
        · exact h6 j hj0 (by omega) hjv

/-- The visible range computed by the collector: either no page intersects the
field of view and `first = last = -1`, or `0 ≤ first ≤ last < n_pages`, both
ends intersect it and every intersecting page lies in between. -/
theorem gc_range_spec (pc : GuPreviewGui) :
    ((gc_range pc).1 = -1 ∧ (gc_range pc).2 = -1 ∧
        ∀ j : Int, page_in_fov (get_fov pc) pc j = false) ∨
    (0 ≤ (gc_range pc).1 ∧ (gc_range pc).1 ≤ (gc_range pc).2 ∧
        (gc_range pc).2 < pc.n_pages ∧
        ∀ j : Int, page_in_fov (get_fov pc) pc j = true →
          (gc_range pc).1 ≤ j ∧ j ≤ (gc_range pc).2) := by
  have h := gc_scan_inv (get_fov pc) pc pc.pages.length 0 (-1, -1) (le_refl _)
    (Or.inl ⟨rfl, rfl, fun j h0 h1 => by omega⟩)
  simp only [zero_add] at h
  rcases h with ⟨h1, h2, h3⟩ | ⟨h1, h2, h3, _, _, h6⟩
  · left
    refine ⟨h1, h2, ?_⟩
    intro j
    by_cases hr : j < 0 ∨ pc.n_pages ≤ j
    · exact page_in_fov_out_of_range _ hr
    · exact h3 j (by omega) (by simp only [GuPreviewGui.n_pages] at hr; omega)
  · right
    refine ⟨h1, h2, h3, ?_⟩
    intro j hjv
    by_cases hr : j < 0 ∨ pc.n_pages ≤ j
    · rw [page_in_fov_out_of_range _ hr] at hjv; exact absurd hjv (by simp)
    · exact h6 j (by omega) (by simp only [GuPreviewGui.n_pages] at hr; omega) hjv

/-- Every run of the collector only drops bitmaps of pages outside the field
of view. -/
theorem run_garbage_collector_evolves (k : Constants) (cfg : Int) (pc : GuPreviewGui) :
    Evolves (get_fov pc) pc (run_garbage_collector k cfg pc).1 := by
  unfold run_garbage_collector
  simp only
  split
  · exact Evolves.refl _ _
  · have hloop := fun q => gc_loop_evolves k (get_fov pc) (gc_max_cache_size cfg)
      (gc_range pc).1 (gc_range pc).2
      (max (gc_range pc).1 (pc.n_pages - 1 - (gc_range pc).2)).toNat (q, [])
    by_cases hf : (gc_range pc).1 = -1
    · simp only [hf, if_true] at hloop ⊢
      rcases gc_range_spec pc with ⟨_, _, h3⟩ | ⟨h1, _⟩
      · exact (invalidate_loop_evolves k (get_fov pc) _ 0 pc h3).trans (hloop _)
      · omega
    · simp only [hf, if_false] at hloop ⊢
      exact hloop pc

/-! ## C1: eviction safety -/

/-- C1. Eviction safety: for every cache state, viewport and budget, a page whose
inner rectangle intersects the field of view (layer-aware test) and that holds a
bitmap before `run_garbage_collector` still holds it afterwards; its page record,
bitmap included, is unchanged. -/
theorem gc_keeps_pages_in_fov (k : Constants) (cfg : Int) (pc : GuPreviewGui) (i : Int)
    (hfov : page_in_fov (get_fov pc) pc i = true) (hbmp : has_rendering pc i = true) :
    has_rendering (run_garbage_collector k cfg pc).1 i = true ∧
      page_at (run_garbage_collector k cfg pc).1 i = page_at pc i := by
  have h := (run_garbage_collector_evolves k cfg pc).kept hfov
  refine ⟨?_, h⟩
  simpa [has_rendering, h] using hbmp

/-- Witness for C1 on the ten-page cache: page 4 is in view, holds a bitmap, and
keeps it through a collection that does evict other pages. -/
theorem gc_keeps_pages_in_fov_witness :
    page_in_fov (get_fov tenPages) tenPages 4 = true ∧ has_rendering tenPages 4 = true ∧
    has_rendering (run_garbage_collector kExample 5 tenPages).1 0 = false ∧
    (has_rendering (run_garbage_collector kExample 5 tenPages).1 4 = true ∧
      page_at (run_garbage_collector kExample 5 tenPages).1 4 = page_at tenPages 4) :=
  ⟨by decide, by decide, by decide,
   gc_keeps_pages_in_fov kExample 5 tenPages 4 (by decide) (by decide)⟩

/-! ## C8: hysteresis of the eviction loop -/

theorem LogConsistent.append {k : Constants} {pc : GuPreviewGui} {start : Int}
    {log : List (Int × Int)} {c : Int} (h : LogConsistent k pc start log c) (p : Int) :
    LogConsistent k pc start (log ++ [(p, c)]) (c - page_footprint k pc p) := by
  induction log generalizing start with
  | nil =>
    simp only [LogConsistent] at h
    simp [LogConsistent, h]
  | cons e rest ih =>
    obtain ⟨q, d⟩ := e
    simp only [LogConsistent, List.cons_append] at h ⊢
    exact ⟨h.1, ih h.2⟩

theorem LogConsistent.last {k : Constants} {pc : GuPreviewGui} {start : Int}
    {log : List (Int × Int)} {p c final : Int}
    (h : LogConsistent k pc start (log ++ [(p, c)]) final) :
    final = c - page_footprint k pc p := by
  induction log generalizing start with
  | nil =>
    simp only [LogConsistent, List.nil_append] at h
    exact h.2
  | cons e rest ih =>
    obtain ⟨q, d⟩ := e
    simp only [LogConsistent, List.cons_append] at h
    exact ih h.2

theorem page_footprint_of_evolves {k : Constants} {fov : LayeredRectangle}
    {pc r : GuPreviewGui} (h : Evolves fov pc r) (j : Int) :
    page_footprint k r j = page_footprint k pc j := by
  unfold page_footprint
  rcases h j with h1 | ⟨_, h1⟩
  · rw [h1]
  · rw [h1]; cases page_at pc j <;> simp [clear_rendering]

theorem remove_cache_size (k : Constants) (pc : GuPreviewGui) (p : Int)
    (h : has_rendering pc p = true) :
    (remove_page_rendering k pc p).1.cache_size = pc.cache_size - page_footprint k pc p := by
  unfold has_rendering at h
  cases hp : page_at pc p with
  | none => simp [hp] at h
  | some q =>
    cases hr : q.rendering with
    | none => simp [hp, hr] at h
    | some sf => simp [remove_page_rendering, page_footprint, hp, hr]

/-- The two outcomes of one conditional eviction: nothing happens, or the page
held a bitmap outside the field of view, the removal is recorded with the cache
size at that moment, and the footprint is subtracted. -/
theorem gc_evict_cases (k : Constants) (fov : LayeredRectangle) (idx : Int)
    (s : GuPreviewGui × List (Int × Int)) :
    gc_evict k fov idx s = s ∨
    (has_rendering s.1 idx = true ∧ page_in_fov fov s.1 idx = false ∧
      (gc_evict k fov idx s).2 = s.2 ++ [(idx, s.1.cache_size)] ∧
      (gc_evict k fov idx s).1.cache_size = s.1.cache_size - page_footprint k s.1 idx) := by
  unfold gc_evict
  split
  · split
    · rename_i hf
      have hf2 : page_in_fov fov s.1 idx = false := by simpa using hf
      have hs := remove_snd k s.1 idx
      split <;> rename_i heq
      · right
        rw [heq] at hs
        have hh : has_rendering s.1 idx = true := hs.symm
        have hc := remove_cache_size k s.1 idx hh
        rw [heq] at hc
        exact ⟨hh, hf2, rfl, hc⟩
      · left
        rw [heq] at hs
        have hh : has_rendering s.1 idx = false := hs.symm
        have : (remove_page_rendering k s.1 idx).1 = s.1 := by
          unfold has_rendering at hh
          cases hp : page_at s.1 idx with
          | none => simp [remove_page_rendering, hp]
          | some q =>
            cases hr : q.rendering with
            | none => simp [remove_page_rendering, hp, hr]
            | some sf => simp [hp, hr] at hh
        rw [heq] at this
        simp only at this
        rw [this]
    · exact Or.inl rfl
  · exact Or.inl rfl

theorem gc_evict_loginv (k : Constants) (fov : LayeredRectangle) (half : Int)
    (pc0 : GuPreviewGui) (idx : Int) (s : GuPreviewGui × List (Int × Int))
    (h : GcLogInv k fov half pc0 s) (hc : half ≤ s.1.cache_size) :
    GcLogInv k fov half pc0 (gc_evict k fov idx s) := by
  rcases gc_evict_cases k fov idx s with hsame | ⟨hh, _, hlog, hsize⟩
  · rw [hsame]; exact h
  · obtain ⟨hev, hent, hcons, hrem, hrec⟩ := h
    have hev1 := gc_evict_evolves k fov idx s
    have hcl : has_rendering (gc_evict k fov idx s).1 idx = false := by
      apply gc_evict_cleared
      assumption
    refine ⟨hev.trans hev1, ?_, ?_, ?_, ?_⟩
    · intro e he
      rw [hlog] at he
      rcases List.mem_append.1 he with he | he
      · exact hent e he
      · simp only [List.mem_singleton] at he
        rw [he]; exact hc
    · rw [hlog, hsize, page_footprint_of_evolves hev]
      exact hcons.append idx
    · intro i hi0 hi1
      rw [hlog]
      by_cases hii : i = idx
      · exact ⟨s.1.cache_size, by simp [hii]⟩
      · rw [gc_evict_other k fov idx s hii] at hi1
        obtain ⟨c, hc2⟩ := hrem i hi0 hi1
        exact ⟨c, List.mem_append.2 (Or.inl hc2)⟩
    · intro e he
      rw [hlog] at he
      rcases List.mem_append.1 he with he | he
      · exact ⟨(hrec e he).1, hev1.has_rendering_mono (hrec e he).2⟩
      · simp only [List.mem_singleton] at he
        rw [he]
        refine ⟨?_, hcl⟩
        by_contra hne
        have hf : has_rendering pc0 idx = false := by simpa using hne
        rw [hev.has_rendering_mono hf] at hh
        exact absurd hh (by simp)

theorem gc_loop_loginv (k : Constants) (fov : LayeredRectangle) (m first last : Int)
    (pc0 : GuPreviewGui) (n : Nat) (s : GuPreviewGui × List (Int × Int))
    (h : GcLogInv k fov (Int.tdiv m 2) pc0 s) (hc : Int.tdiv m 2 ≤ s.1.cache_size) :
    GcLogInv k fov (Int.tdiv m 2) pc0 (gc_loop k fov m first last n s) := by
  induction n generalizing s with
  | zero => exact h
  | succ d ih =>
    have h1 := gc_evict_loginv k fov (Int.tdiv m 2) pc0 (first - ((d : Int) + 1)) s h hc
    simp only [gc_loop]
    split
    · exact h1
    · rename_i hc1
      have h2 := gc_evict_loginv k fov (Int.tdiv m 2) pc0 (last + ((d : Int) + 1)) _ h1
        (not_lt.1 hc1)
      split
      · exact h2
      · rename_i hc2
        exact ih _ h2 (not_lt.1 hc2)

theorem GcLogInv.init (k : Constants) (fov : LayeredRectangle) (half : Int)
    (pc0 : GuPreviewGui) : GcLogInv k fov half pc0 (pc0, []) := by
  refine ⟨Evolves.refl _ _, by simp, by simp [LogConsistent], ?_, by simp⟩
  intro i h1 h2
  simp only at h2
  rw [h1] at h2
  exact absurd h2 (by simp)

/-- The collector's record of removals satisfies the loop invariant whenever
some page is visible and the budget or the counter is not negative. -/
theorem run_garbage_collector_loginv (k : Constants) (cfg : Int) (pc : GuPreviewGui)
    (hcfg : 0 ≤ gc_max_cache_size cfg ∨ 0 ≤ pc.cache_size) (hvis : ∃ i : Int, page_in_fov (get_fov pc) pc i = true) :
    GcLogInv k (get_fov pc) (Int.tdiv (gc_max_cache_size cfg) 2) pc
      (run_garbage_collector k cfg pc) := by
  unfold run_garbage_collector
  simp only
  split
  · exact GcLogInv.init _ _ _ _
  · rename_i hbig
    have hf : (gc_range pc).1 ≠ -1 := by
      obtain ⟨i, hi⟩ := hvis
      rcases gc_range_spec pc with ⟨_, _, h3⟩ | ⟨h1, _⟩
      · rw [h3 i] at hi; exact absurd hi (by simp)
      · omega
    simp only [hf, if_false]
    apply gc_loop_loginv
    · exact GcLogInv.init _ _ _ _
    · simp only
      rcases hcfg with hm | hm
      · have : Int.tdiv (gc_max_cache_size cfg) 2 ≤ gc_max_cache_size cfg := by
          rw [Int.tdiv_eq_ediv hm (by decide)]
          omega
        omega
      · rcases le_total 0 (gc_max_cache_size cfg) with hb | hb
        · have : Int.tdiv (gc_max_cache_size cfg) 2 ≤ gc_max_cache_size cfg := by
            rw [Int.tdiv_eq_ediv hb (by decide)]
            omega
          omega
        · have : Int.tdiv (gc_max_cache_size cfg) 2 ≤ 0 := by
            have h2 := Int.tdiv_neg (a := -(gc_max_cache_size cfg)) (b := 2)
            have h3 : 0 ≤ Int.tdiv (-(gc_max_cache_size cfg)) 2 :=
              Int.tdiv_nonneg (by omega) (by decide)
            have h4 : Int.tdiv (gc_max_cache_size cfg) 2
                = -(Int.tdiv (-(gc_max_cache_size cfg)) 2) := by
              rw [Int.neg_tdiv, neg_neg]
            omega
          omega

/-- Undoing the last recorded removal of a collection brings `cache_size` back to
at least half the budget. -/
theorem run_garbage_collector_last_removal (k : Constants) (cfg : Int) (pc : GuPreviewGui)
    (hcfg : 0 ≤ gc_max_cache_size cfg ∨ 0 ≤ pc.cache_size) (hvis : ∃ i : Int, page_in_fov (get_fov pc) pc i = true)
    (l : List (Int × Int)) (p c : Int)
    (hl : (run_garbage_collector k cfg pc).2 = l ++ [(p, c)]) :
    Int.tdiv (gc_max_cache_size cfg) 2 ≤
      (run_garbage_collector k cfg pc).1.cache_size + page_footprint k pc p := by
  obtain ⟨_, hent, hcons, _, _⟩ := run_garbage_collector_loginv k cfg pc hcfg hvis
  rw [hl] at hcons hent
  have h1 := hcons.last
  have h2 := hent (p, c) (by simp)
  simp only at h2
  omega

theorem gc_evict_changed (k : Constants) (fov : LayeredRectangle) (idx : Int)
    (s : GuPreviewGui × List (Int × Int)) {i : Int} (h0 : has_rendering s.1 i = true)
    (h1 : has_rendering (gc_evict k fov idx s).1 i = false) : i = idx := by
  by_contra hne
  rw [gc_evict_other k fov idx s hne, h0] at h1
  exact absurd h1 (by simp)

theorem gc_loop_order (k : Constants) (fov : LayeredRectangle) (m first last : Int)
    (hle : first ≤ last) (n : Nat) (s : GuPreviewGui × List (Int × Int))
    (hfov : ∀ j : Int, page_in_fov fov s.1 j = true → first ≤ j ∧ j ≤ last)
    (hbeyond : ∀ j : Int, (j < first - n ∨ last + n < j) → has_rendering s.1 j = false)
    (i j : Int) (hi0 : has_rendering s.1 i = true)
    (hi1 : has_rendering (gc_loop k fov m first last n s).1 i = false)
    (hd : gc_dist first last i < gc_dist first last j) :
    has_rendering (gc_loop k fov m first last n s).1 j = false := by
  induction n generalizing s with
  | zero =>
    simp only [gc_loop] at hi1
    rw [hi0] at hi1
    exact absurd hi1 (by simp)
  | succ d ih =>
    have e1 := gc_evict_evolves k fov (first - ((d : Int) + 1)) s
    have e2 := gc_evict_evolves k fov (last + ((d : Int) + 1))
      (gc_evict k fov (first - ((d : Int) + 1)) s)
    have e3 := gc_loop_evolves k fov m first last d
      (gc_evict k fov (last + ((d : Int) + 1)) (gc_evict k fov (first - ((d : Int) + 1)) s))
    -- a page evicted by this round lies at distance d + 1, so `j` lies beyond it
    have far : gc_dist first last i = (d : Int) + 1 → has_rendering s.1 j = false := by
      intro hdi
      apply hbeyond
      rw [hdi] at hd
      unfold gc_dist at hd
      push_cast
      split at hd <;> omega
    have dist_up : i = first - ((d : Int) + 1) → gc_dist first last i = (d : Int) + 1 := by
      intro h; unfold gc_dist; rw [if_pos (by omega)]; omega
    have dist_down : i = last + ((d : Int) + 1) → gc_dist first last i = (d : Int) + 1 := by
      intro h; unfold gc_dist; rw [if_neg (by omega)]; omega
    have round : has_rendering (gc_evict k fov (last + ((d : Int) + 1))
        (gc_evict k fov (first - ((d : Int) + 1)) s)).1 i = false →
        gc_dist first last i = (d : Int) + 1 := by
      intro h2
      by_cases h1 : has_rendering (gc_evict k fov (first - ((d : Int) + 1)) s).1 i = false
      · exact dist_up (gc_evict_changed k fov _ s hi0 h1)
      · have h1t : has_rendering (gc_evict k fov (first - ((d : Int) + 1)) s).1 i = true := by
          simpa using h1
        exact dist_down (gc_evict_changed k fov _ _ h1t h2)
    simp only [gc_loop] at hi1 ⊢
    split at hi1
    · rename_i hc
      rw [if_pos hc]
      exact e1.has_rendering_mono (far (dist_up (gc_evict_changed k fov _ s hi0 hi1)))
    · rename_i hc
      rw [if_neg hc]
      split at hi1
      · rename_i hc2
        rw [if_pos hc2]
        exact (e1.trans e2).has_rendering_mono (far (round hi1))
      · rename_i hc2
        rw [if_neg hc2]
        by_cases h2 : has_rendering (gc_evict k fov (last + ((d : Int) + 1))
            (gc_evict k fov (first - ((d : Int) + 1)) s)).1 i = false
        · exact ((e1.trans e2).trans e3).has_rendering_mono (far (round h2))
        · have h2t : has_rendering (gc_evict k fov (last + ((d : Int) + 1))
              (gc_evict k fov (first - ((d : Int) + 1)) s)).1 i = true := by simpa using h2
          apply ih _ _ _ h2t hi1
          · intro j2 hj2
            rw [(e1.trans e2).in_fov_eq] at hj2
            exact hfov j2 hj2
          · intro j2 hj2
            by_cases hup : j2 = first - ((d : Int) + 1)
            · apply e2.has_rendering_mono
              rw [hup]
              apply gc_evict_cleared
              by_contra hv
              have := hfov (first - ((d : Int) + 1)) (by simpa using hv)
              omega
            · by_cases hdown : j2 = last + ((d : Int) + 1)
              · rw [hdown]
                apply gc_evict_cleared
                by_contra hv
                rw [e1.in_fov_eq] at hv
                have := hfov (last + ((d : Int) + 1)) (by simpa using hv)
                omega
              · apply (e1.trans e2).has_rendering_mono
                apply hbeyond
                push_cast
                omega

theorem invalidate_all_cleared (k : Constants) (pc : GuPreviewGui) (j : Int) :
    has_rendering (previewgui_invalidate_renderings k pc).1 j = false := by
  simp only [previewgui_invalidate_renderings]
  by_cases hr : j < 0 ∨ pc.n_pages ≤ j
  · have hmono : ∀ (g : Nat) (a : Int) (q : GuPreviewGui), has_rendering q j = false →
        has_rendering (invalidate_loop k g a q) j = false := by
      intro g
      induction g with
      | zero => intro a q hq; exact hq
      | succ g ihg =>
        intro a q hq
        simp only [invalidate_loop]
        apply ihg
        by_cases hja : j = a
        · subst hja; exact has_rendering_remove_self k q j
        · rw [has_rendering_remove_other k q hja]; exact hq
    exact hmono _ _ _ (has_rendering_out_of_range hr)
  · apply invalidate_loop_cleared
    simp only [GuPreviewGui.n_pages] at hr
    omega

/-- C10. Distance-ordered eviction: with `[first, last]` the visible index range
computed by `run_garbage_collector`, if the page at distance `d` outside that
range (index `first - d` or `last + d`) was evicted by this run, then no page at
a greater distance `e` outside the range still holds a cached bitmap. -/
theorem gc_distance_order (k : Constants) (cfg : Int) (pc : GuPreviewGui) (d e : Int)
    (hd : 0 < d) (hde : d < e)
    (hev : (has_rendering pc ((gc_range pc).1 - d) = true ∧
              has_rendering (run_garbage_collector k cfg pc).1 ((gc_range pc).1 - d) = false) ∨
           (has_rendering pc ((gc_range pc).2 + d) = true ∧
              has_rendering (run_garbage_collector k cfg pc).1 ((gc_range pc).2 + d) = false)) :
    has_rendering (run_garbage_collector k cfg pc).1 ((gc_range pc).1 - e) = false ∧
    has_rendering (run_garbage_collector k cfg pc).1 ((gc_range pc).2 + e) = false := by
  have key : ∀ j : Int, (j = (gc_range pc).1 - e ∨ j = (gc_range pc).2 + e) →
      has_rendering (run_garbage_collector k cfg pc).1 j = false := by
    intro j hj
    unfold run_garbage_collector at hev ⊢
    simp only at hev ⊢
    split
    · rename_i hsmall
      simp only [hsmall, if_true] at hev
      rcases hev with ⟨h0, h1⟩ | ⟨h0, h1⟩ <;> (rw [h0] at h1; exact absurd h1 (by simp))
    · rename_i hbig
      simp only [hbig, if_false] at hev
      rcases gc_range_spec pc with ⟨hf, hl, hnone⟩ | ⟨h0, hle, hlast, hin⟩
      · simp only [hf, if_true]
        exact (gc_loop_evolves k _ _ _ _ _ _).has_rendering_mono (invalidate_all_cleared k pc j)
      · have hf : (gc_range pc).1 ≠ -1 := by omega
        simp only [hf, if_false] at hev ⊢
        have hbeyond : ∀ j2 : Int,
            (j2 < (gc_range pc).1 -
                ((max (gc_range pc).1 (pc.n_pages - 1 - (gc_range pc).2)).toNat : Int) ∨
              (gc_range pc).2 +
                ((max (gc_range pc).1 (pc.n_pages - 1 - (gc_range pc).2)).toNat : Int) < j2) →
            has_rendering pc j2 = false := by
          intro j2 hj2
          apply has_rendering_out_of_range
          have hmax : (0 : Int) ≤ max (gc_range pc).1 (pc.n_pages - 1 - (gc_range pc).2) :=
            le_trans h0 (le_max_left _ _)
          rw [Int.toNat_of_nonneg hmax] at hj2
          have hm1 := le_max_left (gc_range pc).1 (pc.n_pages - 1 - (gc_range pc).2)
          have hm2 := le_max_right (gc_range pc).1 (pc.n_pages - 1 - (gc_range pc).2)
          omega
        have hdj : gc_dist (gc_range pc).1 (gc_range pc).2 j = e := by
          unfold gc_dist
          rcases hj with hj | hj
          · rw [if_pos (by omega)]; omega
          · rw [if_neg (by omega)]; omega
        rcases hev with ⟨hi0, hi1⟩ | ⟨hi0, hi1⟩
        · refine gc_loop_order k _ _ _ _ hle _ (pc, []) hin hbeyond _ j hi0 hi1 ?_
          rw [hdj]; unfold gc_dist; rw [if_pos (by omega)]; omega
        · refine gc_loop_order k _ _ _ _ hle _ (pc, []) hin hbeyond _ j hi0 hi1 ?_
          rw [hdj]; unfold gc_dist; rw [if_neg (by omega)]; omega
  exact ⟨key _ (Or.inl rfl), key _ (Or.inr rfl)⟩

/-- Witness for C10 on the ten-page cache (visible range `[4, 4]`): page 6, at
distance 2, was evicted, and the pages at distance 3 (pages 1 and 7) hold no
bitmap afterwards, while page 5 at distance 1 is still cached. -/
theorem gc_distance_order_witness :
    gc_range tenPages = (4, 4) ∧
    has_rendering (run_garbage_collector kExample 5 tenPages).1 5 = true ∧
    (has_rendering (run_garbage_collector kExample 5 tenPages).1 ((gc_range tenPages).1 - 3)
        = false ∧
      has_rendering (run_garbage_collector kExample 5 tenPages).1 ((gc_range tenPages).2 + 3)
        = false) :=
  ⟨by decide, by decide,
   gc_distance_order kExample 5 tenPages 2 3 (by decide) (by decide)
     (Or.inr ⟨by decide, by decide⟩)⟩

/-! ## C9: where the eviction stops -/

theorem gc_loop_complete (k : Constants) (fov : LayeredRectangle) (m first last : Int)
    (n : Nat) (s : GuPreviewGui × List (Int × Int))
    (hfov : ∀ j : Int, page_in_fov fov s.1 j = true → first ≤ j ∧ j ≤ last)
    (hfull : Int.tdiv m 2 ≤ (gc_loop k fov m first last n s).1.cache_size)
    (j : Int) (hj : (first - n ≤ j ∧ j < first) ∨ (last < j ∧ j ≤ last + n)) :
    has_rendering (gc_loop k fov m first last n s).1 j = false := by
  induction n generalizing s with
  | zero => simp only [Nat.cast_zero, sub_zero, add_zero] at hj; omega
  | succ d ih =>
    have e1 := gc_evict_evolves k fov (first - ((d : Int) + 1)) s
    have e2 := gc_evict_evolves k fov (last + ((d : Int) + 1))
      (gc_evict k fov (first - ((d : Int) + 1)) s)
    have e3 := gc_loop_evolves k fov m first last d
      (gc_evict k fov (last + ((d : Int) + 1)) (gc_evict k fov (first - ((d : Int) + 1)) s))
    simp only [gc_loop] at hfull ⊢
    split at hfull
    · omega
    · rename_i hc
      rw [if_neg hc]
      split at hfull
      · omega
      · rename_i hc2
        rw [if_neg hc2]
        push_cast at hj
        by_cases hup : j = first - ((d : Int) + 1)
        · apply (e2.trans e3).has_rendering_mono
          rw [hup]
          apply gc_evict_cleared
          by_contra hv
          have := hfov (first - ((d : Int) + 1)) (by simpa using hv)
          omega
        · by_cases hdown : j = last + ((d : Int) + 1)
          · apply e3.has_rendering_mono
            rw [hdown]
            apply gc_evict_cleared
            by_contra hv
            rw [e1.in_fov_eq] at hv
            have := hfov (last + ((d : Int) + 1)) (by simpa using hv)
            omega
          · apply ih _ _ hfull
            · omega
            · intro j2 hj2
              rw [(e1.trans e2).in_fov_eq] at hj2
              exact hfov j2 hj2

/-- When the collector returns with `cache_size >= budget/2` although the cache
was at or over budget and some page is visible, it has evicted every page
outside the visible index range. -/
theorem run_garbage_collector_complete (k : Constants) (cfg : Int) (pc : GuPreviewGui)
    (hbig : gc_max_cache_size cfg ≤ pc.cache_size)
    (hvis : ∃ i : Int, page_in_fov (get_fov pc) pc i = true)
    (hfull : Int.tdiv (gc_max_cache_size cfg) 2 ≤ (run_garbage_collector k cfg pc).1.cache_size)
    (j : Int) (hj : j < (gc_range pc).1 ∨ (gc_range pc).2 < j) :
    has_rendering (run_garbage_collector k cfg pc).1 j = false := by
  have hev := run_garbage_collector_evolves k cfg pc
  by_cases hr : j < 0 ∨ pc.n_pages ≤ j
  · exact hev.has_rendering_mono (has_rendering_out_of_range hr)
  · unfold run_garbage_collector at hfull ⊢
    simp only at hfull ⊢
    have hnb : ¬ pc.cache_size < gc_max_cache_size cfg := by omega
    simp only [hnb, if_false] at hfull ⊢
    rcases gc_range_spec pc with ⟨_, _, hnone⟩ | ⟨h0, hle, hlast, hin⟩
    · obtain ⟨i, hi⟩ := hvis
      rw [hnone i] at hi; exact absurd hi (by simp)
    · have hf : (gc_range pc).1 ≠ -1 := by omega
      simp only [hf, if_false] at hfull ⊢
      apply gc_loop_complete k _ _ _ _ _ (pc, []) hin hfull
      have hmax : (0 : Int) ≤ max (gc_range pc).1 (pc.n_pages - 1 - (gc_range pc).2) :=
        le_trans h0 (le_max_left _ _)
      rw [Int.toNat_of_nonneg hmax]
      have hm1 := le_max_left (gc_range pc).1 (pc.n_pages - 1 - (gc_range pc).2)
      have hm2 := le_max_right (gc_range pc).1 (pc.n_pages - 1 - (gc_range pc).2)
      omega

theorem LogConsistent.equal_footprints {k : Constants} {pc : GuPreviewGui} {f : Int}
    {log : List (Int × Int)} {start final : Int}
    (hf : ∀ e ∈ log, page_footprint k pc e.1 = f)
    (h : LogConsistent k pc start log final) : final = start - log.length * f := by
  induction log generalizing start with
  | nil => simp only [LogConsistent] at h; simp [h]
  | cons e rest ih =>
    obtain ⟨p, c⟩ := e
    simp only [LogConsistent] at h
    have h1 := ih (fun e he => hf e (List.mem_cons_of_mem _ he)) h.2
    have h2 := hf (p, c) (List.mem_cons_self _ _)
    simp only at h2
    rw [h1, h2, h.1]
    push_cast [List.length_cons]
    ring

/-- C9 as stated fails on the ten-page cache: with budget `B` = 5 MiB and ten
rendered pages of 1 MiB each (total `2B`), three pages already free `B/2`, yet
the collector removes eight, the last of them when 7 MiB had been freed. -/
theorem gc_freed_half_counterexample :
    tenPages.cache_size = 2 * (5 * 1024 * 1024) ∧
    (∀ i ∈ [(0 : Int), 1, 2, 3, 4, 5, 6, 7, 8, 9],
      has_rendering tenPages i = true ∧ page_footprint kExample tenPages i = 1048576) ∧
    Int.tdiv (5 * 1024 * 1024) 2 ≤ 3 * 1048576 ∧
    (run_garbage_collector kExample 5 tenPages).2.length = 8 ∧
    ¬ (∀ e ∈ (run_garbage_collector kExample 5 tenPages).2,
        tenPages.cache_size - e.2 < Int.tdiv (5 * 1024 * 1024) 2) := by
  refine ⟨by decide, by decide, by decide, by decide, ?_⟩
  intro h
  exact absurd (h (3, 3145728) (by decide)) (by decide)

/-- While the product fits a `gint` the budget is the configured number of MB
times 1024 * 1024. -/
theorem gc_max_cache_size_eq (cfg : Int) (h0 : 0 ≤ cfg * 1024 * 1024)
    (h1 : cfg * 1024 * 1024 ≤ INT_MAX) : gc_max_cache_size cfg = cfg * 1024 * 1024 := by
  unfold gc_max_cache_size gint_wrap
  unfold INT_MAX at h1
  omega

/-- C9, amended. For a cache of ten equally sized pages (footprint `f` each), all
materialised, with total size `2B` for a non-negative budget `B` and some page
in view (`cache_size` is a `gint`, so at most `INT_MAX`, and the budget
`B = cfg * 1024 * 1024` is then the value the function computes in `gint`):
the collector stops as soon as the remaining `cache_size` is below
`B/2`, not when the freed size reaches `B/2`.  By exact byte accounting the
cache holds `(10 - n) * f` bytes after `n` removals; every removal is made while
`cache_size >= B/2` (so undoing the last one gives `cache_size >= B/2`); and on
return either `cache_size < B/2` or no page outside the visible range is left
to evict. -/
theorem gc_ten_equal_pages (k : Constants) (cfg : Int) (pc : GuPreviewGui) (f : Int)
    (hcfg : 0 ≤ cfg) (hgint : pc.cache_size ≤ INT_MAX) (hlen : pc.pages.length = 10)
    (hall : ∀ i : Int, 0 ≤ i → i < 10 →
      has_rendering pc i = true ∧ page_footprint k pc i = f)
    (htotal : pc.cache_size = 10 * f) (hbudget : 10 * f = 2 * (cfg * 1024 * 1024))
    (hvis : ∃ i : Int, page_in_fov (get_fov pc) pc i = true) :
    (run_garbage_collector k cfg pc).1.cache_size
        = (10 - ((run_garbage_collector k cfg pc).2.length : Int)) * f ∧
    (∀ e ∈ (run_garbage_collector k cfg pc).2, Int.tdiv (cfg * 1024 * 1024) 2 ≤ e.2) ∧
    ((run_garbage_collector k cfg pc).2 ≠ [] →
        Int.tdiv (cfg * 1024 * 1024) 2 ≤ (run_garbage_collector k cfg pc).1.cache_size + f) ∧
    ((run_garbage_collector k cfg pc).1.cache_size < Int.tdiv (cfg * 1024 * 1024) 2 ∨
      ∀ j : Int, (j < (gc_range pc).1 ∨ (gc_range pc).2 < j) →
        has_rendering (run_garbage_collector k cfg pc).1 j = false) := by
  have hI : INT_MAX = 2147483647 := rfl
  have hfit : cfg * 1024 * 1024 ≤ INT_MAX := by
    rw [hI] at hgint ⊢
    omega
  have hpos : 0 ≤ cfg * 1024 * 1024 := by omega
  have hB : gc_max_cache_size cfg = cfg * 1024 * 1024 := gc_max_cache_size_eq cfg hpos hfit
  have hnn : 0 ≤ gc_max_cache_size cfg ∨ 0 ≤ pc.cache_size := Or.inl (by rw [hB]; exact hpos)
  have hbig : gc_max_cache_size cfg ≤ pc.cache_size := by
    rw [hB, htotal, hbudget]
    linarith
  obtain ⟨_, hent, hcons, _, hrec⟩ := run_garbage_collector_loginv k cfg pc hnn hvis
  rw [hB] at hent
  have hfoot : ∀ e ∈ (run_garbage_collector k cfg pc).2, page_footprint k pc e.1 = f := by
    intro e he
    have h1 := (hrec e he).1
    by_cases hr : e.1 < 0 ∨ pc.n_pages ≤ e.1
    · rw [has_rendering_out_of_range hr] at h1; exact absurd h1 (by simp)
    · simp only [GuPreviewGui.n_pages, hlen] at hr
      exact (hall e.1 (by omega) (by push_cast at hr; omega)).2
  have hsize := hcons.equal_footprints hfoot
  refine ⟨by rw [hsize, htotal]; ring, hent, ?_, ?_⟩
  · intro hne
    obtain ⟨l, a, hl⟩ : ∃ l a, (run_garbage_collector k cfg pc).2 = l ++ [a] :=
      ⟨_, _, (List.dropLast_append_getLast hne).symm⟩
    obtain ⟨p, c⟩ := a
    have h4 := run_garbage_collector_last_removal k cfg pc hnn hvis l p c hl
    rw [hB] at h4
    have hp := hfoot (p, c) (by rw [hl]; simp)
    simp only at hp
    rw [hp] at h4
    exact h4
  · by_cases hlow : (run_garbage_collector k cfg pc).1.cache_size
        < Int.tdiv (cfg * 1024 * 1024) 2
    · exact Or.inl hlow
    · right
      intro j hj
      have hfull : Int.tdiv (gc_max_cache_size cfg) 2
          ≤ (run_garbage_collector k cfg pc).1.cache_size := by
        rw [hB]; exact not_lt.1 hlow
      exact run_garbage_collector_complete k cfg pc hbig hvis hfull j hj

/-- Witness for the amended C9 on the ten-page cache: eight removals leave
2 MiB, which is below `B/2` = 2.5 MiB, and the seventh removal left 3 MiB. -/
theorem gc_ten_equal_pages_witness :
    (run_garbage_collector kExample 5 tenPages).2.length = 8 ∧
    (run_garbage_collector kExample 5 tenPages).1.cache_size
        = (10 - ((run_garbage_collector kExample 5 tenPages).2.length : Int)) * 1048576 ∧
    (run_garbage_collector kExample 5 tenPages).1.cache_size
        < Int.tdiv (5 * 1024 * 1024) 2 :=
  ⟨by decide,
   (gc_ten_equal_pages kExample 5 tenPages 1048576 (by decide) (by decide) (by decide)
      (by decide) (by decide) (by decide) ⟨4, by decide⟩).1,
   by decide⟩

/-! ## C2: cache accounting -/

theorem gint_of_double_intCast (n : Int) : gint_of_double (n : ℚ) = n := by
  simp [gint_of_double]

/-- C2 (the code departs from the claim). On a window with device scale factor 2,
one `get_page_rendering` from the empty cache creates a bitmap of 20 by 20
pixels (`do_render` multiplies by the device scale factor) but adds only the
footprint of the 10 by 10 inner rectangle to `cache_size`: the counter holds
`100 * BYTES_PER_PIXEL` while the bitmap holds `400 * BYTES_PER_PIXEL`. -/
theorem cache_size_ignores_device_scale (k : Constants) :
    retinaPage.cache_size = 0 ∧ cache_bitmap_bytes k retinaPage = 0 ∧
    (get_page_rendering k true retinaPage 0).2 = some { width := 20, height := 20 } ∧
    (get_page_rendering k true retinaPage 0).1.cache_size = 100 * k.BYTES_PER_PIXEL ∧
    cache_bitmap_bytes k (get_page_rendering k true retinaPage 0).1
      = 400 * k.BYTES_PER_PIXEL := by
  have h10 : gint_of_double (10 : ℚ) = 10 := by decide
  have h20 : gint_of_double ((10 : ℚ) * 2) = 20 := by
    have : ((10 : ℚ) * 2) = ((20 : Int) : ℚ) := by norm_num
    rw [this, gint_of_double_intCast]
  refine ⟨rfl, by simp [cache_bitmap_bytes, retinaPage], ?_, ?_, ?_⟩
  · simp [get_page_rendering, retinaPage, page_at, do_render, get_retina_scale_factor,
      h10, h20]
  · simp [get_page_rendering, retinaPage, page_at]
  · simp [get_page_rendering, retinaPage, page_at, do_render, get_retina_scale_factor,
      h10, h20, cache_bitmap_bytes]

/-! ## C3: selection of the unique best candidate -/

theorem getElem?_snoc_iff (pre : List SyncNode) (sn b : SyncNode) (j : Nat) :
    (pre ++ [sn])[j]? = some b ↔ pre[j]? = some b ∨ (j = pre.length ∧ b = sn) := by
  rcases Nat.lt_trichotomy j pre.length with h | h | h
  · rw [List.getElem?_append_left h]
    constructor
    · exact Or.inl
    · rintro (h1 | ⟨h1, _⟩)
      · exact h1
      · omega
  · subst h
    rw [List.getElem?_append_right (le_refl _)]
    simp only [Nat.sub_self, List.getElem?_cons_zero, Option.some.injEq]
    constructor
    · intro h1; exact Or.inr ⟨trivial, h1.symm⟩
    · rintro (h1 | ⟨_, h1⟩)
      · rw [List.getElem?_eq_none (le_refl _)] at h1; exact absurd h1 (by simp)
      · exact h1.symm
  · rw [List.getElem?_append_right (by omega)]
    have h1 : ([sn] : List SyncNode)[j - pre.length]? = none :=
      List.getElem?_eq_none (by simp; omega)
    rw [h1]
    constructor
    · intro h2; exact absurd h2 (by simp)
    · rintro (h2 | ⟨h2, _⟩)
      · rw [List.getElem?_eq_none (by omega)] at h2; exact absurd h2 (by simp)
      · omega

theorem one_node_scan_inv (l pre : List SyncNode) (id other : Int)
    (h : ScoreScanInv pre id other) :
    ∃ other1, ScoreScanInv (pre ++ l) (one_node_scan l pre.length id other) other1 := by
  induction l generalizing pre id other with
  | nil => exact ⟨other, by simpa [one_node_scan] using h⟩
  | cons sn nl ih =>
    obtain ⟨h0, hle, hid⟩ := h
    have happ : pre ++ sn :: nl = (pre ++ [sn]) ++ nl := by simp
    have hlen : ((pre ++ [sn]).length : Int) = (pre.length : Int) + 1 := by simp
    have hself : (pre ++ [sn])[pre.length]? = some sn :=
      (getElem?_snoc_iff pre sn sn pre.length).2 (Or.inr ⟨rfl, rfl⟩)
    simp only [one_node_scan]
    rw [happ, ← hlen]
    split
    · rename_i hgt
      apply ih
      refine ⟨by omega, ?_, Or.inr ⟨by omega, by omega, ?_, ?_⟩⟩
      · intro j b hb
        rcases (getElem?_snoc_iff pre sn b j).1 hb with h1 | ⟨_, h1⟩
        · have := hle j b h1; omega
        · rw [h1]
      · exact ⟨sn, by simp, rfl⟩
      · intro j b hj hb
        rcases (getElem?_snoc_iff pre sn b j).1 hb with h1 | ⟨h1, _⟩
        · have := hle j b h1; omega
        · simp at hj; omega
    · rename_i hngt
      split
      · rename_i heq
        apply ih
        refine ⟨h0, ?_, Or.inl ⟨rfl, ?_⟩⟩
        · intro j b hb
          rcases (getElem?_snoc_iff pre sn b j).1 hb with h1 | ⟨_, h1⟩
          · exact hle j b h1
          · rw [h1]; omega
        · rcases hid with ⟨_, hz | ⟨i, j, a, b, hij, ha, hb, hsa, hsb⟩⟩ |
            ⟨hid0, _, ⟨a, ha, hsa⟩, _⟩
          · exact Or.inl hz
          · exact Or.inr ⟨i, j, a, b, hij,
              (getElem?_snoc_iff pre sn a i).2 (Or.inl ha),
              (getElem?_snoc_iff pre sn b j).2 (Or.inl hb), hsa, hsb⟩
          · refine Or.inr ⟨id.toNat, pre.length, a, sn, ?_,
              (getElem?_snoc_iff pre sn a _).2 (Or.inl ha), hself, hsa, heq⟩
            have hlt : id.toNat < pre.length := by
              by_contra hge
              rw [List.getElem?_eq_none (by omega)] at ha
              exact absurd ha (by simp)
            omega
      · rename_i hne
        apply ih
        refine ⟨h0, ?_, ?_⟩
        · intro j b hb
          rcases (getElem?_snoc_iff pre sn b j).1 hb with h1 | ⟨_, h1⟩
          · exact hle j b h1
          · rw [h1]; omega
        · rcases hid with ⟨hm, hz | ⟨i, j, a, b, hij, ha, hb, hsa, hsb⟩⟩ |
            ⟨hid0, hpos, ⟨a, ha, hsa⟩, hothers⟩
          · exact Or.inl ⟨hm, Or.inl hz⟩
          · exact Or.inl ⟨hm, Or.inr ⟨i, j, a, b, hij,
              (getElem?_snoc_iff pre sn a i).2 (Or.inl ha),
              (getElem?_snoc_iff pre sn b j).2 (Or.inl hb), hsa, hsb⟩⟩
          · refine Or.inr ⟨hid0, hpos,
              ⟨a, (getElem?_snoc_iff pre sn a _).2 (Or.inl ha), hsa⟩, ?_⟩
            intro j b hj hb
            rcases (getElem?_snoc_iff pre sn b j).1 hb with h1 | ⟨_, h1⟩
            · exact hothers j b hj h1
            · rw [h1]; omega

/-- The loop of `synctex_one_node_found` ends with a non-negative index exactly
when that index is the unique positive maximum of the scores. -/
theorem one_node_scan_spec (l : List SyncNode) (i : Nat) :
    (0 ≤ one_node_scan l 0 (-1) 0 ∧ (one_node_scan l 0 (-1) 0).toNat = i) ↔
      IsUniquePositiveMax l i := by
  obtain ⟨other, h0, hle, hid⟩ := one_node_scan_inv l [] (-1) 0
    ⟨le_refl _, by simp, Or.inl ⟨rfl, Or.inl rfl⟩⟩
  simp only [List.nil_append, List.length_nil, Nat.cast_zero] at hle hid
  constructor
  · rintro ⟨hge, hi⟩
    rcases hid with ⟨hm, _⟩ | ⟨_, hpos, ⟨a, ha, hsa⟩, hothers⟩
    · omega
    · rw [hi] at ha hothers
      exact ⟨a, ha, by omega, fun j b hj hb => by rw [hsa]; exact hothers j b hj hb⟩
  · rintro ⟨a, ha, hpos, hmax⟩
    have hao := hle i a ha
    rcases hid with ⟨_, hz | ⟨p, q, c, d, hpq, hc, hd, hsc, hsd⟩⟩ |
      ⟨hid0, _, ⟨c, hc, hsc⟩, hothers⟩
    · omega
    · by_cases hp : p = i
      · have := hmax q d (by omega) hd
        omega
      · have := hmax p c hp hc
        omega
    · refine ⟨hid0, ?_⟩
      by_contra hne
      have h1 := hmax _ c hne hc
      omega

theorem mark_selected_getElem? (l : List SyncNode) (i j : Nat) :
    (mark_selected l i)[j]? =
      (l[j]?).map (fun sn => if j = i then { sn with score := -1 } else sn) := by
  induction l generalizing i j with
  | nil => simp [mark_selected]
  | cons sn nl ih =>
    cases i with
    | zero =>
      cases j with
      | zero => simp [mark_selected]
      | succ j => simp [mark_selected]
    | succ i =>
      cases j with
      | zero => simp [mark_selected]
      | succ j => simp [mark_selected, ih]

/-- C3. Selection rule of `synctex_one_node_found`: a list of exactly one candidate
yields that candidate; any other list yields candidate `i` if and only if the
score of `i` is positive and strictly greater than every other score, and yields
none otherwise (a tie at the maximum, or no positive score); the selected
candidate's score becomes -1 and nothing else changes.  Scores `[0,0,0]` select
none, `[1,0,0]` select index 0, `[1,1,0]` select none. -/
theorem synctex_one_node_found_spec (pc : GuPreviewGui) :
    (∀ sn, pc.sync_nodes = [sn] →
        synctex_one_node_found pc =
          ({ pc with sync_nodes := [{ sn with score := -1 }] }, some 0)) ∧
    (pc.sync_nodes.length ≠ 1 →
        (∀ i : Nat, (synctex_one_node_found pc).2 = some i ↔
            IsUniquePositiveMax pc.sync_nodes i) ∧
        ((synctex_one_node_found pc).2 = none ↔
            ¬ ∃ i : Nat, IsUniquePositiveMax pc.sync_nodes i)) ∧
    ((synctex_one_node_found pc).2 = none → (synctex_one_node_found pc).1 = pc) ∧
    (∀ i : Nat, (synctex_one_node_found pc).2 = some i →
        (synctex_one_node_found pc).1 =
            { pc with sync_nodes := (synctex_one_node_found pc).1.sync_nodes } ∧
        ∀ j : Nat, (synctex_one_node_found pc).1.sync_nodes[j]? =
          (pc.sync_nodes[j]?).map
            (fun sn => if j = i then { sn with score := -1 } else sn)) ∧
    ((synctex_one_node_found { pc with sync_nodes := nodesWithScores [0, 0, 0] }).2 = none ∧
     (synctex_one_node_found { pc with sync_nodes := nodesWithScores [1, 0, 0] }).2 = some 0 ∧
     (synctex_one_node_found { pc with sync_nodes := nodesWithScores [1, 1, 0] }).2 = none) := by
  have hiff : pc.sync_nodes.length ≠ 1 → ∀ i : Nat,
      (synctex_one_node_found pc).2 = some i ↔ IsUniquePositiveMax pc.sync_nodes i := by
    intro hlen i
    rw [← one_node_scan_spec]
    simp only [synctex_one_node_found, hlen, if_false]
    split
    · rename_i hge
      simp only [Option.some.injEq]
      exact ⟨fun h => ⟨hge, h⟩, fun h => h.2⟩
    · rename_i hlt
      constructor
      · intro h; exact absurd h (by simp)
      · intro h; exact absurd h.1 hlt
  refine ⟨?_, ?_, ?_, ?_, ?_⟩
  · intro sn hsn
    simp [synctex_one_node_found, hsn, mark_selected]
  · intro hlen
    refine ⟨hiff hlen, ?_⟩
    constructor
    · rintro hnone ⟨i, hi⟩
      rw [← hiff hlen i, hnone] at hi
      exact absurd hi (by simp)
    · intro hno
      cases hres : (synctex_one_node_found pc).2 with
      | none => rfl
      | some i => exact absurd ⟨i, (hiff hlen i).1 hres⟩ hno
  · intro hnone
    unfold synctex_one_node_found at hnone ⊢
    split at hnone
    · exact absurd hnone (by simp)
    · rename_i hlen
      simp only [hlen, if_false] at hnone ⊢
      split at hnone
      · exact absurd hnone (by simp)
      · rename_i hlt
        simp only [hlt, if_false]
  · intro i hi
    unfold synctex_one_node_found at hi ⊢
    split at hi
    · rename_i hlen
      simp only [Option.some.injEq] at hi
      simp only [hlen, if_true]
      exact ⟨trivial, fun j => by rw [← hi]; exact mark_selected_getElem? _ _ _⟩
    · rename_i hlen
      simp only [hlen, if_false] at hi ⊢
      split at hi
      · rename_i hge
        simp only [Option.some.injEq] at hi
        simp only [hge, if_true]
        exact ⟨trivial, fun j => by rw [← hi]; exact mark_selected_getElem? _ _ _⟩
      · exact absurd hi (by simp)
  · exact ⟨rfl, rfl, rfl⟩

/-- Witness for C3's statement on a concrete list: with scores `[1, 3, 2]` the
candidate at index 1 is selected and is the unique positive maximum. -/
theorem synctex_one_node_found_spec_witness :
    (synctex_one_node_found { sync_nodes := nodesWithScores [1, 3, 2] }).2 = some 1 ∧
    IsUniquePositiveMax (nodesWithScores [1, 3, 2]) 1 :=
  ⟨rfl,
   (((synctex_one_node_found_spec { sync_nodes := nodesWithScores [1, 3, 2] }).2.1
      (by decide)).1 1).1 rfl⟩

/-! ## C4: merging close candidates -/

theorem foldl_min_spec (f : SyncNode → Int) (l : List SyncNode) (a : Int) :
    l.foldl (fun m sn => min m (f sn)) a ≤ a ∧
    (∀ sn ∈ l, l.foldl (fun m sn => min m (f sn)) a ≤ f sn) ∧
    (l.foldl (fun m sn => min m (f sn)) a = a ∨
      ∃ sn ∈ l, l.foldl (fun m sn => min m (f sn)) a = f sn) := by
  induction l generalizing a with
  | nil => simp
  | cons s t ih =>
    obtain ⟨h1, h2, h3⟩ := ih (min a (f s))
    simp only [List.foldl_cons, List.mem_cons, forall_eq_or_imp, exists_eq_or_imp]
    refine ⟨le_trans h1 (min_le_left _ _), ⟨le_trans h1 (min_le_right _ _), h2⟩, ?_⟩
    rcases h3 with h3 | h3
    · rcases min_choice a (f s) with hc | hc
      · left; rw [h3, hc]
      · right; left; rw [h3, hc]
    · right; right; exact h3

theorem foldl_max_spec (f : SyncNode → Int) (l : List SyncNode) (a : Int) :
    a ≤ l.foldl (fun m sn => max m (f sn)) a ∧
    (∀ sn ∈ l, f sn ≤ l.foldl (fun m sn => max m (f sn)) a) ∧
    (l.foldl (fun m sn => max m (f sn)) a = a ∨
      ∃ sn ∈ l, l.foldl (fun m sn => max m (f sn)) a = f sn) := by
  induction l generalizing a with
  | nil => simp
  | cons s t ih =>
    obtain ⟨h1, h2, h3⟩ := ih (max a (f s))
    simp only [List.foldl_cons, List.mem_cons, forall_eq_or_imp, exists_eq_or_imp]
    refine ⟨le_trans (le_max_left _ _) h1, ⟨le_trans (le_max_right _ _) h1, h2⟩, ?_⟩
    rcases h3 with h3 | h3
    · rcases max_choice a (f s) with hc | hc
      · left; rw [h3, hc]
      · right; left; rw [h3, hc]
    · right; right; exact h3

/-- On candidates that all lie on page `p` the loop of `synctex_merge_nodes` never
takes the early return and computes running minima and maxima. -/
theorem merge_scan_same_page (p : Int) (l : List SyncNode) (acc : MergeAcc)
    (hpage : ∀ sn ∈ l, sn.page = p) (hacc : acc.page = -1 ∨ acc.page = p) :
    merge_scan l acc = some
      { x1 := l.foldl (fun m sn => min m sn.x) acc.x1
        y1 := l.foldl (fun m sn => min m sn.y) acc.y1
        x2 := l.foldl (fun m sn => max m (sn.x + sn.width)) acc.x2
        y2 := l.foldl (fun m sn => max m (sn.y + sn.height)) acc.y2
        page := if l = [] then acc.page else p } := by
  induction l generalizing acc with
  | nil => simp [merge_scan]
  | cons s t ih =>
    have hs : s.page = p := hpage s (List.mem_cons_self _ _)
    have ht : ∀ sn ∈ t, sn.page = p := fun sn h => hpage sn (List.mem_cons_of_mem _ h)
    simp only [merge_scan, List.foldl_cons]
    by_cases h1 : acc.page = -1
    · rw [if_pos h1]
      refine (ih _ ht (Or.inr (by exact hs))).trans ?_
      simp [hs]
    · have h2 : acc.page = p := by
        rcases hacc with h | h
        · exact absurd h h1
        · exact h
      have h3 : ¬ acc.page ≠ s.page := by rw [h2, hs]; simp
      simp only [h1, h3, if_false]
      refine (ih _ ht (Or.inr (by exact h2))).trans ?_
      simp [h2]

/-- One third of a view 1000 high, as the `gdouble` division delivers it. -/
theorem round_double_1000_third :
    round_double ((1000 : ℚ) / 3) = 5864062014805333 / 17592186044416 := by
  rw [round_double_eval _ 8 5864062014805333 (by norm_num [abs_of_pos])
    (by norm_num [abs_of_pos]) (by norm_num) (by norm_num)]
  norm_num

/-- C4 (the code departs from the claim). The two candidates of `twoNegative` lie
on one page, their bounding box is 25 by 15 with origin (-50, -50), and
`15 * scale` is below a third of the view height; `synctex_merge_nodes` merges
them, but into a node of 49 by 49: its maxima `x2`, `y2` start at -1 while the
right and bottom edges of the candidates are -25 and -35. -/
theorem merge_misses_negative_box :
    twoNegative.sync_nodes ≠ [] ∧
    (∀ sn ∈ twoNegative.sync_nodes, sn.page = 0) ∧
    IsBoundingBox twoNegative.sync_nodes (-50) (-50) 25 15 ∧
    round_double (((15 : Int) : ℚ) * twoNegative.scale)
      < round_double (twoNegative.vadj.page_size / 3) ∧
    (synctex_merge_nodes twoNegative).sync_nodes =
      [{ page := 0, x := -50, y := -50, width := 49, height := 49, score := 0 }] ∧
    (synctex_merge_nodes twoNegative).sync_nodes ≠
      [{ page := 0, x := -50, y := -50, width := 25, height := 15, score := 0 }] := by
  have r15 : round_double (15 : ℚ) = 15 := by
    have := round_double_intCast 15 (by norm_num)
    simpa using this
  have r49 : round_double (49 : ℚ) = 49 := by
    have := round_double_intCast 49 (by norm_num)
    simpa using this
  have hm : (synctex_merge_nodes twoNegative).sync_nodes =
      [{ page := 0, x := -50, y := -50, width := 49, height := 49, score := 0 }] := by
    simp only [synctex_merge_nodes, twoNegative, merge_scan, INT_MAX]
    norm_num [r49, round_double_1000_third]
  refine ⟨by decide, by decide, ?_, ?_, hm, ?_⟩
  · simp [IsBoundingBox, twoNegative]
  · simp only [twoNegative]
    norm_num [r15, round_double_1000_third]
  · rw [hm]; decide

/-- The merge rule of `synctex_merge_nodes` away from the initial values of its
maxima. For every non-empty candidate list whose candidates all lie on page `p`
(coordinates within the `gint` range), with bounding box `(x, y, w, h)` whose
right edge `x + w` and bottom edge `y + h` are at least -1: if `h * scale` is
less than one third of the viewport height (both as `gdouble` results),
`synctex_merge_nodes` replaces the list by exactly one candidate on page `p`
with that bounding box and score 0. -/
theorem synctex_merge_nodes_spec (pc : GuPreviewGui) (p x y w h : Int)
    (hne : pc.sync_nodes ≠ [])
    (hpage : ∀ sn ∈ pc.sync_nodes, sn.page = p)
    (hrange : ∀ sn ∈ pc.sync_nodes, sn.x ≤ INT_MAX ∧ sn.y ≤ INT_MAX)
    (hbox : IsBoundingBox pc.sync_nodes x y w h)
    (hedge : -1 ≤ x + w ∧ -1 ≤ y + h)
    (hclose : round_double ((h : ℚ) * pc.scale) < round_double (pc.vadj.page_size / 3)) :
    synctex_merge_nodes pc =
      { pc with sync_nodes :=
          [{ page := p, x := x, y := y, width := w, height := h, score := 0 }] } := by
  obtain ⟨hin, ⟨sx, hsx, hx⟩, ⟨sy, hsy, hy⟩, ⟨sr, hsr, hr⟩, ⟨sb, hsb, hb⟩⟩ := hbox
  have hx1 : pc.sync_nodes.foldl (fun m sn => min m sn.x) INT_MAX = x := by
    obtain ⟨_, h2, h3⟩ := foldl_min_spec (fun sn => sn.x) pc.sync_nodes INT_MAX
    have := h2 sx hsx
    rcases h3 with h3 | ⟨sn, hsn, h3⟩
    · have := (hrange sx hsx).1
      omega
    · have := (hin sn hsn).1
      omega
  have hy1 : pc.sync_nodes.foldl (fun m sn => min m sn.y) INT_MAX = y := by
    obtain ⟨_, h2, h3⟩ := foldl_min_spec (fun sn => sn.y) pc.sync_nodes INT_MAX
    have := h2 sy hsy
    rcases h3 with h3 | ⟨sn, hsn, h3⟩
    · have := (hrange sy hsy).2
      omega
    · have := (hin sn hsn).2.1
      omega
  have hx2 : pc.sync_nodes.foldl (fun m sn => max m (sn.x + sn.width)) (-1) = x + w := by
    obtain ⟨_, h2, h3⟩ := foldl_max_spec (fun sn => sn.x + sn.width) pc.sync_nodes (-1)
    have := h2 sr hsr
    rcases h3 with h3 | ⟨sn, hsn, h3⟩
    · omega
    · have := (hin sn hsn).2.2.1
      omega
  have hy2 : pc.sync_nodes.foldl (fun m sn => max m (sn.y + sn.height)) (-1) = y + h := by
    obtain ⟨_, h2, h3⟩ := foldl_max_spec (fun sn => sn.y + sn.height) pc.sync_nodes (-1)
    have := h2 sb hsb
    rcases h3 with h3 | ⟨sn, hsn, h3⟩
    · omega
    · have := (hin sn hsn).2.2.2
      omega
  unfold synctex_merge_nodes
  rw [merge_scan_same_page p pc.sync_nodes _ hpage (Or.inl rfl)]
  simp only [hx1, hy1, hx2, hy2, hne, if_false]
  have e1 : y + h - y = h := by ring
  have e2 : x + w - x = w := by ring
  rw [e1, e2, if_pos hclose]

/-- The merge rule on three candidates on page 2 with bounding height 100 in a
view 1000 pixels high at scale 1: they merge into one node, their bounding
box. -/
theorem synctex_merge_nodes_threeClose :
    synctex_merge_nodes threeClose =
      { threeClose with sync_nodes :=
          [{ page := 2, x := 100, y := 300, width := 200, height := 100, score := 0 }] } :=
  synctex_merge_nodes_spec threeClose 2 100 300 200 100 (by decide) (by decide)
    (by decide) (by simp [IsBoundingBox, threeClose]) (by decide)
    (by
      have r100 : round_double (100 : ℚ) = 100 := by
        have := round_double_intCast 100 (by norm_num)
        simpa using this
      simp only [threeClose]
      norm_num [r100, round_double_1000_third])

/-- The threshold test compares `gdouble` results: with the scale `200.0/600`
and a bounding height of 1000 in a view 1000 high, the exact product is below
the exact third of the view height, but both round to the same `gdouble`, the
test `<` fails and the candidates stay as they are. -/
theorem merge_threshold_tie :
    ((1000 : Int) : ℚ) * tiedHeight.scale < tiedHeight.vadj.page_size / 3 ∧
    round_double (((1000 : Int) : ℚ) * tiedHeight.scale)
      = round_double (tiedHeight.vadj.page_size / 3) ∧
    synctex_merge_nodes tiedHeight = tiedHeight := by
  have hp : round_double ((1000 : ℚ) * (6004799503160661 / 18014398509481984))
      = 5864062014805333 / 17592186044416 := by
    rw [round_double_eval _ 8 5864062014805333 (by norm_num [abs_of_pos])
      (by norm_num [abs_of_pos]) (by norm_num) (by norm_num)]
    norm_num
  norm_num at hp
  refine ⟨?_, ?_, ?_⟩
  · simp only [tiedHeight]
    norm_num
  · simp only [tiedHeight]
    norm_num [hp, round_double_1000_third]
  · simp only [synctex_merge_nodes, tiedHeight, merge_scan, INT_MAX]
    norm_num [hp, round_double_1000_third]

/-! ## C5 and C6: the scroll target -/

/-- What GTK stores when it is handed `CLAMP (x, 0, high)`: `x` limited to
`high` from above and then to 0 from below. -/
theorem stored_clamp (x high : ℚ) :
    max (min (CLAMP x 0 high) high) 0 = max (min x high) 0 := by
  unfold CLAMP
  split_ifs with h1 h2
  · rw [min_self, min_eq_right (le_of_lt h1)]
  · rw [min_eq_left (not_lt.1 h1)]
    rcases le_total 0 high with hh | hh
    · rw [min_eq_left hh, max_self, max_eq_right (le_of_lt h2)]
    · rw [min_eq_right hh, max_eq_right hh, max_eq_right (le_of_lt h2)]
  · rw [min_eq_left (not_lt.1 h1)]

theorem goto_xy_offsets (pc : GuPreviewGui) (x y : ℚ) :
    (previewgui_goto_xy pc (some x) (some y)).hadj.value
        = max (min x (pc.hadj.upper - pc.hadj.page_size)) 0 ∧
    (previewgui_goto_xy pc (some x) (some y)).vadj.value
        = max (min y (pc.vadj.upper - pc.vadj.page_size)) 0 ∧
    (previewgui_goto_xy pc (some x) (some y)).hadj.upper = pc.hadj.upper ∧
    (previewgui_goto_xy pc (some x) (some y)).hadj.page_size = pc.hadj.page_size ∧
    (previewgui_goto_xy pc (some x) (some y)).vadj.upper = pc.vadj.upper ∧
    (previewgui_goto_xy pc (some x) (some y)).vadj.page_size = pc.vadj.page_size := by
  rw [← stored_clamp x, ← stored_clamp y]
  simp only [previewgui_goto_xy, gtk_adjustment_set_value, previewgui_save_position,
      block_handlers_current_page,
    unblock_handlers_current_page, gtk_adjustment_set_value]
  cases pc.active_tab <;> cases pc.errormode <;> simp

/-- When the content is at least as large as the view on both axes,
`previewgui_goto_xy` leaves both offsets within `[0, upper - page_size]`. -/
theorem goto_xy_clamped_of_content_ge_view (pc : GuPreviewGui) (x y : ℚ)
    (hh : pc.hadj.page_size ≤ pc.hadj.upper) (hv : pc.vadj.page_size ≤ pc.vadj.upper) :
    (0 ≤ (previewgui_goto_xy pc (some x) (some y)).hadj.value ∧
      (previewgui_goto_xy pc (some x) (some y)).hadj.value
        ≤ pc.hadj.upper - pc.hadj.page_size) ∧
    (0 ≤ (previewgui_goto_xy pc (some x) (some y)).vadj.value ∧
      (previewgui_goto_xy pc (some x) (some y)).vadj.value
        ≤ pc.vadj.upper - pc.vadj.page_size) := by
  obtain ⟨h1, h2, _⟩ := goto_xy_offsets pc x y
  rw [h1, h2]
  refine ⟨⟨le_max_right _ _, max_le (min_le_right _ _) (by linarith)⟩,
    ⟨le_max_right _ _, max_le (min_le_right _ _) (by linarith)⟩⟩

/-- The saved position after `previewgui_goto_xy` with two numbers, when there is
a tab and the pane is not in error mode: the offsets just stored. -/
theorem goto_xy_saved (pc : GuPreviewGui) (tab : ActiveTab) (x y : ℚ)
    (htab : pc.active_tab = some tab) (herr : pc.errormode = false) :
    (previewgui_goto_xy pc (some x) (some y)).active_tab
      = some { tab with
          scroll_x := (previewgui_goto_xy pc (some x) (some y)).hadj.value
          scroll_y := (previewgui_goto_xy pc (some x) (some y)).vadj.value } := by
  simp [previewgui_goto_xy, gtk_adjustment_set_value, previewgui_save_position,
      block_handlers_current_page,
    unblock_handlers_current_page, gtk_adjustment_set_value, htab, herr]

/-- C7 (viewport clamp): after `previewgui_goto_xy (x, y)` with two numbers, in
every state and for every `x` and `y`, each offset is the argument limited to
`upper - page_size` from above and then to 0 from below, so it lies between 0
and `upper - page_size` limited to 0 from below, also when the content is
smaller than the view; `upper` and `page_size` are unchanged. -/
theorem goto_xy_within_range (pc : GuPreviewGui) (x y : ℚ) :
    (previewgui_goto_xy pc (some x) (some y)).hadj.value
        = max (min x (pc.hadj.upper - pc.hadj.page_size)) 0 ∧
    (previewgui_goto_xy pc (some x) (some y)).vadj.value
        = max (min y (pc.vadj.upper - pc.vadj.page_size)) 0 ∧
    (0 ≤ (previewgui_goto_xy pc (some x) (some y)).hadj.value ∧
      (previewgui_goto_xy pc (some x) (some y)).hadj.value
        ≤ max (pc.hadj.upper - pc.hadj.page_size) 0) ∧
    (0 ≤ (previewgui_goto_xy pc (some x) (some y)).vadj.value ∧
      (previewgui_goto_xy pc (some x) (some y)).vadj.value
        ≤ max (pc.vadj.upper - pc.vadj.page_size) 0) ∧
    (previewgui_goto_xy pc (some x) (some y)).hadj.upper = pc.hadj.upper ∧
    (previewgui_goto_xy pc (some x) (some y)).hadj.page_size = pc.hadj.page_size ∧
    (previewgui_goto_xy pc (some x) (some y)).vadj.upper = pc.vadj.upper ∧
    (previewgui_goto_xy pc (some x) (some y)).vadj.page_size = pc.vadj.page_size := by
  obtain ⟨h1, h2, h3, h4, h5, h6⟩ := goto_xy_offsets pc x y
  rw [h1, h2]
  exact ⟨rfl, rfl, ⟨le_max_right _ _, max_le_max (min_le_right _ _) (le_refl _)⟩,
    ⟨le_max_right _ _, max_le_max (min_le_right _ _) (le_refl _)⟩, h3, h4, h5, h6⟩

/-- With content smaller than the view (`upper = 300 < page_size = 600`, and
`400 < 500` vertically) `previewgui_goto_xy (-20, 700)` leaves both offsets at 0,
and (0, 0) is what is saved as the scroll position. -/
theorem goto_xy_small_content :
    (previewgui_goto_xy smallContent (some (-20)) (some 700)).hadj.value = 0 ∧
    (previewgui_goto_xy smallContent (some (-20)) (some 700)).vadj.value = 0 ∧
    (previewgui_goto_xy smallContent (some (-20)) (some 700)).active_tab
      = some { scroll_x := 0, scroll_y := 0 } := by
  obtain ⟨h1, h2, _⟩ := goto_xy_offsets smallContent (-20) 700
  have e1 : (previewgui_goto_xy smallContent (some (-20)) (some 700)).hadj.value = 0 := by
    rw [h1]; norm_num [smallContent]
  have e2 : (previewgui_goto_xy smallContent (some (-20)) (some 700)).vadj.value = 0 := by
    rw [h2]; norm_num [smallContent]
  refine ⟨e1, e2, ?_⟩
  rw [goto_xy_saved smallContent {} (-20) 700 rfl rfl, e1, e2]

/-! ## C11: the collector below budget -/

/-- The budget in `gint`: a configured size of 2048 MB gives
`max_cache_size = -2^31`, so the ten-page cache of 10 MiB, far below 2048 MiB,
is not under the budget the function computes, and the collector removes the
nine bitmaps outside the view. -/
theorem gc_budget_wraps :
    gc_max_cache_size 2048 = -2147483648 ∧
    tenPages.cache_size = 10485760 ∧
    (run_garbage_collector kExample 2048 tenPages).2.length = 9 ∧
    (run_garbage_collector kExample 2048 tenPages).1.cache_size = 1048576 := by
  refine ⟨by decide, by decide, by decide, by decide⟩

/-! ## C13: invalidating all renderings -/

theorem sum_map_set (f : GuPreviewPage → Int) (l : List GuPreviewPage) (n : Nat)
    (a b : GuPreviewPage) (h : l[n]? = some b) :
    ((l.set n a).map f).sum = (l.map f).sum - f b + f a := by
  induction l generalizing n with
  | nil => simp at h
  | cons x t ih =>
    cases n with
    | zero =>
      simp only [List.getElem?_cons_zero, Option.some.injEq] at h
      subst h
      simp only [List.set_cons_zero, List.map_cons, List.sum_cons]
      ring
    | succ m =>
      simp only [List.getElem?_cons_succ] at h
      simp only [List.set_cons_succ, List.map_cons, List.sum_cons, ih m h]
      ring

/-- The difference between the counter and the footprints of the cached pages
is not changed by `remove_page_rendering`. -/
theorem remove_accounting (k : Constants) (pc : GuPreviewGui) (p : Int) :
    (remove_page_rendering k pc p).1.cache_size
        - cache_footprint_sum k (remove_page_rendering k pc p).1
      = pc.cache_size - cache_footprint_sum k pc := by
  cases hp : page_at pc p with
  | none => simp [remove_page_rendering, hp]
  | some q =>
    cases hr : q.rendering with
    | none => simp [remove_page_rendering, hp, hr]
    | some sf =>
      have hp0 : ¬ p < 0 := by
        intro hneg; simp [page_at, hneg] at hp
      simp only [page_at, hp0, if_false] at hp
      simp only [remove_page_rendering, page_at, hp0, if_false, hp, hr, cache_footprint_sum]
      rw [sum_map_set _ _ _ _ _ hp]
      simp [hr]

theorem invalidate_loop_accounting (k : Constants) (fuel : Nat) (i : Int)
    (pc : GuPreviewGui) :
    (invalidate_loop k fuel i pc).cache_size
        - cache_footprint_sum k (invalidate_loop k fuel i pc)
      = pc.cache_size - cache_footprint_sum k pc := by
  induction fuel generalizing i pc with
  | zero => rfl
  | succ f ih =>
    simp only [invalidate_loop]
    rw [ih, remove_accounting]

theorem cache_footprint_sum_eq_zero (k : Constants) (pc : GuPreviewGui)
    (h : ∀ i : Int, has_rendering pc i = false) : cache_footprint_sum k pc = 0 := by
  have hall : ∀ p ∈ pc.pages, p.rendering.isSome = false := by
    intro p hp
    obtain ⟨n, hn, hget⟩ := List.getElem_of_mem hp
    have := h (n : Int)
    have h0 : ¬ ((n : Int) < 0) := by omega
    simp only [has_rendering, page_at, h0, if_false, Int.toNat_ofNat,
      List.getElem?_eq_getElem hn, hget] at this
    exact this
  unfold cache_footprint_sum
  apply List.sum_eq_zero
  intro x hx
  obtain ⟨p, hp, rfl⟩ := List.mem_map.1 hx
  simp [hall p hp]

/-- What `previewgui_invalidate_renderings` does to the cache, for every prior
state. -/
theorem invalidate_renderings_effect (k : Constants) (pc : GuPreviewGui) :
    (∀ i : Int, has_rendering (previewgui_invalidate_renderings k pc).1 i = false) ∧
    (previewgui_invalidate_renderings k pc).1.cache_size
      = pc.cache_size - cache_footprint_sum k pc := by
  have h1 := invalidate_all_cleared k pc
  refine ⟨h1, ?_⟩
  have h2 := invalidate_loop_accounting k pc.pages.length 0 pc
  have h3 := cache_footprint_sum_eq_zero k _ h1
  simp only [previewgui_invalidate_renderings] at h3 ⊢
  omega

/-- C13 as stated fails: after one failed render the counter of `staleCounter`
holds 400 bytes although no page holds a bitmap;
`previewgui_invalidate_renderings` reports the mismatch but leaves the counter
at 400, not 0. -/
theorem invalidate_keeps_stale_counter :
    (∀ i : Int, has_rendering staleCounter i = false) ∧
    staleCounter.cache_size = 400 ∧
    (previewgui_invalidate_renderings kExample staleCounter).2 = true ∧
    (previewgui_invalidate_renderings kExample staleCounter).1.cache_size = 400 ∧
    (previewgui_invalidate_renderings kExample staleCounter).1.cache_size ≠ 0 := by
  have hs : staleCounter =
      { retinaPage with cache_size := 400, render_log := [0], gc_idle_sources := 1 } := by
    simp [staleCounter, get_page_rendering, retinaPage, page_at, do_render, kExample]
  have hnone : ∀ i : Int, has_rendering staleCounter i = false := by
    intro i
    rw [hs]
    by_cases h0 : i < 0
    · simp [has_rendering, page_at, h0]
    · simp only [has_rendering, page_at, h0, if_false, retinaPage]
      rcases Nat.eq_zero_or_pos i.toNat with hz | hz
      · simp [hz]
      · rw [List.getElem?_eq_none (by simp; omega)]
  have hsum := cache_footprint_sum_eq_zero kExample staleCounter hnone
  have hsize : staleCounter.cache_size = 400 := by rw [hs]
  obtain ⟨_, h2⟩ := invalidate_renderings_effect kExample staleCounter
  rw [hsum, hsize] at h2
  refine ⟨hnone, hsize, ?_, h2, by rw [h2]; decide⟩
  have : (previewgui_invalidate_renderings kExample staleCounter).2
      = decide ((previewgui_invalidate_renderings kExample staleCounter).1.cache_size ≠ 0) := rfl
  rw [this, h2]
  decide

/-- C13, amended. After `previewgui_invalidate_renderings`, for every prior state, no
page holds a cached bitmap and `cache_size` is the prior `cache_size` minus the
footprints of the pages that held a bitmap: it is 0 whenever the counter agreed
with the bitmaps present; a mismatch is reported (the error is logged exactly
when the result is not 0) but the counter is not reset. -/
theorem invalidate_renderings_spec (k : Constants) (pc : GuPreviewGui) :
    (∀ i : Int, has_rendering (previewgui_invalidate_renderings k pc).1 i = false) ∧
    (previewgui_invalidate_renderings k pc).1.cache_size
      = pc.cache_size - cache_footprint_sum k pc ∧
    ((previewgui_invalidate_renderings k pc).2 = true ↔
      pc.cache_size ≠ cache_footprint_sum k pc) ∧
    (pc.cache_size = cache_footprint_sum k pc →
      (previewgui_invalidate_renderings k pc).1.cache_size = 0 ∧
      (previewgui_invalidate_renderings k pc).2 = false) := by
  obtain ⟨h1, h2⟩ := invalidate_renderings_effect k pc
  have hflag : (previewgui_invalidate_renderings k pc).2
      = decide ((previewgui_invalidate_renderings k pc).1.cache_size ≠ 0) := rfl
  refine ⟨h1, h2, ?_, ?_⟩
  · rw [hflag, h2]
    simp only [decide_eq_true_eq]
    constructor <;> intro h <;> omega
  · intro hc
    rw [hflag, h2]
    refine ⟨by omega, ?_⟩
    simp only [decide_eq_false_iff_not, not_not]
    omega

/-- Witness for the amended C13: the ten-page cache counts exactly the footprints
of its ten bitmaps, and invalidating it leaves no bitmap and a counter of 0. -/
theorem invalidate_renderings_spec_witness :
    tenPages.cache_size = cache_footprint_sum kExample tenPages ∧
    ((previewgui_invalidate_renderings kExample tenPages).1.cache_size = 0 ∧
      (previewgui_invalidate_renderings kExample tenPages).2 = false) :=
  ⟨by decide, (invalidate_renderings_spec kExample tenPages).2.2.2 (by decide)⟩

/-! ## C12: one render per page -/

theorem page_at_set_pages {pc pc1 : GuPreviewGui} {p : Int} {q q1 : GuPreviewPage}
    (hp : page_at pc p = some q) (h : pc1.pages = pc.pages.set p.toNat q1) (j : Int) :
    page_at pc1 j = if j = p then some q1 else page_at pc j := by
  have hp0 : ¬ p < 0 := by
    intro hneg; simp [page_at, hneg] at hp
  simp only [page_at, hp0, if_false] at hp
  have hlt : p.toNat < pc.pages.length := by
    by_contra hge
    rw [List.getElem?_eq_none (by omega)] at hp
    exact absurd hp (by simp)
  by_cases hj : j = p
  · subst hj
    simp only [page_at, hp0, if_false, if_true, h]
    rw [List.getElem?_set]
    simp [hlt]
  · simp only [hj, if_false]
    by_cases hj0 : j < 0
    · simp [page_at, hj0]
    · simp only [page_at, hj0, if_false, h]
      rw [List.getElem?_set]
      have : ¬ p.toNat = j.toNat := by omega
      simp [this]

/-- A `get_page_rendering` of a page that holds a bitmap renders nothing and
leaves the whole state, `cache_size` included, unchanged. -/
theorem get_page_rendering_cached (k : Constants) (ok : Bool) (pc : GuPreviewGui) (p : Int)
    (h : has_rendering pc p = true) : (get_page_rendering k ok pc p).1 = pc := by
  unfold has_rendering at h
  cases hp : page_at pc p with
  | none => simp [hp] at h
  | some q =>
    cases hr : q.rendering with
    | none => simp [hp, hr] at h
    | some sf => simp [get_page_rendering, hp, hr]

/-- A `get_page_rendering` of a valid page without bitmap, with a renderer that
succeeds: one render is requested, the page holds a bitmap afterwards, the
footprint of the page is added to `cache_size`, and no other page changes. -/
theorem get_page_rendering_miss (k : Constants) (pc : GuPreviewGui) (p : Int)
    (hv : 0 ≤ p ∧ p < pc.n_pages) (h : has_rendering pc p = false) :
    (get_page_rendering k true pc p).1.render_log = pc.render_log ++ [p] ∧
    (get_page_rendering k true pc p).1.cache_size
      = pc.cache_size + page_footprint k pc p ∧
    (∀ q : Int, has_rendering (get_page_rendering k true pc p).1 q
      = (has_rendering pc q || decide (q = p))) ∧
    (get_page_rendering k true pc p).1.pages.length = pc.pages.length ∧
    (∀ q : Int, page_footprint k (get_page_rendering k true pc p).1 q
      = page_footprint k pc q) := by
  have hlt : p.toNat < pc.pages.length := by
    simp only [GuPreviewGui.n_pages] at hv; omega
  have hp0 : ¬ p < 0 := by omega
  have hp : page_at pc p = some (pc.pages[p.toNat]) := by
    simp only [page_at, hp0, if_false]
    exact List.getElem?_eq_getElem hlt
  have hr : (pc.pages[p.toNat]).rendering = none := by
    simp only [has_rendering, hp] at h
    cases hh : (pc.pages[p.toNat]).rendering with
    | none => rfl
    | some sf => simp [hh] at h
  have hpages : (get_page_rendering k true pc p).1.pages
      = pc.pages.set p.toNat
          { pc.pages[p.toNat] with
            rendering := do_render true pc (gint_of_double (pc.pages[p.toNat]).width)
              (gint_of_double (pc.pages[p.toNat]).height) } := by
    simp [get_page_rendering, hp, hr]
  have hat := page_at_set_pages hp hpages
  refine ⟨by simp [get_page_rendering, hp, hr],
    by simp [get_page_rendering, hp, hr, page_footprint], ?_,
    by rw [hpages, List.length_set], ?_⟩
  · intro q
    simp only [has_rendering, hat q]
    by_cases hq : q = p
    · subst hq
      simp [do_render]
    · simp [hq]
  · intro q
    simp only [page_footprint, hat q]
    by_cases hq : q = p
    · subst hq
      simp [hp]
    · simp [hq]

theorem get_pages_rendering_log (k : Constants) (reqs : List Int) (pc : GuPreviewGui)
    (hvalid : ∀ p ∈ reqs, 0 ≤ p ∧ p < pc.n_pages) :
    ∃ new : List Int,
      (get_pages_rendering k true pc reqs).render_log = pc.render_log ++ new ∧
      new.Nodup ∧
      (∀ p : Int, p ∈ new ↔ (p ∈ reqs ∧ has_rendering pc p = false)) ∧
      (get_pages_rendering k true pc reqs).cache_size
        = pc.cache_size + (new.map (page_footprint k pc)).sum ∧
      (∀ q : Int, has_rendering (get_pages_rendering k true pc reqs) q
        = (has_rendering pc q || decide (q ∈ reqs))) := by
  induction reqs generalizing pc with
  | nil => exact ⟨[], by simp [get_pages_rendering]⟩
  | cons p rest ih =>
    have hv := hvalid p (List.mem_cons_self _ _)
    simp only [get_pages_rendering]
    by_cases hc : has_rendering pc p = true
    · rw [get_page_rendering_cached k true pc p hc]
      obtain ⟨new, h1, h2, h3, h4, h5⟩ :=
        ih pc (fun q hq => hvalid q (List.mem_cons_of_mem _ hq))
      refine ⟨new, h1, h2, ?_, h4, ?_⟩
      · intro q
        rw [h3 q, List.mem_cons]
        constructor
        · rintro ⟨ha, hb⟩; exact ⟨Or.inr ha, hb⟩
        · rintro ⟨ha | ha, hb⟩
          · rw [ha, hc] at hb; exact absurd hb (by simp)
          · exact ⟨ha, hb⟩
      · intro q
        rw [h5 q]
        by_cases hq : q = p
        · subst hq; simp [hc]
        · simp [hq]
    · have hc2 : has_rendering pc p = false := by simpa using hc
      obtain ⟨m1, m2, m3, m4, m5⟩ := get_page_rendering_miss k pc p hv hc2
      obtain ⟨new, h1, h2, h3, h4, h5⟩ :=
        ih (get_page_rendering k true pc p).1 (fun q hq => by
          have := hvalid q (List.mem_cons_of_mem _ hq)
          simp only [GuPreviewGui.n_pages, m4] at this ⊢
          exact this)
      have hpnew : p ∉ new := by
        intro hin
        have := ((h3 p).1 hin).2
        rw [m3 p] at this
        simp at this
      refine ⟨p :: new, ?_, List.nodup_cons.2 ⟨hpnew, h2⟩, ?_, ?_, ?_⟩
      · rw [h1, m1]; simp
      · intro q
        rw [List.mem_cons, h3 q, m3 q, List.mem_cons]
        by_cases hq : q = p
        · subst hq; simp [hc2]
        · simp [hq]
      · rw [h4, m2]
        have hfp : new.map (page_footprint k (get_page_rendering k true pc p).1)
            = new.map (page_footprint k pc) := by
          apply List.map_congr_left
          intro q _
          exact m5 q
        rw [hfp, List.map_cons, List.sum_cons]
        ring
      · intro q
        rw [h5 q, m3 q]
        by_cases hq : q = p
        · subst hq; simp
        · simp [hq]

/-- C12. Render once per page: starting from an empty cache (no page holds a bitmap,
`cache_size` 0), whatever the page positions, with a renderer that succeeds,
a sequence `reqs` of `get_page_rendering` calls for valid pages with nothing in
between invokes the renderer exactly once for each distinct page requested (the
render requests `new` have no duplicates and contain exactly the pages of
`reqs`), `cache_size` afterwards is the sum of the footprints added for those
pages, and a further get of any requested page renders nothing and leaves the
state, `cache_size` included, unchanged. -/
theorem get_pages_rendering_once (k : Constants) (pc : GuPreviewGui) (reqs : List Int)
    (hempty : ∀ i : Int, has_rendering pc i = false) (hzero : pc.cache_size = 0)
    (hvalid : ∀ p ∈ reqs, 0 ≤ p ∧ p < pc.n_pages) :
    ∃ new : List Int,
      (get_pages_rendering k true pc reqs).render_log = pc.render_log ++ new ∧
      new.Nodup ∧ (∀ p : Int, p ∈ new ↔ p ∈ reqs) ∧
      (∀ p ∈ reqs, new.count p = 1) ∧
      (get_pages_rendering k true pc reqs).cache_size
        = (new.map (page_footprint k pc)).sum ∧
      (∀ p ∈ reqs, ∀ ok : Bool,
        (get_page_rendering k ok (get_pages_rendering k true pc reqs) p).1
          = get_pages_rendering k true pc reqs) := by
  obtain ⟨new, h1, h2, h3, h4, h5⟩ := get_pages_rendering_log k reqs pc hvalid
  have hmem : ∀ p : Int, p ∈ new ↔ p ∈ reqs := by
    intro p
    rw [h3 p]
    simp [hempty p]
  refine ⟨new, h1, h2, hmem, ?_, by rw [h4, hzero, zero_add], ?_⟩
  · intro p hp
    exact List.count_eq_one_of_mem h2 ((hmem p).2 hp)
  · intro p hp ok
    apply get_page_rendering_cached
    rw [h5 p]
    simp [hp]

theorem has_rendering_false_of_all (pc : GuPreviewGui)
    (h : ∀ p ∈ pc.pages, p.rendering = none) (i : Int) : has_rendering pc i = false := by
  unfold has_rendering
  cases hp : page_at pc i with
  | none => rfl
  | some p =>
    have hmem : p ∈ pc.pages := by
      by_cases h0 : i < 0
      · simp [page_at, h0] at hp
      · simp only [page_at, h0, if_false] at hp
        exact List.getElem?_mem hp
    simp [h p hmem]

/-- Witness for C12: on the three laid-out pages (empty cache) the requests
0, 2, 0 render page 0 and page 2 once each and add their two footprints of
600 * 800 * 4 bytes. -/
theorem get_pages_rendering_once_witness :
    (get_pages_rendering kExample true threePagesLaid [0, 2, 0]).render_log = [0, 2] ∧
    (get_pages_rendering kExample true threePagesLaid [0, 2, 0]).cache_size
      = 1920000 + 1920000 ∧
    ∃ new : List Int,
      (get_pages_rendering kExample true threePagesLaid [0, 2, 0]).render_log
        = threePagesLaid.render_log ++ new ∧
      new.Nodup ∧ (∀ p : Int, p ∈ new ↔ p ∈ [(0 : Int), 2, 0]) ∧
      (∀ p ∈ [(0 : Int), 2, 0], new.count p = 1) ∧
      (get_pages_rendering kExample true threePagesLaid [0, 2, 0]).cache_size
        = (new.map (page_footprint kExample threePagesLaid)).sum ∧
      (∀ p ∈ [(0 : Int), 2, 0], ∀ ok : Bool,
        (get_page_rendering kExample ok
            (get_pages_rendering kExample true threePagesLaid [0, 2, 0]) p).1
          = get_pages_rendering kExample true threePagesLaid [0, 2, 0]) :=
  ⟨by decide, by decide,
   get_pages_rendering_once kExample threePagesLaid [0, 2, 0]
     (has_rendering_false_of_all threePagesLaid (by decide)) rfl (by decide)⟩

/-! ## C19 and C20: page positions -/

theorem gint_of_double_eq_floor (q : ℚ) (h0 : 0 ≤ q) : gint_of_double q = ⌊q⌋ := by
  unfold gint_of_double
  rw [Rat.floor_def, Int.tdiv_eq_ediv (Rat.num_nonneg.2 h0) (by positivity)]

theorem gint_of_double_eq (q : ℚ) (n : Int) (h0 : 0 ≤ q) (h1 : (n : ℚ) ≤ q)
    (h2 : q < (n : ℚ) + 1) : gint_of_double q = n := by
  rw [gint_of_double_eq_floor q h0, Int.floor_eq_iff]
  exact ⟨h1, h2⟩

theorem layout_continuous_end (k : Constants) (pc : GuPreviewGui) (fov : LayeredRectangle)
    (l : List GuPreviewPage) (y : Int) :
    (layout_continuous k pc fov l y).2
      = y + (l.map (fun p => gint_of_double (round_double (p.height * pc.scale)))).sum
          + l.length * get_page_margin k pc := by
  induction l generalizing y with
  | nil => simp [layout_continuous]
  | cons p ps ih =>
    simp only [layout_continuous, ih, List.map_cons, List.sum_cons, List.length_cons]
    push_cast
    ring

theorem layout_continuous_get (k : Constants) (pc : GuPreviewGui) (fov : LayeredRectangle)
    (l : List GuPreviewPage) (y : Int) (j : Nat) (p : GuPreviewPage)
    (h : (layout_continuous k pc fov l y).1[j]? = some p) :
    ∃ p0, l[j]? = some p0 ∧ p.height = p0.height ∧ p.width = p0.width ∧
      p.rendering = p0.rendering ∧
      p.inner.height = gint_of_double (round_double (p0.height * pc.scale)) ∧
      p.inner.width = gint_of_double (round_double (p0.width * pc.scale)) ∧
      p.inner.layer = 0 ∧ (j = 0 → p.inner.y = y) := by
  induction l generalizing y j with
  | nil => simp [layout_continuous] at h
  | cons q qs ih =>
    cases j with
    | zero =>
      simp only [layout_continuous, List.getElem?_cons_zero, Option.some.injEq] at h
      subst h
      exact ⟨q, by simp⟩
    | succ m =>
      simp only [layout_continuous, List.getElem?_cons_succ] at h
      obtain ⟨p0, h1, h2, h3, h4, h5, h6, h7, _⟩ := ih _ m h
      exact ⟨p0, by simpa using h1, h2, h3, h4, h5, h6, h7, by omega⟩

theorem layout_continuous_step (k : Constants) (pc : GuPreviewGui) (fov : LayeredRectangle)
    (l : List GuPreviewPage) (y : Int) (j : Nat) (p q : GuPreviewPage)
    (hp : (layout_continuous k pc fov l y).1[j]? = some p)
    (hq : (layout_continuous k pc fov l y).1[j + 1]? = some q) :
    q.inner.y = p.inner.y + p.inner.height + get_page_margin k pc := by
  induction l generalizing y j with
  | nil => simp [layout_continuous] at hp
  | cons a as ih =>
    cases j with
    | zero =>
      simp only [layout_continuous, List.getElem?_cons_zero, Option.some.injEq] at hp
      simp only [layout_continuous, zero_add, List.getElem?_cons_succ] at hq
      obtain ⟨_, _, _, _, _, _, _, _, h8⟩ := layout_continuous_get k pc fov as _ 0 q hq
      rw [h8 rfl, ← hp]
    | succ m =>
      simp only [layout_continuous, List.getElem?_cons_succ] at hp hq
      exact ih _ m hp hq

theorem layout_single_get (k : Constants) (pc : GuPreviewGui) (fov : LayeredRectangle)
    (l : List GuPreviewPage) (i : Int) (j : Nat) (p : GuPreviewPage)
    (h : (layout_single k pc fov l i)[j]? = some p) : p.inner.layer = i + j := by
  induction l generalizing i j with
  | nil => simp [layout_single] at h
  | cons q qs ih =>
    cases j with
    | zero =>
      simp only [layout_single, List.getElem?_cons_zero, Option.some.injEq] at h
      subst h
      simp
    | succ m =>
      simp only [layout_single, List.getElem?_cons_succ] at h
      rw [ih _ m h]
      push_cast
      ring

theorem update_page_positions_frame (k : Constants) (pc : GuPreviewGui) :
    get_fov (update_page_positions k pc) = get_fov pc ∧
    (update_page_positions k pc).current_page = pc.current_page ∧
    (update_page_positions k pc).pageLayout = pc.pageLayout ∧
    (update_page_positions k pc).scale = pc.scale := by
  simp [update_page_positions, get_fov, is_continuous]

/-- C20. SinglePage layering: after `update_page_positions` in SinglePage mode every
page's inner and outer rectangle carries layer = its own index, the field of
view returned by `get_fov` carries layer = `current_page`, and therefore
`layered_rectangle_intersect(fov, inner(i))` is true only if `i = current_page`. -/
theorem single_page_layers (k : Constants) (pc : GuPreviewGui)
    (hs : pc.pageLayout = .SINGLE_PAGE) :
    (∀ (i : Int) (p : GuPreviewPage), page_at (update_page_positions k pc) i = some p →
        p.inner.layer = i ∧ p.outer.layer = i) ∧
    (get_fov (update_page_positions k pc)).layer = (update_page_positions k pc).current_page ∧
    (∀ (i : Int) (r : LayeredRectangle),
        page_inner (update_page_positions k pc) i = some r →
        (layered_rectangle_intersect (some (get_fov (update_page_positions k pc)))
            (some r) none).1 = true →
        i = (update_page_positions k pc).current_page) := by
  obtain ⟨hfov, hcur, hlay, _⟩ := update_page_positions_frame k pc
  have hnc : is_continuous pc = false := by simp [is_continuous, hs]
  have hlayers : ∀ (i : Int) (p : GuPreviewPage),
      page_at (update_page_positions k pc) i = some p →
      p.inner.layer = i ∧ p.outer.layer = i := by
    intro i p hp
    by_cases h0 : i < 0
    · simp [page_at, h0] at hp
    · simp only [page_at, h0, if_false, update_page_positions, hnc, Bool.false_eq_true,
        if_false, List.getElem?_map] at hp
      cases hq : (layout_single k pc (get_fov pc) pc.pages 0)[i.toNat]? with
      | none => simp [hq] at hp
      | some q =>
        simp only [hq, Option.map_some', Option.some.injEq] at hp
        have hl := layout_single_get k pc (get_fov pc) pc.pages 0 i.toNat q hq
        subst hp
        simp only [set_outer, hl]
        omega
  have hfl : (get_fov (update_page_positions k pc)).layer
      = (update_page_positions k pc).current_page := by
    rw [hfov, hcur]
    simp [get_fov, hnc]
  refine ⟨hlayers, hfl, ?_⟩
  intro i r hr hint
  simp only [page_inner] at hr
  cases hp : page_at (update_page_positions k pc) i with
  | none => simp [hp] at hr
  | some p =>
    simp only [hp, Option.map_some', Option.some.injEq] at hr
    have hl := (hlayers i p hp).1
    rw [hr] at hl
    simp only [layered_rectangle_intersect] at hint
    by_cases heq : (get_fov (update_page_positions k pc)).layer = r.layer
    · rw [← hfl, heq, hl]
    · simp [heq] at hint

theorem shift_inner_zero (p : GuPreviewPage) : shift_inner 0 p = p := by
  cases p
  simp [shift_inner]

/-- In continuous layout the pages computed by `update_page_positions` are those of
the stacking loop, shifted down by a common `d` (which is 0 when the stacked
height is at least the height of the field of view), with the outer rectangles
set. -/
theorem update_page_positions_continuous (k : Constants) (pc : GuPreviewGui)
    (hc : pc.pageLayout = .ONE_COLUMN) :
    ∃ d : Int, ((get_fov pc).height ≤ stacked_height k pc → d = 0) ∧
      ∀ j : Nat, (update_page_positions k pc).pages[j]? =
        ((layout_continuous k pc (get_fov pc) pc.pages (get_document_margin k pc)).1[j]?).map
          (fun p => set_outer k (shift_inner d p)) := by
  have hcont : is_continuous pc = true := by simp [is_continuous, hc]
  have hy : (layout_continuous k pc (get_fov pc) pc.pages (get_document_margin k pc)).2
      - get_page_margin k pc + get_document_margin k pc = stacked_height k pc := by
    rw [layout_continuous_end]
    simp only [stacked_height, GuPreviewGui.n_pages]
    ring
  by_cases hlt : stacked_height k pc < (get_fov pc).height
  · refine ⟨Int.tdiv ((get_fov pc).height - stacked_height k pc) 2, fun h => by omega, ?_⟩
    intro j
    simp only [update_page_positions, hcont, if_true, hy, hlt, List.getElem?_map,
      Option.map_map]
    rfl
  · refine ⟨0, fun _ => rfl, ?_⟩
    intro j
    simp only [update_page_positions, hcont, if_true, hy, hlt, if_false, List.getElem?_map]
    congr 1
    funext p
    rw [shift_inner_zero]

/-- The facts about the continuous layout: each inner height is the scaled page
height truncated to an integer, consecutive pages are stacked with the page
margin in between, and without centring shift page 0 starts at the document
margin. -/
theorem update_page_positions_stack (k : Constants) (pc : GuPreviewGui)
    (hc : pc.pageLayout = .ONE_COLUMN) :
    (∀ (i : Int) (p : GuPreviewPage), page_at (update_page_positions k pc) i = some p →
        p.inner.height = gint_of_double (round_double (get_page_height pc i * pc.scale))) ∧
    (∀ (i : Int) (p q : GuPreviewPage), page_at (update_page_positions k pc) i = some p →
        page_at (update_page_positions k pc) (i + 1) = some q →
        q.inner.y = p.inner.y + p.inner.height + get_page_margin k pc) ∧
    ((get_fov pc).height ≤ stacked_height k pc →
      ∀ p : GuPreviewPage, page_at (update_page_positions k pc) 0 = some p →
        p.inner.y = get_document_margin k pc) := by
  obtain ⟨d, hd, hget⟩ := update_page_positions_continuous k pc hc
  have key : ∀ (i : Int) (p : GuPreviewPage),
      page_at (update_page_positions k pc) i = some p →
      0 ≤ i ∧ ∃ q, (layout_continuous k pc (get_fov pc) pc.pages
          (get_document_margin k pc)).1[i.toNat]? = some q ∧
        p = set_outer k (shift_inner d q) := by
    intro i p hp
    by_cases h0 : i < 0
    · simp [page_at, h0] at hp
    · simp only [page_at, h0, if_false, hget] at hp
      cases hq : (layout_continuous k pc (get_fov pc) pc.pages
          (get_document_margin k pc)).1[i.toNat]? with
      | none => simp [hq] at hp
      | some q =>
        simp only [hq, Option.map_some', Option.some.injEq] at hp
        exact ⟨by omega, q, rfl, hp.symm⟩
  refine ⟨?_, ?_, ?_⟩
  · intro i p hp
    obtain ⟨hi, q, hq, rfl⟩ := key i p hp
    obtain ⟨p0, h1, _, _, _, h5, _⟩ := layout_continuous_get k pc _ _ _ _ q hq
    have hlt : i.toNat < pc.pages.length := by
      by_contra hge
      rw [List.getElem?_eq_none (by omega)] at h1
      exact absurd h1 (by simp)
    have hgh : get_page_height pc i = p0.height := by
      have hr : ¬ (i < 0 ∨ i ≥ pc.n_pages) := by
        simp only [GuPreviewGui.n_pages]; omega
      have h0 : ¬ i < 0 := by omega
      unfold get_page_height
      rw [if_neg hr]
      simp [page_at, h0, h1]
    rw [hgh, ← h5]
    simp [set_outer, shift_inner]
  · intro i p q hp hq
    obtain ⟨hi, a, ha, rfl⟩ := key i p hp
    obtain ⟨_, b, hb, rfl⟩ := key (i + 1) q hq
    have hidx : (i + 1).toNat = i.toNat + 1 := by omega
    rw [hidx] at hb
    have := layout_continuous_step k pc _ _ _ _ a b ha hb
    simp only [set_outer, shift_inner, this]
    ring
  · intro hfit p hp
    obtain ⟨_, q, hq, rfl⟩ := key 0 p hp
    obtain ⟨_, _, _, _, _, _, _, _, h8⟩ := layout_continuous_get k pc _ _ _ _ q hq
    simp [set_outer, shift_inner, hd hfit, h8]

/-- C19, amended. Continuous stacking: in continuous mode, when the total stacked
height (the stored page heights, the page margins between pages, the document
margin at top and bottom) is at least the height of the field of view,
`update_page_positions` gives page 0 an inner rectangle at y = document margin,
gives every page the inner height page height * scale, the product as the
`gdouble` multiplication delivers it, truncated to an integer (so exactly page
height * scale when that product is an integer below 2^53), and gives every
page i+1 the y of page i plus page i's inner height plus the page margin. -/
theorem continuous_stacking (k : Constants) (pc : GuPreviewGui)
    (hc : pc.pageLayout = .ONE_COLUMN)
    (hfit : (get_fov pc).height ≤ stacked_height k pc) :
    (∀ p : GuPreviewPage, page_at (update_page_positions k pc) 0 = some p →
        p.inner.y = get_document_margin k pc ∧
        p.inner.height = gint_of_double (round_double (get_page_height pc 0 * pc.scale))) ∧
    (∀ (i : Int) (p : GuPreviewPage), page_at (update_page_positions k pc) i = some p →
        p.inner.height = gint_of_double (round_double (get_page_height pc i * pc.scale)) ∧
        ∀ n : Int, |n| < 2 ^ 53 → get_page_height pc i * pc.scale = (n : ℚ) →
          (p.inner.height : ℚ) = get_page_height pc i * pc.scale) ∧
    (∀ (i : Int) (p q : GuPreviewPage), page_at (update_page_positions k pc) i = some p →
        page_at (update_page_positions k pc) (i + 1) = some q →
        q.inner.y = p.inner.y + p.inner.height + get_page_margin k pc) := by
  obtain ⟨h1, h2, h3⟩ := update_page_positions_stack k pc hc
  refine ⟨fun p hp => ⟨h3 hfit p hp, h1 0 p hp⟩, ?_, h2⟩
  intro i p hp
  refine ⟨h1 i p hp, ?_⟩
  intro n hb hn
  rw [h1 i p hp, hn, round_double_intCast n hb, gint_of_double_intCast]

theorem layout_continuous_length (k : Constants) (pc : GuPreviewGui)
    (fov : LayeredRectangle) (l : List GuPreviewPage) (y : Int) :
    (layout_continuous k pc fov l y).1.length = l.length := by
  induction l generalizing y with
  | nil => simp [layout_continuous]
  | cons p ps ih => simp [layout_continuous, ih]

theorem layout_single_length (k : Constants) (pc : GuPreviewGui)
    (fov : LayeredRectangle) (l : List GuPreviewPage) (i : Int) :
    (layout_single k pc fov l i).length = l.length := by
  induction l generalizing i with
  | nil => simp [layout_single]
  | cons p ps ih => simp [layout_single, ih]

theorem update_page_positions_length (k : Constants) (pc : GuPreviewGui) :
    (update_page_positions k pc).pages.length = pc.pages.length := by
  simp only [update_page_positions]
  split
  · split <;> simp [layout_continuous_length]
  · simp [layout_single_length]

theorem page_at_isSome_of_lt {pc : GuPreviewGui} {i : Int} (h0 : 0 ≤ i)
    (h1 : i < pc.n_pages) : ∃ p, page_at pc i = some p := by
  have hlt : i.toNat < pc.pages.length := by
    simp only [GuPreviewGui.n_pages] at h1; omega
  exact ⟨pc.pages[i.toNat], by
    simp only [page_at, not_lt.2 h0, if_false]
    exact List.getElem?_eq_getElem hlt⟩

/-- C19 as stated fails when page height * scale is not an integer: for three
pages of 841.5 points at scale 1 in a view 900 high (stacked height over 900)
page 0 is placed at y = 10, but its inner height is 841, not 841.5. -/
theorem stacking_height_counterexample :
    threeHalfPointPages.pageLayout = .ONE_COLUMN ∧
    (get_fov threeHalfPointPages).height = 900 ∧
    stacked_height kExample threeHalfPointPages = 2559 ∧
    get_page_height threeHalfPointPages 0 * threeHalfPointPages.scale = 1683 / 2 ∧
    ∃ p : GuPreviewPage,
      page_at (update_page_positions kExample threeHalfPointPages) 0 = some p ∧
      p.inner.y = 10 ∧ p.inner.height = 841 ∧
      (p.inner.height : ℚ)
        ≠ get_page_height threeHalfPointPages 0 * threeHalfPointPages.scale := by
  have hfov : (get_fov threeHalfPointPages).height = 900 := by decide
  have hr : round_double ((1683 : ℚ) / 2) = 1683 / 2 := by
    have := round_double_dyadic 1683 1 (by norm_num)
    simpa using this
  have ht : gint_of_double (round_double ((1683 : ℚ) / 2)) = 841 := by
    rw [hr]
    exact gint_of_double_eq _ 841 (by norm_num) (by norm_num) (by norm_num)
  have hst : stacked_height kExample threeHalfPointPages = 2559 := by
    have hm : get_document_margin kExample threeHalfPointPages = 10 := by decide
    have hpm : get_page_margin kExample threeHalfPointPages = 8 := by decide
    simp only [stacked_height, hm, hpm, GuPreviewGui.n_pages]
    simp [threeHalfPointPages, threePages, ht]
  have hh : get_page_height threeHalfPointPages 0 * threeHalfPointPages.scale
      = 1683 / 2 := by
    simp [get_page_height, page_at, GuPreviewGui.n_pages, threeHalfPointPages, threePages]
  obtain ⟨h1, _, h3⟩ := update_page_positions_stack kExample threeHalfPointPages rfl
  obtain ⟨p, hp⟩ : ∃ p, page_at (update_page_positions kExample threeHalfPointPages) 0
      = some p := by
    apply page_at_isSome_of_lt (le_refl _)
    simp only [GuPreviewGui.n_pages, update_page_positions_length]
    decide
  have hy := h3 (by rw [hfov, hst]; decide) p hp
  have hht := h1 0 p hp
  rw [hh, ht] at hht
  refine ⟨rfl, hfov, hst, hh, p, hp, ?_, hht, ?_⟩
  · rw [hy]; decide
  · rw [hht, hh]; norm_num

/-- The scaled page height of `threePagesZoomed` as the `gdouble` multiplication
delivers it: the exact product lies just below 560 and rounds to 560. -/
theorem round_double_zoomed_height :
    (800 : ℚ) * (3152519739159347 / 4503599627370496) < 560 ∧
    round_double ((800 : ℚ) * (3152519739159347 / 4503599627370496)) = 560 := by
  constructor
  · norm_num
  · rw [round_double_eval _ 9 4925812092436480 (by norm_num [abs_of_pos])
      (by norm_num [abs_of_pos]) (by norm_num) (by norm_num)]
    norm_num

/-- Witness for the amended C19: 3 pages of 600x800 at scale 0.7 (the nearest
`gdouble`), viewport 620x900, document margin 10, page margin 8: page 0 is at
y = 10 with height 560, page 1 at y = 10 + 560 + 8 = 578 and page 2 at
y = 578 + 560 + 8 = 1146. -/
theorem continuous_stacking_witness :
    ∃ p q r : GuPreviewPage,
      page_at (update_page_positions kExample threePagesZoomed) 0 = some p ∧
      page_at (update_page_positions kExample threePagesZoomed) 1 = some q ∧
      page_at (update_page_positions kExample threePagesZoomed) 2 = some r ∧
      p.inner.y = 10 ∧ p.inner.height = 560 ∧ q.inner.y = 578 ∧ q.inner.height = 560 ∧
      r.inner.y = 1146 := by
  have h560 : gint_of_double (560 : ℚ) = 560 := by decide
  have hfov : (get_fov threePagesZoomed).height = 900 := by decide
  have hm : get_document_margin kExample threePagesZoomed = 10 := by decide
  have hpm : get_page_margin kExample threePagesZoomed = 8 := by decide
  have hst : stacked_height kExample threePagesZoomed = 1716 := by
    simp only [stacked_height, hm, hpm, GuPreviewGui.n_pages]
    simp only [threePagesZoomed, threePages, List.map_cons, List.map_nil,
      round_double_zoomed_height.2, h560]
    decide
  have hh : ∀ i : Int, 0 ≤ i → i < 3 →
      get_page_height threePagesZoomed i * threePagesZoomed.scale
        = 800 * (3152519739159347 / 4503599627370496) := by
    intro i h0 h3
    have hi : i = 0 ∨ i = 1 ∨ i = 2 := by omega
    rcases hi with rfl | rfl | rfl <;>
      simp [get_page_height, page_at, GuPreviewGui.n_pages, threePagesZoomed, threePages]
  obtain ⟨c1, c2, c3⟩ := continuous_stacking kExample threePagesZoomed rfl
    (by rw [hfov, hst]; decide)
  obtain ⟨p, hp⟩ : ∃ p, page_at (update_page_positions kExample threePagesZoomed) 0
      = some p := by
    apply page_at_isSome_of_lt (le_refl _)
    simp only [GuPreviewGui.n_pages, update_page_positions_length]
    decide
  obtain ⟨q, hq⟩ : ∃ q, page_at (update_page_positions kExample threePagesZoomed) 1
      = some q := by
    apply page_at_isSome_of_lt (by decide)
    simp only [GuPreviewGui.n_pages, update_page_positions_length]
    decide
  obtain ⟨r, hr⟩ : ∃ r, page_at (update_page_positions kExample threePagesZoomed) 2
      = some r := by
    apply page_at_isSome_of_lt (by decide)
    simp only [GuPreviewGui.n_pages, update_page_positions_length]
    decide
  obtain ⟨hy, hht⟩ := c1 p hp
  rw [hh 0 (by decide) (by decide), round_double_zoomed_height.2, h560] at hht
  have hqh := (c2 1 q hq).1
  rw [hh 1 (by decide) (by decide), round_double_zoomed_height.2, h560] at hqh
  have hstep := c3 0 p q hp hq
  rw [hy, hht, hm, hpm] at hstep
  have hstep2 := c3 1 q r hq hr
  rw [hstep, hqh, hpm] at hstep2
  exact ⟨p, q, r, hp, hq, hr, by rw [hy, hm], hht, by rw [hstep]; decide, hqh,
    by rw [hstep2]; decide⟩

/-- Witness for C20: in single-page layout showing page 1, the field of view has
layer 1 after `update_page_positions`. -/
theorem single_page_layers_witness :
    (get_fov (update_page_positions kExample singleThree)).layer = 1 ∧
    (get_fov (update_page_positions kExample singleThree)).layer
      = (update_page_positions kExample singleThree).current_page :=
  ⟨by
    rw [(update_page_positions_frame kExample singleThree).1]
    decide,
   (single_page_layers kExample singleThree rfl).2.1⟩

/-! ## C15: candidates on several pages -/

theorem merge_scan_other_page (l : List SyncNode) (acc : MergeAcc)
    (hacc : acc.page ≠ -1) (h : ∃ sn ∈ l, sn.page ≠ acc.page) :
    merge_scan l acc = none := by
  induction l generalizing acc with
  | nil => simp at h
  | cons s t ih =>
    simp only [merge_scan, hacc, if_false]
    by_cases hs : acc.page ≠ s.page
    · rw [if_pos hs]
    · rw [if_neg hs]
      apply ih
      · exact hacc
      · obtain ⟨sn, hsn, hp⟩ := h
        rcases List.mem_cons.1 hsn with h1 | h1
        · subst h1
          exact absurd (fun h => hp h.symm) hs
        · exact ⟨sn, h1, hp⟩

/-- C15. Candidates spanning multiple pages are never merged.  The candidates are
those `synctex_run_parser` stores: it takes the page from SyncTeX, which counts
pages from 1, and subtracts 1, so every stored page is at least 0.  For every
such candidate list containing two candidates with different page values,
`synctex_merge_nodes` leaves the state, and so the candidate list, unchanged,
whatever the bounding-box height, scale and viewport height. -/
theorem synctex_merge_nodes_multi_page (pc : GuPreviewGui)
    (hpages : ∀ s ∈ pc.sync_nodes, 0 ≤ s.page)
    (htwo : ∃ s1 ∈ pc.sync_nodes, ∃ s2 ∈ pc.sync_nodes, s1.page ≠ s2.page) :
    synctex_merge_nodes pc = pc := by
  obtain ⟨s1, h1, s2, h2, hne⟩ := htwo
  cases hl : pc.sync_nodes with
  | nil => rw [hl] at h1; simp at h1
  | cons a rest =>
    rw [hl] at h1 h2 hpages
    have ha : a.page ≠ -1 := by
      have := hpages a (by simp)
      omega
    have hex : ∃ sn ∈ rest, sn.page ≠ a.page := by
      by_contra hall
      push_neg at hall
      have e1 : s1.page = a.page := by
        rcases List.mem_cons.1 h1 with h | h
        · rw [h]
        · exact hall s1 h
      have e2 : s2.page = a.page := by
        rcases List.mem_cons.1 h2 with h | h
        · rw [h]
        · exact hall s2 h
      exact hne (e1.trans e2.symm)
    have hscan : merge_scan (a :: rest)
        { x1 := INT_MAX, y1 := INT_MAX, x2 := -1, y2 := -1, page := -1 } = none := by
      simp only [merge_scan, if_true]
      exact merge_scan_other_page rest _ ha hex
    simp only [synctex_merge_nodes, hl, hscan]

/-- Witness for C15: two candidates on pages 2 and 3, 60 units apart in a view
1000 high, stay as they are. -/
theorem synctex_merge_nodes_multi_page_witness :
    synctex_merge_nodes twoPagesClose = twoPagesClose :=
  synctex_merge_nodes_multi_page twoPagesClose (by decide) (by simp [twoPagesClose])

/-! ## C14: a forward query without candidates -/

/-- C14 (the code departs from the claim). When the forward query returns no
candidate the list is empty; `synctex_one_node_found` finds nothing, and
`synctex_merge_nodes`, run on the empty list, builds a node from its initial
values (`x = y = INT_MAX`, width and height `-1 - INT_MAX`, page -1), since
`(y2 - y1) * scale` is negative.  The next `synctex_one_node_found` selects it,
the filter is skipped, and `synctex_scroll_to_node` is called with it. -/
theorem refresh_resolves_empty_query (words : List (SyncNode → Bool)) :
    syncMiss.sync_nodes = [] ∧
    (synctex_one_node_found syncMiss).2 = none ∧
    (synctex_merge_nodes syncMiss).sync_nodes =
      [{ page := -1, x := INT_MAX, y := INT_MAX, width := -1 - INT_MAX,
         height := -1 - INT_MAX, score := 0 }] ∧
    (refresh_resolve_nodes words syncMiss).2 = some 0 ∧
    (refresh_resolve_nodes words syncMiss).1.sync_nodes =
      [{ page := -1, x := INT_MAX, y := INT_MAX, width := -1 - INT_MAX,
         height := -1 - INT_MAX, score := -1 }] := by
  have h0 : syncMiss.sync_nodes = [] := rfl
  have h1 : synctex_one_node_found syncMiss = (syncMiss, none) := by
    simp [synctex_one_node_found, h0, one_node_scan]
  have hm : synctex_merge_nodes syncMiss =
      { syncMiss with sync_nodes :=
          [{ page := -1, x := INT_MAX, y := INT_MAX, width := -1 - INT_MAX,
             height := -1 - INT_MAX, score := 0 }] } := by
    have rmin : round_double (-2147483648 : ℚ) = -2147483648 := by
      have := round_double_intCast (-2147483648) (by norm_num)
      simpa using this
    have r300 : round_double (300 : ℚ) = 300 := by
      have := round_double_intCast 300 (by norm_num)
      simpa using this
    have hc : round_double ((((-1 : Int) - INT_MAX : Int) : ℚ) * syncMiss.scale)
        < round_double (syncMiss.vadj.page_size / 3) := by
      simp only [syncMiss, synctex_run_parser_fn, threePagesLaid, threePages, INT_MAX]
      norm_num [rmin, r300]
    simp only [synctex_merge_nodes, h0, merge_scan]
    rw [if_pos hc]
  have h3 : synctex_one_node_found (synctex_merge_nodes syncMiss) =
      ({ syncMiss with sync_nodes :=
          [{ page := -1, x := INT_MAX, y := INT_MAX, width := -1 - INT_MAX,
             height := -1 - INT_MAX, score := -1 }] }, some 0) := by
    rw [hm]
    simp [synctex_one_node_found, mark_selected]
  have h5 : synctex_one_node_found
      { syncMiss with sync_nodes :=
          [{ page := -1, x := INT_MAX, y := INT_MAX, width := -1 - INT_MAX,
             height := -1 - INT_MAX, score := -1 }] } =
      ({ syncMiss with sync_nodes :=
          [{ page := -1, x := INT_MAX, y := INT_MAX, width := -1 - INT_MAX,
             height := -1 - INT_MAX, score := -1 }] }, some 0) := by
    simp [synctex_one_node_found, mark_selected]
  have hr : refresh_resolve_nodes words syncMiss =
      ({ syncMiss with sync_nodes :=
          [{ page := -1, x := INT_MAX, y := INT_MAX, width := -1 - INT_MAX,
             height := -1 - INT_MAX, score := -1 }] }, some 0) := by
    simp only [refresh_resolve_nodes, h1, if_true, h3]
    simp only [reduceCtorEq, if_false, h5]
  refine ⟨h0, by rw [h1], by rw [hm], by rw [hr], by rw [hr]⟩

/-! ## C16, C17, C18: the fitted scale -/

theorem sameDocument_refl (pc : GuPreviewGui) : SameDocument pc pc :=
  ⟨rfl, rfl, rfl, rfl, rfl, rfl, rfl⟩

theorem sameDocument_trans {a b c : GuPreviewGui} (h1 : SameDocument a b)
    (h2 : SameDocument b c) : SameDocument a c := by
  obtain ⟨a1, a2, a3, a4, a5, a6, a7⟩ := h1
  obtain ⟨b1, b2, b3, b4, b5, b6, b7⟩ := h2
  exact ⟨b1.trans a1, b2.trans a2, b3.trans a3, b4.trans a4, b5.trans a5, b6.trans a6,
    b7.trans a7⟩

theorem map_height_set (l : List GuPreviewPage) (n : Nat) (q a : GuPreviewPage)
    (hq : l[n]? = some q) (ha : a.height = q.height) :
    (l.set n a).map (fun p => p.height) = l.map (fun p => p.height) := by
  induction l generalizing n with
  | nil => simp
  | cons x t ih =>
    cases n with
    | zero =>
      simp only [List.getElem?_cons_zero, Option.some.injEq] at hq
      subst hq
      simp [ha]
    | succ m =>
      simp only [List.getElem?_cons_succ] at hq
      simp [ih m hq]

theorem remove_same_document (k : Constants) (pc : GuPreviewGui) (p : Int) :
    SameDocument pc (remove_page_rendering k pc p).1 := by
  cases hp : page_at pc p with
  | none => simp [remove_page_rendering, hp, sameDocument_refl]
  | some q =>
    cases hr : q.rendering with
    | none => simp [remove_page_rendering, hp, hr, sameDocument_refl]
    | some sf =>
      have hp0 : ¬ p < 0 := by
        intro hneg; simp [page_at, hneg] at hp
      simp only [page_at, hp0, if_false] at hp
      simp only [remove_page_rendering, page_at, hp0, if_false, hp, hr]
      exact ⟨rfl, rfl, rfl, rfl, rfl, rfl, map_height_set _ _ q _ hp rfl⟩

theorem invalidate_loop_same_document (k : Constants) (fuel : Nat) (i : Int)
    (pc : GuPreviewGui) : SameDocument pc (invalidate_loop k fuel i pc) := by
  induction fuel generalizing i pc with
  | zero => exact sameDocument_refl _
  | succ f ih =>
    simp only [invalidate_loop]
    exact sameDocument_trans (remove_same_document k pc i) (ih _ _)

theorem layout_continuous_heights (k : Constants) (pc : GuPreviewGui)
    (fov : LayeredRectangle) (l : List GuPreviewPage) (y : Int) :
    (layout_continuous k pc fov l y).1.map (fun p => p.height)
      = l.map (fun p => p.height) := by
  induction l generalizing y with
  | nil => simp [layout_continuous]
  | cons p ps ih => simp [layout_continuous, ih]

theorem layout_single_heights (k : Constants) (pc : GuPreviewGui)
    (fov : LayeredRectangle) (l : List GuPreviewPage) (i : Int) :
    (layout_single k pc fov l i).map (fun p => p.height) = l.map (fun p => p.height) := by
  induction l generalizing i with
  | nil => simp [layout_single]
  | cons p ps ih => simp [layout_single, ih]

theorem update_page_positions_same_document (k : Constants) (pc : GuPreviewGui) :
    SameDocument pc (update_page_positions k pc) := by
  refine ⟨rfl, rfl, rfl, rfl, rfl, rfl, ?_⟩
  simp only [update_page_positions, List.map_map]
  have e1 : ((fun p : GuPreviewPage => p.height) ∘ set_outer k)
      = (fun p : GuPreviewPage => p.height) := by
    funext p; simp [set_outer]
  rw [e1]
  split
  · split
    · rw [List.map_map]
      have e2 : ((fun p : GuPreviewPage => p.height) ∘ shift_inner
          (Int.tdiv ((get_fov pc).height
            - ((layout_continuous k pc (get_fov pc) pc.pages (get_document_margin k pc)).2
              - get_page_margin k pc + get_document_margin k pc)) 2))
          = (fun p : GuPreviewPage => p.height) := by
        funext p; simp [shift_inner]
      rw [e2, layout_continuous_heights]
    · rw [layout_continuous_heights]
  · rw [layout_single_heights]

theorem update_scaled_size_same_document (k : Constants) (pc : GuPreviewGui) :
    SameDocument pc (update_scaled_size k pc) :=
  ⟨rfl, rfl, rfl, rfl, rfl, rfl, rfl⟩

theorem update_drawarea_size_same_document (k : Constants) (pc : GuPreviewGui) :
    SameDocument pc (update_drawarea_size k pc) :=
  ⟨rfl, rfl, rfl, rfl, rfl, rfl, rfl⟩

/-- With NaN as the position, a `previewgui_set_scale` to a different scale sets
that scale and keeps the document and the tab. -/
theorem set_scale_nan (k : Constants) (pc : GuPreviewGui) (s : ℚ) (h : pc.scale ≠ s) :
    (previewgui_set_scale k pc s none none).1.scale = s ∧
    (previewgui_set_scale k pc s none none).2 = true ∧
    SameDocument pc (previewgui_set_scale k pc s none none).1 := by
  have h1 := invalidate_loop_same_document k pc.pages.length 0 pc
  have h2 : SameDocument (invalidate_loop k pc.pages.length 0 pc)
      { invalidate_loop k pc.pages.length 0 pc with scale := s } :=
    ⟨rfl, rfl, rfl, rfl, rfl, rfl, rfl⟩
  have h3 := update_scaled_size_same_document k
    { invalidate_loop k pc.pages.length 0 pc with scale := s }
  have h4 := update_page_positions_same_document k (update_scaled_size k
    { invalidate_loop k pc.pages.length 0 pc with scale := s })
  have h5 := update_drawarea_size_same_document k (update_page_positions k
    (update_scaled_size k { invalidate_loop k pc.pages.length 0 pc with scale := s }))
  simp only [previewgui_set_scale, h, if_false, previewgui_invalidate_renderings]
  refine ⟨?_, trivial, sameDocument_trans (sameDocument_trans (sameDocument_trans
    (sameDocument_trans h1 h2) h3) h4) h5⟩
  simp [update_drawarea_size, update_page_positions, update_scaled_size,
    block_handlers_current_page, unblock_handlers_current_page]

theorem get_page_height_congr {pc r : GuPreviewGui}
    (h : r.pages.map (fun p => p.height) = pc.pages.map (fun p => p.height)) (i : Int) :
    get_page_height r i = get_page_height pc i := by
  have hlen : r.pages.length = pc.pages.length := by
    simpa using congrArg List.length h
  unfold get_page_height GuPreviewGui.n_pages page_at
  rw [hlen]
  by_cases hi : i < 0 ∨ i ≥ (pc.pages.length : Int)
  · rw [if_pos hi, if_pos hi]
  · rw [if_neg hi, if_neg hi]
    have h0 : ¬ i < 0 := fun hneg => hi (Or.inl hneg)
    simp only [h0, if_false]
    have hget := congrArg (fun l => l[i.toNat]?) h
    simp only [List.getElem?_map] at hget
    cases hr : r.pages[i.toNat]? <;> cases hp : pc.pages[i.toNat]? <;> simp_all

/-- The fit mode and the fitted scales only depend on the document and the tab. -/
theorem SameDocument.fit_candidates {pc r : GuPreviewGui} (h : SameDocument pc r)
    (k : Constants) (env : ViewMetrics) :
    fit_mode_of r = fit_mode_of pc ∧
    fit_scale_width k env r = fit_scale_width k env pc ∧
    fit_scale_both k env r = fit_scale_both k env pc := by
  obtain ⟨h1, h2, h3, h4, h5, h6, h7⟩ := h
  have hm : get_document_margin k r = get_document_margin k pc := by
    simp [get_document_margin, h2]
  have hc : is_continuous r = is_continuous pc := by simp [is_continuous, h2]
  have hn : r.n_pages = pc.n_pages := by
    have hlen : r.pages.length = pc.pages.length := by
      simpa using congrArg List.length h7
    simp [GuPreviewGui.n_pages, hlen]
  have hh := get_page_height_congr h7
  refine ⟨by simp [fit_mode_of, h1], ?_, ?_⟩
  · simp only [fit_scale_width, scale_width_with_bar, scale_both_full,
      scale_width_without_bar, scale_full_height_without_bar, full_height_non_scaling,
      get_page_margin, hm, hn, h4, h5]
  · simp only [fit_scale_both, scale_width_with_bar, scale_both_full,
      scale_width_without_bar, scale_full_height_without_bar, full_height_non_scaling,
      scale_height_without_bar, fit_height_scaling, get_page_margin, hm, hn, hc, hh, h3,
      h4, h5, h6]

/-- Outside numeric mode the fitted scale only depends on the document and the
tab. -/
theorem SameDocument.fit_scale_target_eq {pc r : GuPreviewGui} (h : SameDocument pc r)
    (k : Constants) (env : ViewMetrics) (hn : fit_mode_of pc ≠ .FIT_NUMERIC) :
    fit_scale_target k env r = fit_scale_target k env pc := by
  obtain ⟨hmode, hw, hb⟩ := h.fit_candidates k env
  unfold fit_scale_target
  rw [hmode, hw, hb]
  cases hfm : fit_mode_of pc with
  | FIT_BOTH => rfl
  | FIT_WIDTH => rfl
  | FIT_NUMERIC => exact absurd hfm hn

/-- The scale after `update_fit_scale`: unchanged in numeric mode, the fitted
scale of the mode otherwise. -/
theorem update_fit_scale_scale (k : Constants) (env : ViewMetrics) (pc : GuPreviewGui) :
    (update_fit_scale k env pc).1.scale = fit_scale_target k env pc := by
  unfold update_fit_scale
  by_cases hn : fit_mode_of pc = .FIT_NUMERIC
  · simp [hn, fit_scale_target]
  · rw [if_neg hn]
    by_cases hs : fit_scale_target k env pc = pc.scale
    · simp [hs]
    · simp only [hs, if_false]
      exact (set_scale_nan k pc _ (fun e => hs e.symm)).1

/-- A second `update_fit_scale` in the same viewport changes nothing and does not
reach `previewgui_invalidate_renderings`. -/
theorem update_fit_scale_fixed (k : Constants) (env : ViewMetrics) (pc : GuPreviewGui) :
    update_fit_scale k env (update_fit_scale k env pc).1
      = ((update_fit_scale k env pc).1, false) := by
  by_cases hn : fit_mode_of pc = .FIT_NUMERIC
  · simp [update_fit_scale, hn]
  · by_cases hs : fit_scale_target k env pc = pc.scale
    · simp [update_fit_scale, hn, hs]
    · have hset := set_scale_nan k pc (fit_scale_target k env pc) (fun e => hs e.symm)
      have hfirst : (update_fit_scale k env pc).1
          = (previewgui_set_scale k pc (fit_scale_target k env pc) none none).1 := by
        simp [update_fit_scale, hn, hs]
      rw [hfirst]
      have hmode := (hset.2.2.fit_candidates k env).1
      have htarget := hset.2.2.fit_scale_target_eq k env hn
      unfold update_fit_scale
      rw [hmode, if_neg hn, htarget, hset.1]
      simp

theorem fit_scale_both_le (k : Constants) (env : ViewMetrics) (pc : GuPreviewGui) :
    fit_scale_both k env pc ≤ scale_height_without_bar k env pc ∧
    (fit_scale_both k env pc ≤ scale_width_with_bar k env pc ∨
      (fit_scale_both k env pc ≤ scale_full_height_without_bar k env pc ∧
        fit_scale_both k env pc ≤ scale_width_without_bar k env pc)) := by
  unfold fit_scale_both scale_both_full
  simp only
  split
  · rename_i hlt
    constructor
    · apply max_le
      · exact le_trans (min_le_right _ _) (le_trans (le_of_lt hlt) (min_le_right _ _))
      · exact min_le_right _ _
    · rcases le_total (min (scale_width_without_bar k env pc)
          (scale_full_height_without_bar k env pc))
          (min (scale_width_with_bar k env pc) (scale_height_without_bar k env pc))
        with hle | hle
      · left
        rw [max_eq_right hle]
        exact min_le_left _ _
      · right
        rw [max_eq_left hle]
        exact ⟨min_le_right _ _, min_le_left _ _⟩
  · rename_i hge
    exact ⟨min_le_right _ _, Or.inr ⟨not_lt.mp hge, min_le_left _ _⟩⟩

/-- C16 (fit-scale idempotence): a second `update_fit_scale` with the same
viewport metrics, pages, layout and fit mode returns the state of the first call
unchanged, so the scale, the pages with their cached bitmaps and the cache
counter are the same, and its flag is `false`: the call to
`previewgui_set_scale`, and with it `previewgui_invalidate_renderings`, is not
reached.  Scales are exact rationals here. -/
theorem update_fit_scale_idempotent (k : Constants) (env : ViewMetrics)
    (pc : GuPreviewGui) :
    (update_fit_scale k env (update_fit_scale k env pc).1).2 = false ∧
    (update_fit_scale k env (update_fit_scale k env pc).1).1
      = (update_fit_scale k env pc).1 ∧
    (update_fit_scale k env (update_fit_scale k env pc).1).1.scale
      = (update_fit_scale k env pc).1.scale ∧
    (update_fit_scale k env (update_fit_scale k env pc).1).1.pages
      = (update_fit_scale k env pc).1.pages := by
  rw [update_fit_scale_fixed]
  exact ⟨rfl, rfl, rfl, rfl⟩

/-- C17 (fit-both fits both axes): in fit-both mode, for page-size summaries that
are positive, the scale after `update_fit_scale` is at most
`scale_height_without_bar`, so the tallest page (the current page in single-page
layout) plus margins fits the viewport height; and either it is at most
`scale_width_with_bar`, so the widest page plus margins fits the width left by
the scrollbar, or it is at most `scale_full_height_without_bar` and
`scale_width_without_bar`, so the stacked document fits the height and the widest
page fits the full width. -/
theorem fit_both_fits (k : Constants) (env : ViewMetrics) (pc : GuPreviewGui)
    (hmode : fit_mode_of pc = .FIT_BOTH) (hw : 0 < pc.width_pages)
    (hh : 0 < pc.height_pages) (hf : 0 < fit_height_scaling pc) :
    ((update_fit_scale k env pc).1.scale ≤ scale_height_without_bar k env pc ∧
      ((update_fit_scale k env pc).1.scale ≤ scale_width_with_bar k env pc ∨
        ((update_fit_scale k env pc).1.scale ≤ scale_full_height_without_bar k env pc ∧
          (update_fit_scale k env pc).1.scale ≤ scale_width_without_bar k env pc))) ∧
    ((update_fit_scale k env pc).1.scale * fit_height_scaling pc
        + ((2 * get_document_margin k pc : Int) : ℚ) ≤ (view_height_without_bar env : ℚ) ∧
      ((update_fit_scale k env pc).1.scale * pc.width_pages
          + ((2 * get_document_margin k pc : Int) : ℚ) ≤ (view_width_with_bar env : ℚ) ∨
        ((update_fit_scale k env pc).1.scale * pc.height_pages
            + (full_height_non_scaling k pc : ℚ) ≤ (view_height_without_bar env : ℚ) ∧
          (update_fit_scale k env pc).1.scale * pc.width_pages
            + ((2 * get_document_margin k pc : Int) : ℚ)
              ≤ (view_width_without_bar env : ℚ)))) := by
  have hs : (update_fit_scale k env pc).1.scale = fit_scale_both k env pc := by
    rw [update_fit_scale_scale]
    simp [fit_scale_target, hmode]
  rw [hs]
  obtain ⟨h1, h2⟩ := fit_scale_both_le k env pc
  refine ⟨⟨h1, h2⟩, ?_, ?_⟩
  · have := (le_div_iff₀ hf).mp h1
    linarith
  · rcases h2 with h2 | ⟨h2, h3⟩
    · left
      have := (le_div_iff₀ hw).mp h2
      linarith
    · right
      have a := (le_div_iff₀ hh).mp h2
      have b := (le_div_iff₀ hw).mp h3
      constructor <;> linarith

/-- C18 counterexample: three pages of 600 by 800 points at scale 1 in fit-width
mode, in a viewport 15 pixels wide with a document margin of 10: the scale after
`update_fit_scale` is -1/120. -/
theorem fit_width_negative_scale :
    0 < fitWidthPages.scale ∧
    (update_fit_scale kExample narrowView fitWidthPages).1.scale = -1 / 120 := by
  constructor
  · norm_num [fitWidthPages, threePages]
  · have hm : get_document_margin kExample fitWidthPages = 10 := by decide
    have hn : fitWidthPages.n_pages = 3 := by decide
    rw [update_fit_scale_scale]
    simp only [fit_scale_target, fit_mode_of, fit_scale_width, scale_width_with_bar,
      scale_both_full, scale_width_without_bar, scale_full_height_without_bar,
      full_height_non_scaling, get_page_margin, hm, hn]
    norm_num [fitWidthPages, threePages, view_width_with_bar, view_width_without_bar,
      view_height_without_bar, vscrollbar_width, narrowView, wideView, kExample]

/-- C18 (scale positivity, amended): if the scale is positive before
`update_fit_scale`, the widest page has positive width, the scrollbar width is
not negative, the viewport without the scrollbar is wider than the two document
margins and, in fit-both mode, the page height used for fitting is positive and
the viewport is taller than the two document margins, then the scale is positive
after `update_fit_scale`. -/
theorem fit_scale_positive (k : Constants) (env : ViewMetrics) (pc : GuPreviewGui)
    (hpos : 0 < pc.scale) (hw : 0 < pc.width_pages)
    (hbar : 0 ≤ vscrollbar_width env)
    (hvw : 2 * get_document_margin k pc < view_width_with_bar env)
    (hvh : fit_mode_of pc = .FIT_BOTH →
      0 < fit_height_scaling pc ∧
        2 * get_document_margin k pc < view_height_without_bar env) :
    0 < (update_fit_scale k env pc).1.scale := by
  rw [update_fit_scale_scale]
  have hwb : 0 < scale_width_with_bar k env pc := by
    unfold scale_width_with_bar
    apply div_pos _ hw
    have : ((2 * get_document_margin k pc : Int) : ℚ) < (view_width_with_bar env : ℚ) := by
      exact_mod_cast hvw
    linarith
  have hwwb : 0 < scale_width_without_bar k env pc := by
    unfold scale_width_without_bar
    apply div_pos _ hw
    have h1 : 2 * get_document_margin k pc < view_width_without_bar env := by
      unfold view_width_with_bar at hvw
      omega
    have : ((2 * get_document_margin k pc : Int) : ℚ) < (view_width_without_bar env : ℚ) := by
      exact_mod_cast h1
    linarith
  unfold fit_scale_target
  cases hfm : fit_mode_of pc with
  | FIT_NUMERIC => exact hpos
  | FIT_WIDTH =>
    simp only
    exact lt_of_lt_of_le hwb (le_max_left _ _)
  | FIT_BOTH =>
    simp only
    obtain ⟨hf, hv⟩ := hvh hfm
    have hh : 0 < scale_height_without_bar k env pc := by
      unfold scale_height_without_bar
      apply div_pos _ hf
      have : ((2 * get_document_margin k pc : Int) : ℚ)
          < (view_height_without_bar env : ℚ) := by
        exact_mod_cast hv
      linarith
    unfold fit_scale_both
    simp only
    split
    · exact lt_of_lt_of_le (lt_min hwb hh) (le_max_right _ _)
    · exact lt_min hwwb hh

theorem fit_both_fits_witness :
    fit_mode_of fitBothPages = .FIT_BOTH ∧ 0 < fitBothPages.width_pages ∧
    0 < fitBothPages.height_pages ∧ 0 < fit_height_scaling fitBothPages ∧
    (update_fit_scale kExample wideView fitBothPages).1.scale
      ≤ scale_height_without_bar kExample wideView fitBothPages :=
  ⟨rfl, by norm_num [fitBothPages, threePages], by norm_num [fitBothPages, threePages],
    by norm_num [fit_height_scaling, is_continuous, fitBothPages, threePages],
    (fit_both_fits kExample wideView fitBothPages rfl
      (by norm_num [fitBothPages, threePages]) (by norm_num [fitBothPages, threePages])
      (by norm_num [fit_height_scaling, is_continuous, fitBothPages, threePages])).1.1⟩

theorem fit_scale_positive_witness :
    0 < fitBothPages.scale ∧ 0 < fitBothPages.width_pages ∧
    0 ≤ vscrollbar_width wideView ∧
    2 * get_document_margin kExample fitBothPages < view_width_with_bar wideView ∧
    0 < fit_height_scaling fitBothPages ∧
    2 * get_document_margin kExample fitBothPages < view_height_without_bar wideView ∧
    0 < (update_fit_scale kExample wideView fitBothPages).1.scale :=
  ⟨by norm_num [fitBothPages, threePages], by norm_num [fitBothPages, threePages],
    by decide, by decide,
    by norm_num [fit_height_scaling, is_continuous, fitBothPages, threePages], by decide,
    fit_scale_positive kExample wideView fitBothPages
      (by norm_num [fitBothPages, threePages]) (by norm_num [fitBothPages, threePages])
      (by decide) (by decide)
      (fun _ => ⟨by norm_num [fit_height_scaling, is_continuous, fitBothPages, threePages],
        by decide⟩)⟩

/-! ## Facts about `previewgui_goto_xy` used by the navigation claims -/

/-- What `previewgui_goto_xy` leaves alone: the animation state, the error
mode, the layout data and the presence of a tab. -/
theorem goto_xy_frame (pc : GuPreviewGui) (x y : Option ℚ) :
    (previewgui_goto_xy pc x y).ascroll_steps_left = pc.ascroll_steps_left ∧
    (previewgui_goto_xy pc x y).ascroll_end_x = pc.ascroll_end_x ∧
    (previewgui_goto_xy pc x y).ascroll_end_y = pc.ascroll_end_y ∧
    (previewgui_goto_xy pc x y).ascroll_dist_x = pc.ascroll_dist_x ∧
    (previewgui_goto_xy pc x y).ascroll_dist_y = pc.ascroll_dist_y ∧
    (previewgui_goto_xy pc x y).ascroll_timeout_sources = pc.ascroll_timeout_sources ∧
    (previewgui_goto_xy pc x y).errormode = pc.errormode ∧
    (previewgui_goto_xy pc x y).hadj.upper = pc.hadj.upper ∧
    (previewgui_goto_xy pc x y).hadj.page_size = pc.hadj.page_size ∧
    (previewgui_goto_xy pc x y).vadj.upper = pc.vadj.upper ∧
    (previewgui_goto_xy pc x y).vadj.page_size = pc.vadj.page_size := by
  cases x <;> cases y <;>
    simp only [previewgui_goto_xy, gtk_adjustment_set_value, previewgui_save_position,
      block_handlers_current_page,
      unblock_handlers_current_page] <;>
    cases pc.active_tab <;> cases pc.errormode <;> simp

/-- The block count of the adjustment handlers after `previewgui_goto_xy` with
two numbers: one more than before when there is a tab and the pane is not in
error mode, the same otherwise. -/
theorem goto_xy_block_count (pc : GuPreviewGui) (x y : ℚ) :
    (previewgui_goto_xy pc (some x) (some y)).handler_block_count
      = if pc.active_tab.isSome ∧ pc.errormode = false then pc.handler_block_count + 1
        else pc.handler_block_count := by
  simp only [previewgui_goto_xy, gtk_adjustment_set_value, previewgui_save_position,
      block_handlers_current_page,
    unblock_handlers_current_page]
  cases pc.active_tab <;> cases pc.errormode <;> simp

/-- In error mode `previewgui_goto_xy` leaves the tab, and with it the saved
position, as it is. -/
theorem goto_xy_tab_in_errormode (pc : GuPreviewGui) (x y : Option ℚ)
    (herr : pc.errormode = true) :
    (previewgui_goto_xy pc x y).active_tab = pc.active_tab := by
  match x, y with
  | none, _ => rfl
  | some _, none => rfl
  | some x, some y =>
    simp only [previewgui_goto_xy, gtk_adjustment_set_value, previewgui_save_position,
      block_handlers_current_page,
      unblock_handlers_current_page]
    cases pc.active_tab <;> simp [herr]

/-! ## C22: NaN arguments -/

/-- C22 (NaN sentinel): when either argument is NaN (`none`), `previewgui_goto_xy`
and `previewgui_scroll_to_xy` return the state they were given: the offsets, the
saved position, the steps left, end point and distances of the animation are
unchanged and no timeout is added. -/
theorem nan_navigation_ignored (k : Constants) (pc : GuPreviewGui) (x y : Option ℚ)
    (hnan : x = none ∨ y = none) :
    previewgui_goto_xy pc x y = pc ∧ previewgui_scroll_to_xy k pc x y = pc := by
  rcases hnan with h | h
  · subst h
    exact ⟨rfl, rfl⟩
  · subst h
    cases x <;> exact ⟨rfl, rfl⟩

theorem nan_navigation_ignored_witness :
    previewgui_goto_xy midScroll none (some 3) = midScroll ∧
    previewgui_scroll_to_xy kExample midScroll none (some 3) = midScroll :=
  nan_navigation_ignored kExample midScroll none (some 3) (Or.inl rfl)

/-! ## C30: the block count of the adjustment handlers -/

/-- C30 (the code departs from the claim). With a tab and outside error mode,
`previewgui_goto_xy` blocks the handlers itself, `previewgui_save_position`
blocks them a second time, and there is one unblock: from a block count of 0 the
call returns with a block count of 1. -/
theorem goto_xy_leaves_handlers_blocked :
    scrolledView.active_tab.isSome = true ∧ scrolledView.errormode = false ∧
    scrolledView.handler_block_count = 0 ∧
    (previewgui_goto_xy scrolledView (some 5) (some 10)).handler_block_count = 1 ∧
    (previewgui_goto_xy (previewgui_goto_xy scrolledView (some 5) (some 10))
      (some 5) (some 10)).handler_block_count = 2 := by
  refine ⟨rfl, rfl, rfl, ?_, ?_⟩
  · rw [goto_xy_block_count]; rfl
  · rw [goto_xy_block_count, goto_xy_block_count, (goto_xy_frame _ _ _).2.2.2.2.2.2.1]
    simp [previewgui_goto_xy, gtk_adjustment_set_value, previewgui_save_position,
      block_handlers_current_page,
      unblock_handlers_current_page, scrolledView]

/-! ## C23: the saved position in error mode -/

/-- In error mode a sequence of `previewgui_goto_xy` and
`previewgui_start_errormode` calls keeps the error mode and the tab. -/
theorem run_error_mode_calls_frozen (calls : List ErrorModeCall) (pc : GuPreviewGui)
    (herr : pc.errormode = true) :
    (run_error_mode_calls calls pc).errormode = true ∧
    (run_error_mode_calls calls pc).active_tab = pc.active_tab := by
  induction calls generalizing pc with
  | nil => exact ⟨herr, rfl⟩
  | cons c rest ih =>
    cases c with
    | goto_xy x y =>
      have he : (previewgui_goto_xy pc x y).errormode = true := by
        rw [(goto_xy_frame pc x y).2.2.2.2.2.2.1]; exact herr
      obtain ⟨h1, h2⟩ := ih (previewgui_goto_xy pc x y) he
      exact ⟨h1, h2.trans (goto_xy_tab_in_errormode pc x y herr)⟩
    | start_errormode =>
      have hs : previewgui_start_errormode pc = pc := by
        simp [previewgui_start_errormode, herr]
      simp only [run_error_mode_calls, hs]
      exact ih pc herr

/-- C23 (error-mode freeze and restore): from a state with a tab and outside
error mode, `previewgui_start_errormode` sets the error mode and saves the
current offsets; after any sequence of `previewgui_goto_xy` and
`previewgui_start_errormode` calls the pane is still in error mode with the same
saved position; `previewgui_stop_errormode` then returns a state outside error
mode whose offsets are the saved ones limited to `upper - page_size` from above
and to 0 from below, the saved position being still the same. -/
theorem errormode_freeze_restore (pc : GuPreviewGui) (tab : ActiveTab)
    (calls : List ErrorModeCall)
    (htab : pc.active_tab = some tab) (herr : pc.errormode = false) :
    (previewgui_start_errormode pc).errormode = true ∧
    saved_position (previewgui_start_errormode pc)
      = some (pc.hadj.value, pc.vadj.value) ∧
    (run_error_mode_calls calls (previewgui_start_errormode pc)).errormode = true ∧
    saved_position (run_error_mode_calls calls (previewgui_start_errormode pc))
      = some (pc.hadj.value, pc.vadj.value) ∧
    ∃ r, previewgui_stop_errormode
          (run_error_mode_calls calls (previewgui_start_errormode pc)) = some r ∧
      r.errormode = false ∧
      r.hadj.value = max (min pc.hadj.value
        ((run_error_mode_calls calls (previewgui_start_errormode pc)).hadj.upper
          - (run_error_mode_calls calls (previewgui_start_errormode pc)).hadj.page_size)) 0 ∧
      r.vadj.value = max (min pc.vadj.value
        ((run_error_mode_calls calls (previewgui_start_errormode pc)).vadj.upper
          - (run_error_mode_calls calls (previewgui_start_errormode pc)).vadj.page_size)) 0 ∧
      saved_position r = some (pc.hadj.value, pc.vadj.value) := by
  have hs1 : (previewgui_start_errormode pc).errormode = true := by
    simp [previewgui_start_errormode, herr]
  have hs2 : (previewgui_start_errormode pc).active_tab
      = some { tab with scroll_x := pc.hadj.value, scroll_y := pc.vadj.value } := by
    simp [previewgui_start_errormode, herr, previewgui_save_position, htab,
      block_handlers_current_page]
  obtain ⟨hr1, hr2⟩ := run_error_mode_calls_frozen calls (previewgui_start_errormode pc) hs1
  generalize run_error_mode_calls calls (previewgui_start_errormode pc) = s at hr1 hr2
  rw [hs2] at hr2
  refine ⟨hs1, by simp [saved_position, hs2], hr1, by simp [saved_position, hr2], ?_⟩
  refine ⟨_, by simp only [previewgui_stop_errormode, hr1, previewgui_restore_position, hr2]; rfl,
    rfl, ?_, ?_, ?_⟩
  · simp only [unblock_handlers_current_page]
    exact (goto_xy_offsets s _ _).1
  · simp only [unblock_handlers_current_page]
    exact (goto_xy_offsets s _ _).2.1
  · simp only [saved_position, unblock_handlers_current_page]
    rw [goto_xy_tab_in_errormode s _ _ hr1, hr2]
    rfl

theorem errormode_freeze_restore_witness :
    scrolledView.active_tab = some {} ∧ scrolledView.errormode = false ∧
    (previewgui_start_errormode scrolledView).errormode = true ∧
    saved_position (previewgui_start_errormode scrolledView) = some (5, 10) :=
  have h := errormode_freeze_restore scrolledView {}
    [.goto_xy (some 0) (some 50), .start_errormode, .goto_xy none (some 1)] rfl rfl
  ⟨rfl, rfl, h.1, h.2.1⟩

/-! ## C24: the ticks of an animated scroll -/

/-- A tick with at least two steps left: the step count goes down by one, the
view goes to the interpolated position, limited to the scroll range, and the
tick asks to be called again; the end point, the distances and the scroll ranges stay. -/
theorem ascroll_step_intermediate (k : Constants) (pc : GuPreviewGui)
    (h : 2 ≤ pc.ascroll_steps_left) :
    (previewgui_animated_scroll_step k pc).2 = true ∧
    (previewgui_animated_scroll_step k pc).1.ascroll_steps_left
      = pc.ascroll_steps_left - 1 ∧
    (previewgui_animated_scroll_step k pc).1.ascroll_end_x = pc.ascroll_end_x ∧
    (previewgui_animated_scroll_step k pc).1.ascroll_end_y = pc.ascroll_end_y ∧
    (previewgui_animated_scroll_step k pc).1.ascroll_dist_x = pc.ascroll_dist_x ∧
    (previewgui_animated_scroll_step k pc).1.ascroll_dist_y = pc.ascroll_dist_y ∧
    (previewgui_animated_scroll_step k pc).1.hadj.upper = pc.hadj.upper ∧
    (previewgui_animated_scroll_step k pc).1.hadj.page_size = pc.hadj.page_size ∧
    (previewgui_animated_scroll_step k pc).1.vadj.upper = pc.vadj.upper ∧
    (previewgui_animated_scroll_step k pc).1.vadj.page_size = pc.vadj.page_size ∧
    (previewgui_animated_scroll_step k pc).1.hadj.value
      = max (min (pc.ascroll_end_x + pc.ascroll_dist_x
          * ascroll_rel_dist k (ascroll_r k (pc.ascroll_steps_left - 1)))
          (pc.hadj.upper - pc.hadj.page_size)) 0 ∧
    (previewgui_animated_scroll_step k pc).1.vadj.value
      = max (min (pc.ascroll_end_y + pc.ascroll_dist_y
          * ascroll_rel_dist k (ascroll_r k (pc.ascroll_steps_left - 1)))
          (pc.vadj.upper - pc.vadj.page_size)) 0 := by
  have h0 : pc.ascroll_steps_left ≠ 0 := by omega
  have h1 : pc.ascroll_steps_left ≠ 1 := by omega
  simp only [previewgui_animated_scroll_step, h0, h1, if_false]
  obtain ⟨f1, f2, f3, f4, f5, _, _, f8, f9, f10, f11⟩ :=
    goto_xy_frame (block_handlers_current_page
      { pc with ascroll_steps_left := pc.ascroll_steps_left - 1 })
      (some (pc.ascroll_end_x + pc.ascroll_dist_x
          * ascroll_rel_dist k (ascroll_r k (pc.ascroll_steps_left - 1))))
      (some (pc.ascroll_end_y + pc.ascroll_dist_y
          * ascroll_rel_dist k (ascroll_r k (pc.ascroll_steps_left - 1))))
  obtain ⟨g1, g2, _⟩ :=
    goto_xy_offsets (block_handlers_current_page
      { pc with ascroll_steps_left := pc.ascroll_steps_left - 1 })
      (pc.ascroll_end_x + pc.ascroll_dist_x
          * ascroll_rel_dist k (ascroll_r k (pc.ascroll_steps_left - 1)))
      (pc.ascroll_end_y + pc.ascroll_dist_y
          * ascroll_rel_dist k (ascroll_r k (pc.ascroll_steps_left - 1)))
  exact ⟨trivial, f1, f2, f3, f4, f5, f8, f9, f10, f11, g1, g2⟩

/-- The tick with one step left: it is `previewgui_goto_xy` to the end point
between a block and an unblock of the handlers, and it does not ask to be called
again. -/
theorem ascroll_step_last (k : Constants) (pc : GuPreviewGui)
    (h : pc.ascroll_steps_left = 1) :
    previewgui_animated_scroll_step k pc
      = (unblock_handlers_current_page
          (previewgui_goto_xy (block_handlers_current_page pc)
            (some pc.ascroll_end_x) (some pc.ascroll_end_y)), false) := by
  simp [previewgui_animated_scroll_step, h, block_handlers_current_page]

/-- The tick with no step left does nothing and does not ask to be called
again. -/
theorem ascroll_step_idle (k : Constants) (pc : GuPreviewGui)
    (h : pc.ascroll_steps_left = 0) :
    previewgui_animated_scroll_step k pc = (pc, false) := by
  simp [previewgui_animated_scroll_step, h]

/-- While more than one step is left, the state after `j` ticks has `j` steps
less and the end point, distances and scroll ranges it started with. -/
theorem ascroll_ticks_inv (k : Constants) (s : GuPreviewGui) (j : Nat)
    (hj : (j : Int) + 1 ≤ s.ascroll_steps_left) :
    (ascroll_ticks k j s).ascroll_steps_left = s.ascroll_steps_left - j ∧
    (ascroll_ticks k j s).ascroll_end_x = s.ascroll_end_x ∧
    (ascroll_ticks k j s).ascroll_end_y = s.ascroll_end_y ∧
    (ascroll_ticks k j s).ascroll_dist_x = s.ascroll_dist_x ∧
    (ascroll_ticks k j s).ascroll_dist_y = s.ascroll_dist_y ∧
    (ascroll_ticks k j s).hadj.upper = s.hadj.upper ∧
    (ascroll_ticks k j s).hadj.page_size = s.hadj.page_size ∧
    (ascroll_ticks k j s).vadj.upper = s.vadj.upper ∧
    (ascroll_ticks k j s).vadj.page_size = s.vadj.page_size := by
  induction j with
  | zero => simp [ascroll_ticks]
  | succ n ih =>
    obtain ⟨i1, i2, i3, i4, i5, i6, i7, i8, i9⟩ := ih (by push_cast at hj; omega)
    have h2 : 2 ≤ (ascroll_ticks k n s).ascroll_steps_left := by
      rw [i1]; push_cast at hj; omega
    obtain ⟨_, s1, s2, s3, s4, s5, s6, s7, s8, s9, _, _⟩ :=
      ascroll_step_intermediate k (ascroll_ticks k n s) h2
    simp only [ascroll_ticks]
    refine ⟨?_, s2.trans i2, s3.trans i3, s4.trans i4, s5.trans i5, s6.trans i6,
      s7.trans i7, s8.trans i8, s9.trans i9⟩
    rw [s1, i1]; push_cast; ring

theorem CLAMP_eq_max_min (x high : ℚ) (h : 0 ≤ high) :
    CLAMP x 0 high = max (min x high) 0 := by
  unfold CLAMP
  split_ifs with h1 h2
  · rw [min_eq_right (le_of_lt h1), max_eq_left h]
  · rw [min_eq_left (not_lt.1 h1), max_eq_right (le_of_lt h2)]
  · rw [min_eq_left (not_lt.1 h1), max_eq_left (not_lt.1 h2)]

theorem ascroll_r_lt (k : Constants) (hN : 1 ≤ k.ASCROLL_STEPS) {a b : Int} (h : a < b) :
    ascroll_r k a < ascroll_r k b := by
  have hpos : (0 : ℚ) < (k.ASCROLL_STEPS : ℚ) := by
    exact_mod_cast (by omega : 0 < k.ASCROLL_STEPS)
  have hab : (a : ℚ) < (b : ℚ) := by exact_mod_cast h
  unfold ascroll_r
  have : 2 * (a : ℚ) / (k.ASCROLL_STEPS : ℚ) < 2 * (b : ℚ) / (k.ASCROLL_STEPS : ℚ) := by
    apply div_lt_div_of_pos_right _ hpos
    linarith
  linarith

theorem ascroll_r_ends (k : Constants) (hN : 1 ≤ k.ASCROLL_STEPS) :
    ascroll_r k 0 = -1 ∧ ascroll_r k k.ASCROLL_STEPS = 1 := by
  have hpos : (k.ASCROLL_STEPS : ℚ) ≠ 0 := by
    exact_mod_cast (by omega : k.ASCROLL_STEPS ≠ 0)
  unfold ascroll_r
  constructor
  · simp
  · field_simp
    ring

/-- C24 (animated scroll): let `s` be the state right after
`previewgui_scroll_to_xy (x, y)` with two numbers, `ASCROLL_STEPS` being at
least 1.  The first `ASCROLL_STEPS` ticks return `TRUE` exactly
`ASCROLL_STEPS - 1` times and then `FALSE`.  Tick `j + 1`, for
`j + 1 < ASCROLL_STEPS`, leaves `ASCROLL_STEPS - (j + 1)` steps and goes to the
position interpolated with `r = 2 * stepsLeft / ASCROLL_STEPS - 1`, limited to
the scroll range, where `-1 < r < 1` and `r` is smaller than at the tick before.
The end point is `CLAMP (x, 0, upper - page_size)` on each axis; tick number
`ASCROLL_STEPS` is `previewgui_goto_xy` to exactly
`(ascroll_end_x, ascroll_end_y)`, and the offsets are then `(x, y)` limited to
`upper - page_size` from above and to 0 from below, which is the end point
itself when the content is not smaller than the view. -/
theorem animated_scroll_run (k : Constants) (pc s : GuPreviewGui) (x y : ℚ)
    (hN : 1 ≤ k.ASCROLL_STEPS)
    (hs : s = previewgui_scroll_to_xy k pc (some x) (some y)) :
    ascroll_flags k k.ASCROLL_STEPS.toNat s
      = List.replicate (k.ASCROLL_STEPS.toNat - 1) true ++ [false] ∧
    (∀ j : Nat, (j : Int) + 1 < k.ASCROLL_STEPS →
      (ascroll_ticks k (j + 1) s).ascroll_steps_left = k.ASCROLL_STEPS - (j + 1) ∧
      (ascroll_ticks k (j + 1) s).hadj.value
        = max (min (s.ascroll_end_x + s.ascroll_dist_x
            * ascroll_rel_dist k (ascroll_r k (k.ASCROLL_STEPS - (j + 1))))
            (pc.hadj.upper - pc.hadj.page_size)) 0 ∧
      (ascroll_ticks k (j + 1) s).vadj.value
        = max (min (s.ascroll_end_y + s.ascroll_dist_y
            * ascroll_rel_dist k (ascroll_r k (k.ASCROLL_STEPS - (j + 1))))
            (pc.vadj.upper - pc.vadj.page_size)) 0 ∧
      -1 < ascroll_r k (k.ASCROLL_STEPS - (j + 1)) ∧
      ascroll_r k (k.ASCROLL_STEPS - (j + 1)) < 1 ∧
      ascroll_r k (k.ASCROLL_STEPS - (j + 1)) < ascroll_r k (k.ASCROLL_STEPS - j)) ∧
    s.ascroll_end_x = CLAMP x 0 (pc.hadj.upper - pc.hadj.page_size) ∧
    s.ascroll_end_y = CLAMP y 0 (pc.vadj.upper - pc.vadj.page_size) ∧
    ascroll_ticks k k.ASCROLL_STEPS.toNat s
      = unblock_handlers_current_page
          (previewgui_goto_xy
            (block_handlers_current_page (ascroll_ticks k (k.ASCROLL_STEPS.toNat - 1) s))
            (some s.ascroll_end_x) (some s.ascroll_end_y)) ∧
    (ascroll_ticks k k.ASCROLL_STEPS.toNat s).hadj.value
      = max (min x (pc.hadj.upper - pc.hadj.page_size)) 0 ∧
    (ascroll_ticks k k.ASCROLL_STEPS.toNat s).vadj.value
      = max (min y (pc.vadj.upper - pc.vadj.page_size)) 0 ∧
    (pc.hadj.page_size ≤ pc.hadj.upper →
      (ascroll_ticks k k.ASCROLL_STEPS.toNat s).hadj.value = s.ascroll_end_x) ∧
    (pc.vadj.page_size ≤ pc.vadj.upper →
      (ascroll_ticks k k.ASCROLL_STEPS.toNat s).vadj.value = s.ascroll_end_y) := by
  have hsteps : s.ascroll_steps_left = k.ASCROLL_STEPS := by rw [hs]; rfl
  have hex : s.ascroll_end_x = CLAMP x 0 (pc.hadj.upper - pc.hadj.page_size) := by rw [hs]; rfl
  have hey : s.ascroll_end_y = CLAMP y 0 (pc.vadj.upper - pc.vadj.page_size) := by rw [hs]; rfl
  have hhu : s.hadj.upper = pc.hadj.upper := by rw [hs]; rfl
  have hhp : s.hadj.page_size = pc.hadj.page_size := by rw [hs]; rfl
  have hvu : s.vadj.upper = pc.vadj.upper := by rw [hs]; rfl
  have hvp : s.vadj.page_size = pc.vadj.page_size := by rw [hs]; rfl
  obtain ⟨M, hM⟩ : ∃ M : Nat, k.ASCROLL_STEPS = (M : Int) + 1 :=
    ⟨(k.ASCROLL_STEPS - 1).toNat, by omega⟩
  have hNat : k.ASCROLL_STEPS.toNat = M + 1 := by omega
  -- the ticks before the last one
  have hmid : ∀ j : Nat, j < M →
      (previewgui_animated_scroll_step k (ascroll_ticks k j s)).2 = true := by
    intro j hj
    have hinv := ascroll_ticks_inv k s j (by rw [hsteps]; omega)
    exact (ascroll_step_intermediate k _ (by rw [hinv.1, hsteps]; omega)).1
  have hlastinv := ascroll_ticks_inv k s M (by rw [hsteps]; omega)
  have hone : (ascroll_ticks k M s).ascroll_steps_left = 1 := by
    rw [hlastinv.1, hsteps]; omega
  have hlast := ascroll_step_last k (ascroll_ticks k M s) hone
  have hfinal : ascroll_ticks k (M + 1) s
      = unblock_handlers_current_page
          (previewgui_goto_xy (block_handlers_current_page (ascroll_ticks k M s))
            (some s.ascroll_end_x) (some s.ascroll_end_y)) := by
    simp only [ascroll_ticks, hlast, hlastinv.2.1, hlastinv.2.2.1]
  have hoff := goto_xy_offsets (block_handlers_current_page (ascroll_ticks k M s))
    s.ascroll_end_x s.ascroll_end_y
  have hfx : (ascroll_ticks k (M + 1) s).hadj.value
      = max (min s.ascroll_end_x (pc.hadj.upper - pc.hadj.page_size)) 0 := by
    rw [hfinal, ← hhu, ← hhp, ← hlastinv.2.2.2.2.2.1, ← hlastinv.2.2.2.2.2.2.1]
    exact hoff.1
  have hfy : (ascroll_ticks k (M + 1) s).vadj.value
      = max (min s.ascroll_end_y (pc.vadj.upper - pc.vadj.page_size)) 0 := by
    rw [hfinal, ← hvu, ← hvp, ← hlastinv.2.2.2.2.2.2.2.1, ← hlastinv.2.2.2.2.2.2.2.2]
    exact hoff.2.1
  rw [hNat]
  refine ⟨?_, ?_, hex, hey, ?_, by rw [hfx, hex, stored_clamp],
    by rw [hfy, hey, stored_clamp], ?_, ?_⟩
  · simp only [ascroll_flags, List.range_succ, List.map_append, List.map_cons, List.map_nil,
      Nat.add_sub_cancel, hlast]
    congr 1
    rw [List.eq_replicate_iff]
    refine ⟨by simp, ?_⟩
    intro b hb
    obtain ⟨j, hj, rfl⟩ := List.mem_map.mp hb
    exact hmid j (List.mem_range.mp hj)
  · intro j hj
    have hjM : j < M := by omega
    have hinv := ascroll_ticks_inv k s j (by rw [hsteps]; omega)
    have h2 : 2 ≤ (ascroll_ticks k j s).ascroll_steps_left := by
      rw [hinv.1, hsteps]; omega
    obtain ⟨_, s1, _, _, _, _, _, _, _, _, s11, s12⟩ :=
      ascroll_step_intermediate k (ascroll_ticks k j s) h2
    obtain ⟨i1, i2, i3, i4, i5, i6, i7, i8, i9⟩ := hinv
    have hleft : (ascroll_ticks k j s).ascroll_steps_left - 1
        = k.ASCROLL_STEPS - ((j : Int) + 1) := by rw [i1, hsteps]; ring
    have b1 : -1 < ascroll_r k (k.ASCROLL_STEPS - ((j : Int) + 1)) := by
      rw [← (ascroll_r_ends k hN).1]
      exact ascroll_r_lt k hN (by omega)
    have b2 : ascroll_r k (k.ASCROLL_STEPS - ((j : Int) + 1)) < 1 := by
      rw [← (ascroll_r_ends k hN).2]
      exact ascroll_r_lt k hN (by omega)
    refine ⟨?_, ?_, ?_, b1, b2, ?_⟩
    · show (previewgui_animated_scroll_step k (ascroll_ticks k j s)).1.ascroll_steps_left = _
      rw [s1, hleft]
    · show (previewgui_animated_scroll_step k (ascroll_ticks k j s)).1.hadj.value = _
      rw [s11, hleft, i2, i4, i6, i7, hhu, hhp]
    · show (previewgui_animated_scroll_step k (ascroll_ticks k j s)).1.vadj.value = _
      rw [s12, hleft, i3, i5, i8, i9, hvu, hvp]
    · exact ascroll_r_lt k hN (by omega)
  · simpa using hfinal
  · intro hge
    rw [hfx, hex, stored_clamp]
    exact (CLAMP_eq_max_min x _ (by linarith)).symm
  · intro hge
    rw [hfy, hey, stored_clamp]
    exact (CLAMP_eq_max_min y _ (by linarith)).symm

theorem animated_scroll_run_witness :
    1 ≤ kExample.ASCROLL_STEPS ∧
    ascroll_flags kExample 25 (previewgui_scroll_to_xy kExample scrolledView (some 100) (some 300))
      = List.replicate 24 true ++ [false] :=
  ⟨by decide,
    (animated_scroll_run kExample scrolledView
      (previewgui_scroll_to_xy kExample scrolledView (some 100) (some 300)) 100 300
      (by decide) rfl).1⟩

/-! ## C25: what cancels an animated scroll -/

theorem update_current_page_steps (k : Constants) (pc : GuPreviewGui) :
    (update_current_page k pc).ascroll_steps_left = pc.ascroll_steps_left := by
  unfold update_current_page previewgui_set_current_page
  split <;> rfl

/-- C25 as stated fails for a direct `previewgui_goto_xy`: in the middle of an
animated scroll with 10 steps left, `previewgui_goto_xy (5, 7)` leaves the 10
steps, and the next tick asks to be called again and moves the view away from
the offset 7 just set. -/
theorem goto_xy_keeps_animation_counterexample :
    midScroll.ascroll_steps_left = 10 ∧
    (previewgui_goto_xy midScroll (some 5) (some 7)).ascroll_steps_left = 10 ∧
    (previewgui_goto_xy midScroll (some 5) (some 7)).vadj.value = 7 ∧
    (previewgui_animated_scroll_step kExample
      (previewgui_goto_xy midScroll (some 5) (some 7))).2 = true ∧
    (previewgui_animated_scroll_step kExample
      (previewgui_goto_xy midScroll (some 5) (some 7))).1.ascroll_steps_left = 9 ∧
    (previewgui_animated_scroll_step kExample
      (previewgui_goto_xy midScroll (some 5) (some 7))).1.vadj.value ≠ 7 := by
  have hs : (previewgui_goto_xy midScroll (some 5) (some 7)).ascroll_steps_left = 10 :=
    (goto_xy_frame midScroll _ _).1
  have hv : (previewgui_goto_xy midScroll (some 5) (some 7)).vadj.value = 7 := by
    rw [(goto_xy_offsets midScroll 5 7).2.1]
    norm_num [midScroll, scrolledView]
  obtain ⟨s0, s1, _, _, _, _, _, _, _, _, _, s12⟩ :=
    ascroll_step_intermediate kExample (previewgui_goto_xy midScroll (some 5) (some 7))
      (by rw [hs]; decide)
  refine ⟨rfl, hs, hv, s0, by rw [s1, hs]; rfl, ?_⟩
  rw [s12, hs]
  obtain ⟨_, _, f3, _, f5, _, _, _, _, f10, f11⟩ := goto_xy_frame midScroll (some 5) (some 7)
  rw [f3, f5, f10, f11]
  norm_num [midScroll, scrolledView, ascroll_rel_dist, ascroll_r, kExample]

/-- C25, amended.  `on_adj_changed` sets `ascroll_steps_left` to 0, and the tick
that follows changes nothing and does not ask to be called again.  A direct
`previewgui_goto_xy` during an animation leaves the steps, the end point and
the distances as they are; with at least two steps left the tick that follows
counts one step down and asks to be called again. -/
theorem animation_cancelled_by_adj_changed (k : Constants) (pc : GuPreviewGui)
    (x y : Option ℚ) (h : 2 ≤ pc.ascroll_steps_left) :
    (on_adj_changed k pc).ascroll_steps_left = 0 ∧
    previewgui_animated_scroll_step k (on_adj_changed k pc)
      = (on_adj_changed k pc, false) ∧
    (previewgui_goto_xy pc x y).ascroll_steps_left = pc.ascroll_steps_left ∧
    (previewgui_goto_xy pc x y).ascroll_end_x = pc.ascroll_end_x ∧
    (previewgui_goto_xy pc x y).ascroll_end_y = pc.ascroll_end_y ∧
    (previewgui_animated_scroll_step k (previewgui_goto_xy pc x y)).2 = true ∧
    (previewgui_animated_scroll_step k (previewgui_goto_xy pc x y)).1.ascroll_steps_left
      = pc.ascroll_steps_left - 1 ∧
    (previewgui_goto_xy pc x y).ascroll_dist_x = pc.ascroll_dist_x ∧
    (previewgui_goto_xy pc x y).ascroll_dist_y = pc.ascroll_dist_y := by
  have h0 : (on_adj_changed k pc).ascroll_steps_left = 0 := by
    unfold on_adj_changed
    rw [update_current_page_steps]
  obtain ⟨f1, f2, f3, f4, f5, _⟩ := goto_xy_frame pc x y
  obtain ⟨s0, s1, _⟩ := ascroll_step_intermediate k (previewgui_goto_xy pc x y)
    (by rw [f1]; exact h)
  exact ⟨h0, ascroll_step_idle k _ h0, f1, f2, f3, s0, by rw [s1, f1], f4, f5⟩

theorem animation_cancelled_by_adj_changed_witness :
    2 ≤ midScroll.ascroll_steps_left ∧
    (on_adj_changed kExample midScroll).ascroll_steps_left = 0 ∧
    (previewgui_goto_xy midScroll (some 5) (some 7)).ascroll_steps_left
      = midScroll.ascroll_steps_left :=
  have h := animation_cancelled_by_adj_changed kExample midScroll (some 5) (some 7)
    (by decide)
  ⟨by decide, h.1, h.2.2.1⟩

/-! ## C21: a node on another page in single-page layout -/

/-- What `previewgui_goto_xy` leaves alone of the document. -/
theorem goto_xy_doc_frame (pc : GuPreviewGui) (x y : Option ℚ) :
    (previewgui_goto_xy pc x y).current_page = pc.current_page ∧
    (previewgui_goto_xy pc x y).pageLayout = pc.pageLayout ∧
    (previewgui_goto_xy pc x y).scale = pc.scale ∧
    (previewgui_goto_xy pc x y).pages = pc.pages ∧
    (previewgui_goto_xy pc x y).width_scaled = pc.width_scaled ∧
    (previewgui_goto_xy pc x y).height_scaled = pc.height_scaled := by
  cases x <;> cases y <;>
    simp only [previewgui_goto_xy, gtk_adjustment_set_value, previewgui_save_position,
      block_handlers_current_page,
      unblock_handlers_current_page] <;>
    cases pc.active_tab <;> cases pc.errormode <;> simp

/-- The upper bounds `update_drawarea_size` stores at a fixed zoom. -/
theorem update_drawarea_size_numeric (k : Constants) (pc : GuPreviewGui)
    (h : fit_mode_of pc = .FIT_NUMERIC) :
    (update_drawarea_size k pc).hadj.upper
      = (if gint_of_double (pc.width_scaled + ((2 * get_document_margin k pc : Int) : ℚ)) = 1
          then pc.hadj.page_size
          else ((gint_of_double
            (pc.width_scaled + ((2 * get_document_margin k pc : Int) : ℚ)) : Int) : ℚ)) ∧
    (update_drawarea_size k pc).vadj.upper
      = (if gint_of_double (pc.height_scaled + ((2 * get_document_margin k pc : Int) : ℚ)) = 1
          then pc.vadj.page_size
          else ((gint_of_double
            (pc.height_scaled + ((2 * get_document_margin k pc : Int) : ℚ)) : Int) : ℚ)) := by
  simp only [update_drawarea_size, h, block_handlers_current_page,
    unblock_handlers_current_page]
  exact ⟨trivial, trivial⟩

/-- The state after `previewgui_goto_page` in single-page layout: the page
shown, the scaled size of that page, and the offsets clamped to the new range. -/
theorem goto_page_single (k : Constants) (pc : GuPreviewGui) (page : Int)
    (hs : is_continuous pc = false) :
    (previewgui_goto_page k pc page).current_page
      = min (max 0 (min (max page 0) (pc.n_pages - 1))) (pc.n_pages - 1) ∧
    (previewgui_goto_page k pc page).pageLayout = pc.pageLayout ∧
    (previewgui_goto_page k pc page).scale = pc.scale ∧
    (previewgui_goto_page k pc page).pages = pc.pages ∧
    (previewgui_goto_page k pc page).width_scaled = pc.width_pages * pc.scale ∧
    (previewgui_goto_page k pc page).height_scaled
      = get_page_height pc (min (max 0 (min (max page 0) (pc.n_pages - 1))) (pc.n_pages - 1))
          * pc.scale ∧
    (previewgui_goto_page k pc page).hadj.page_size = pc.hadj.page_size ∧
    (previewgui_goto_page k pc page).vadj.page_size = pc.vadj.page_size ∧
    (previewgui_goto_page k pc page).hadj.upper
      = (update_drawarea_size k (update_scaled_size k
          (previewgui_set_current_page pc (min (max page 0) (pc.n_pages - 1))))).hadj.upper ∧
    (previewgui_goto_page k pc page).vadj.upper
      = (update_drawarea_size k (update_scaled_size k
          (previewgui_set_current_page pc (min (max page 0) (pc.n_pages - 1))))).vadj.upper ∧
    (previewgui_goto_page k pc page).hadj.value
      = max (min pc.hadj.value
          ((previewgui_goto_page k pc page).hadj.upper - pc.hadj.page_size)) 0 ∧
    (previewgui_goto_page k pc page).vadj.value
      = max (min pc.vadj.value
          ((previewgui_goto_page k pc page).vadj.upper - pc.vadj.page_size)) 0 := by
  have hc : is_continuous (previewgui_set_current_page pc
      (min (max page 0) (pc.n_pages - 1))) = false := hs
  have hgp : previewgui_goto_page k pc page
      = previewgui_goto_xy
          (update_drawarea_size k (update_scaled_size k
            (previewgui_set_current_page pc (min (max page 0) (pc.n_pages - 1)))))
          (some (update_drawarea_size k (update_scaled_size k
            (previewgui_set_current_page pc (min (max page 0) (pc.n_pages - 1))))).hadj.value)
          (some (update_drawarea_size k (update_scaled_size k
            (previewgui_set_current_page pc (min (max page 0) (pc.n_pages - 1))))).vadj.value) := by
    simp [previewgui_goto_page, hc]
  have hq : (update_scaled_size k
      (previewgui_set_current_page pc (min (max page 0) (pc.n_pages - 1)))).height_scaled
      = get_page_height pc (min (max 0 (min (max page 0) (pc.n_pages - 1))) (pc.n_pages - 1))
          * pc.scale := by
    simp only [update_scaled_size, hc]
    rfl
  have p_cur : (previewgui_set_current_page pc (min (max page 0) (pc.n_pages - 1))).current_page
      = min (max 0 (min (max page 0) (pc.n_pages - 1))) (pc.n_pages - 1) := rfl
  have p_lay : (previewgui_set_current_page pc (min (max page 0) (pc.n_pages - 1))).pageLayout
      = pc.pageLayout := rfl
  have p_sc : (previewgui_set_current_page pc (min (max page 0) (pc.n_pages - 1))).scale
      = pc.scale := rfl
  have p_pg : (previewgui_set_current_page pc (min (max page 0) (pc.n_pages - 1))).pages
      = pc.pages := rfl
  have p_wp : (previewgui_set_current_page pc (min (max page 0) (pc.n_pages - 1))).width_pages
      = pc.width_pages := rfl
  have p_h : (previewgui_set_current_page pc (min (max page 0) (pc.n_pages - 1))).hadj
      = pc.hadj := rfl
  have p_v : (previewgui_set_current_page pc (min (max page 0) (pc.n_pages - 1))).vadj
      = pc.vadj := rfl
  rw [hgp]
  generalize previewgui_set_current_page pc (min (max page 0) (pc.n_pages - 1)) = p1 at *
  obtain ⟨d1, d2, d3, d4, d5, d6⟩ := goto_xy_doc_frame
    (update_drawarea_size k (update_scaled_size k p1))
    (some (update_drawarea_size k (update_scaled_size k p1)).hadj.value)
    (some (update_drawarea_size k (update_scaled_size k p1)).vadj.value)
  obtain ⟨o1, o2, o3, o4, o5, o6⟩ := goto_xy_offsets
    (update_drawarea_size k (update_scaled_size k p1))
    (update_drawarea_size k (update_scaled_size k p1)).hadj.value
    (update_drawarea_size k (update_scaled_size k p1)).vadj.value
  have u_hv : (update_drawarea_size k (update_scaled_size k p1)).hadj.value = pc.hadj.value := by
    rw [← p_h]; rfl
  have u_vv : (update_drawarea_size k (update_scaled_size k p1)).vadj.value = pc.vadj.value := by
    rw [← p_v]; rfl
  have u_hp : (update_drawarea_size k (update_scaled_size k p1)).hadj.page_size
      = pc.hadj.page_size := by
    rw [← p_h]; rfl
  have u_vp : (update_drawarea_size k (update_scaled_size k p1)).vadj.page_size
      = pc.vadj.page_size := by
    rw [← p_v]; rfl
  refine ⟨d1.trans p_cur, d2.trans p_lay, d3.trans p_sc, d4.trans p_pg, ?_, d6.trans hq,
    o4.trans u_hp, o6.trans u_vp, o3, o5, ?_, ?_⟩
  · rw [d5, ← p_wp, ← p_sc]; rfl
  · rw [o1, o3, u_hv, u_hp]
  · rw [o2, o5, u_vv, u_vp]

theorem scroll_target_singleMixed :
    synctex_scroll_target kExample singleMixed nodeOnTallPage = (0, 410) := by
  have hw : adjpage_width singleMixed = 500 := by decide
  have hh : adjpage_height singleMixed = 500 := by decide
  have hm : get_document_margin kExample singleMixed = 0 := by decide
  have hc : is_continuous singleMixed = false := by decide
  have hp : get_page_height singleMixed singleMixed.current_page = 400 := by decide
  simp only [synctex_scroll_target, sync_node_x, sync_node_y, hw, hh, hm, hc, hp]
  norm_num [singleMixed, nodeOnTallPage]

theorem goto_page_singleMixed :
    (previewgui_goto_page kExample singleMixed 1).current_page = 1 ∧
    (previewgui_goto_page kExample singleMixed 1).pageLayout = .SINGLE_PAGE ∧
    (previewgui_goto_page kExample singleMixed 1).scale = 1 ∧
    (previewgui_goto_page kExample singleMixed 1).pages = singleMixed.pages ∧
    (previewgui_goto_page kExample singleMixed 1).width_scaled = 600 ∧
    (previewgui_goto_page kExample singleMixed 1).height_scaled = 2000 ∧
    (previewgui_goto_page kExample singleMixed 1).hadj
      = { value := 0, upper := 600, page_size := 500 } ∧
    (previewgui_goto_page kExample singleMixed 1).vadj
      = { value := 0, upper := 2000, page_size := 500 } := by
  obtain ⟨g1, g2, g3, g4, g5, g6, g7, g8, g9, g10, g11, g12⟩ :=
    goto_page_single kExample singleMixed 1 (by decide)
  have hmode : fit_mode_of (update_scaled_size kExample
      (previewgui_set_current_page singleMixed (min (max 1 0) (singleMixed.n_pages - 1))))
      = .FIT_NUMERIC := by decide
  obtain ⟨u1, u2⟩ := update_drawarea_size_numeric kExample _ hmode
  have hm : get_document_margin kExample (update_scaled_size kExample
      (previewgui_set_current_page singleMixed (min (max 1 0) (singleMixed.n_pages - 1))))
      = 0 := by decide
  have hws : (update_scaled_size kExample
      (previewgui_set_current_page singleMixed (min (max 1 0) (singleMixed.n_pages - 1)))).width_scaled
      = 600 := by
    simp only [update_scaled_size, previewgui_set_current_page, singleMixed]; norm_num
  have hhs : (update_scaled_size kExample
      (previewgui_set_current_page singleMixed (min (max 1 0) (singleMixed.n_pages - 1)))).height_scaled
      = 2000 := by
    have hc : is_continuous (previewgui_set_current_page singleMixed
        (min (max 1 0) (singleMixed.n_pages - 1))) = false := by decide
    have hp : get_page_height (previewgui_set_current_page singleMixed
        (min (max 1 0) (singleMixed.n_pages - 1)))
        (previewgui_set_current_page singleMixed
          (min (max 1 0) (singleMixed.n_pages - 1))).current_page = 2000 := by decide
    simp only [update_scaled_size, hc, hp]
    norm_num [previewgui_set_current_page, singleMixed]
  have h600 : gint_of_double (600 : ℚ) = 600 := by decide
  have h2000 : gint_of_double (2000 : ℚ) = 2000 := by decide
  have g9 : (previewgui_goto_page kExample singleMixed 1).hadj.upper = 600 := by
    rw [g9, u1, hm, hws]; norm_num [h600]
  have g10 : (previewgui_goto_page kExample singleMixed 1).vadj.upper = 2000 := by
    rw [g10, u2, hm, hhs]; norm_num [h2000]
  have hcur : (previewgui_goto_page kExample singleMixed 1).current_page = 1 := by
    rw [g1]; decide
  have hhv : (previewgui_goto_page kExample singleMixed 1).hadj.value = 0 := by
    rw [g11, g9]; norm_num [singleMixed]
  have hvv : (previewgui_goto_page kExample singleMixed 1).vadj.value = 0 := by
    rw [g12, g10]; norm_num [singleMixed]
  refine ⟨hcur, g2, g3, g4, ?_, ?_, ?_, ?_⟩
  · rw [g5]; norm_num [singleMixed]
  · rw [g6]
    have : get_page_height singleMixed
        (min (max 0 (min (max 1 0) (singleMixed.n_pages - 1))) (singleMixed.n_pages - 1))
        = 2000 := by decide
    rw [this]; norm_num [singleMixed]
  · cases hj : (previewgui_goto_page kExample singleMixed 1).hadj with
    | mk v u p =>
      rw [hj] at hhv g9 g7
      simp only at hhv g9 g7
      rw [hhv, g9, g7]; rfl
  · cases hj : (previewgui_goto_page kExample singleMixed 1).vadj with
    | mk v u p =>
      rw [hj] at hvv g10 g8
      simp only at hvv g10 g8
      rw [hvv, g10, g8]; rfl

theorem scroll_target_after_jump :
    synctex_scroll_target kExample (previewgui_goto_page kExample singleMixed 1)
      nodeOnTallPage = (0, 360) := by
  obtain ⟨j1, j2, j3, j4, j5, _, j7, j8⟩ := goto_page_singleMixed
  have hw : adjpage_width (previewgui_goto_page kExample singleMixed 1) = 500 := by
    rw [adjpage_width, j7]; decide
  have hh : adjpage_height (previewgui_goto_page kExample singleMixed 1) = 500 := by
    rw [adjpage_height, j8]; decide
  have hm : get_document_margin kExample (previewgui_goto_page kExample singleMixed 1) = 0 := by
    rw [get_document_margin, j2]; rfl
  have hc : is_continuous (previewgui_goto_page kExample singleMixed 1) = false := by
    rw [is_continuous, j2]; rfl
  have hp : get_page_height (previewgui_goto_page kExample singleMixed 1)
      (previewgui_goto_page kExample singleMixed 1).current_page = 2000 := by
    rw [get_page_height, page_at, GuPreviewGui.n_pages, j1, j4]; decide
  simp only [synctex_scroll_target, sync_node_x, sync_node_y, hw, hh, hm, hc, hp, j3, j5, j7, j8]
  norm_num [nodeOnTallPage]

/-- C21 (the code departs from the claim). Page 0 (400 high, painted 50 below
the top of the 500 high view) is shown and the node lies on page 1 (2000 high,
painted at the top of the view), 600 below the top of its page.
`synctex_scroll_to_node` computes the target before it jumps, from the height of
page 0: it jumps to page 1 and then calls `previewgui_goto_xy (0, 410)`, with or
without animated scrolling configured, and the vertical offset becomes 410.  The
positioning rule applied to the page shown after the jump gives 360. -/
theorem cross_page_sync_uses_old_page :
    is_continuous singleMixed = false ∧
    singleMixed.current_page ≠ nodeOnTallPage.page ∧
    synctex_scroll_to_node kExample true singleMixed nodeOnTallPage
      = previewgui_goto_xy (previewgui_goto_page kExample singleMixed 1)
          (some 0) (some 410) ∧
    synctex_scroll_to_node kExample false singleMixed nodeOnTallPage
      = previewgui_goto_xy (previewgui_goto_page kExample singleMixed 1)
          (some 0) (some 410) ∧
    (synctex_scroll_to_node kExample true singleMixed nodeOnTallPage).current_page = 1 ∧
    (synctex_scroll_to_node kExample true singleMixed nodeOnTallPage).vadj.value = 410 ∧
    synctex_scroll_target kExample (previewgui_goto_page kExample singleMixed 1)
      nodeOnTallPage = (0, 360) := by
  have hc : is_continuous singleMixed = false := by decide
  have hne : singleMixed.current_page ≠ nodeOnTallPage.page := by decide
  have hrun : ∀ animated : Bool,
      synctex_scroll_to_node kExample animated singleMixed nodeOnTallPage
        = previewgui_goto_xy (previewgui_goto_page kExample singleMixed 1)
            (some 0) (some 410) := by
    intro animated
    have hpage : nodeOnTallPage.page = 1 := rfl
    simp only [synctex_scroll_to_node, scroll_target_singleMixed, hc, hpage]
    simp [singleMixed]
  obtain ⟨j1, _, _, _, _, _, _, j8⟩ := goto_page_singleMixed
  refine ⟨hc, hne, hrun true, hrun false, ?_, ?_, scroll_target_after_jump⟩
  · rw [hrun true, (goto_xy_doc_frame _ _ _).1, j1]
  · rw [hrun true, (goto_xy_offsets _ _ _).2.1, j8]
    norm_num

/-! ## C27: page positions of the layout and of the painter -/

theorem update_page_positions_mixedWidths :
    (update_page_positions kExample mixedWidths).pages = mixedWidths.pages := by
  have h600 : gint_of_double (600 : ℚ) = 600 := by decide
  have h400 : gint_of_double (400 : ℚ) = 400 := by decide
  have h800 : gint_of_double (800 : ℚ) = 800 := by decide
  have r600 : round_double (600 : ℚ) = 600 := by
    have := round_double_intCast 600 (by norm_num)
    simpa using this
  have r400 : round_double (400 : ℚ) = 400 := by
    have := round_double_intCast 400 (by norm_num)
    simpa using this
  have r800 : round_double (800 : ℚ) = 800 := by
    have := round_double_intCast 800 (by norm_num)
    simpa using this
  have hfov : get_fov mixedWidths = { x := 0, y := 700, width := 600, height := 900, layer := 0 } := by
    decide
  have hm : get_document_margin kExample mixedWidths = 10 := by decide
  have hpm : get_page_margin kExample mixedWidths = 8 := by decide
  have hc : is_continuous mixedWidths = true := by decide
  simp only [update_page_positions, hfov, hm, hpm, hc, if_true]
  simp only [mixedWidths, layout_continuous, hpm]
  norm_num [r600, r400, r800, h600, h400, h800, set_outer, kExample, get_document_margin,
    get_page_margin]
  decide

theorem on_draw_mixedWidths :
    on_draw kExample true mixedWidths
      = some [{ page := 0, x := 10, y := 10 }, { page := 1, x := 110, y := 818 }] := by
  have hm : get_document_margin kExample mixedWidths = 10 := by decide
  have hpm : get_page_margin kExample mixedWidths = 8 := by decide
  have hc : is_continuous mixedWidths = true := by decide
  have hn : mixedWidths.n_pages = 2 := by decide
  have hh0 : get_page_height mixedWidths 0 = 800 := by decide
  have hh1 : get_page_height mixedWidths 1 = 800 := by decide
  have hw0 : get_page_width mixedWidths 0 = 600 := by decide
  have hw1 : get_page_width mixedWidths 1 = 400 := by decide
  have hlen : mixedWidths.pages.length = 2 := by decide
  have h10 : gint_of_double (10 : ℚ) = 10 := by decide
  have h110 : gint_of_double (110 : ℚ) = 110 := by decide
  have h818 : gint_of_double (818 : ℚ) = 818 := by decide
  have hs : mixedWidths.scale = 1 := rfl
  have hws : mixedWidths.width_scaled = 600 := rfl
  have hhs : mixedWidths.height_scaled = 1608 := rfl
  have hhp : mixedWidths.hadj.page_size = 600 := rfl
  have hvp : mixedWidths.vadj.page_size = 900 := rfl
  have hvv : mixedWidths.vadj.value = 700 := rfl
  simp only [on_draw, hm, hpm, hc, hlen, draw_skip, draw_paint, page_offset_x, page_offset_y,
    hn, hs, hws, hhs, hhp, hvp, hvv]
  norm_num [hh0, hh1, hw0, hw1, h10, h110, h818]

/-- C27 (the code departs from the claim). A page of 600 by 800 points followed
by one of 400 by 800 points, scale 1, continuous layout, a view 600 wide:
`update_page_positions` puts the inner rectangle of page 1 at x = 100 (the page
centred in the view), while `on_draw` paints page 1 at x = 110 (the document
margin plus half the difference to the widest page); both use y = 818. -/
theorem layout_and_painter_disagree :
    update_page_positions kExample mixedWidths = mixedWidths ∧
    page_inner (update_page_positions kExample mixedWidths) 1
      = some { x := 100, y := 818, width := 400, height := 800, layer := 0 } ∧
    on_draw kExample true (update_page_positions kExample mixedWidths)
      = some [{ page := 0, x := 10, y := 10 }, { page := 1, x := 110, y := 818 }] := by
  have hfix : update_page_positions kExample mixedWidths = mixedWidths :=
    calc update_page_positions kExample mixedWidths
        = { mixedWidths with pages := (update_page_positions kExample mixedWidths).pages } := rfl
      _ = { mixedWidths with pages := mixedWidths.pages } := by
          rw [update_page_positions_mixedWidths]
      _ = mixedWidths := rfl
  refine ⟨hfix, ?_, ?_⟩
  · rw [hfix]; decide
  · rw [hfix]; exact on_draw_mixedWidths

/-! ## C28: from a pointer position to a page -/

/-- C28 (the code departs from the claim). With pages 800, 100 and 100 high,
`on_draw` paints page 0 at (10, 10), so the point (100, 510) lies on page 0, 500
below its top; `draw2page` returns page 1 and y = 392, because its loop goes on
after the first page whose height the offset does not exceed and compares the
offset 500 with the height 108 of page 1.  With three equal pages, the point
(100, 818) is the top row of page 1 as painted, and `draw2page` returns page 0
and y = 808, because the loop tests `*py > pheight`. -/
theorem draw2page_wrong_page :
    on_draw kExample true mixedHeights
      = some [{ page := 0, x := 10, y := 10 }, { page := 1, x := 10, y := 818 }] ∧
    draw2page kExample mixedHeights 100 510 = (1, 90, 392) ∧
    on_draw kExample true threePages
      = some [{ page := 0, x := 10, y := 10 }, { page := 1, x := 10, y := 818 }] ∧
    draw2page kExample threePages 100 818 = (0, 90, 808) := by
  have h10 : gint_of_double (10 : ℚ) = 10 := by decide
  have h818 : gint_of_double (818 : ℚ) = 818 := by decide
  have h90 : gint_of_double (90 : ℚ) = 90 := by decide
  have h500 : gint_of_double (500 : ℚ) = 500 := by decide
  have h808 : gint_of_double (808 : ℚ) = 808 := by decide
  have h108 : gint_of_double (108 : ℚ) = 108 := by decide
  refine ⟨?_, ?_, ?_, ?_⟩
  · have hm : get_document_margin kExample mixedHeights = 10 := by decide
    have hpm : get_page_margin kExample mixedHeights = 8 := by decide
    have hc : is_continuous mixedHeights = true := by decide
    have hn : mixedHeights.n_pages = 3 := by decide
    have hh0 : get_page_height mixedHeights 0 = 800 := by decide
    have hh1 : get_page_height mixedHeights 1 = 100 := by decide
    have hw0 : get_page_width mixedHeights 0 = 600 := by decide
    have hw1 : get_page_width mixedHeights 1 = 600 := by decide
    have hlen : mixedHeights.pages.length = 3 := by decide
    have hs : mixedHeights.scale = 1 := rfl
    have hws : mixedHeights.width_scaled = 600 := rfl
    have hhs : mixedHeights.height_scaled = 1016 := rfl
    have hhp : mixedHeights.hadj.page_size = 620 := rfl
    have hvp : mixedHeights.vadj.page_size = 900 := rfl
    have hvv : mixedHeights.vadj.value = 0 := rfl
    simp only [on_draw, hm, hpm, hc, hlen, draw_skip, draw_paint, page_offset_x,
      page_offset_y, hn, hs, hws, hhs, hhp, hvp, hvv]
    norm_num [hh0, hh1, hw0, hw1, h10, h818]
  · have hm : get_document_margin kExample mixedHeights = 10 := by decide
    have hpm : get_page_margin kExample mixedHeights = 8 := by decide
    have hc : is_continuous mixedHeights = true := by decide
    have hn : mixedHeights.n_pages = 3 := by decide
    have hh0 : get_page_height mixedHeights 0 = 800 := by decide
    have hh1 : get_page_height mixedHeights 1 = 100 := by decide
    have hlen : mixedHeights.pages.length = 3 := by decide
    have haw : adjpage_width mixedHeights = 620 := by decide
    have hah : adjpage_height mixedHeights = 900 := by decide
    have hs : mixedHeights.scale = 1 := rfl
    have hws : mixedHeights.width_scaled = 600 := rfl
    have hhs : mixedHeights.height_scaled = 1016 := rfl
    simp only [draw2page, hm, hpm, hc, hlen, draw2page_loop, hn, hs, hws, hhs, haw, hah]
    norm_num [hh0, hh1, h90, h500, h808, h108]
  · have hm : get_document_margin kExample threePages = 10 := by decide
    have hpm : get_page_margin kExample threePages = 8 := by decide
    have hc : is_continuous threePages = true := by decide
    have hn : threePages.n_pages = 3 := by decide
    have hh0 : get_page_height threePages 0 = 800 := by decide
    have hh1 : get_page_height threePages 1 = 800 := by decide
    have hw0 : get_page_width threePages 0 = 600 := by decide
    have hw1 : get_page_width threePages 1 = 600 := by decide
    have hlen : threePages.pages.length = 3 := by decide
    have hs : threePages.scale = 1 := rfl
    have hws : threePages.width_scaled = 600 := rfl
    have hhs : threePages.height_scaled = 2416 := rfl
    have hhp : threePages.hadj.page_size = 620 := rfl
    have hvp : threePages.vadj.page_size = 900 := rfl
    have hvv : threePages.vadj.value = 0 := rfl
    simp only [on_draw, hm, hpm, hc, hlen, draw_skip, draw_paint, page_offset_x,
      page_offset_y, hn, hs, hws, hhs, hhp, hvp, hvv]
    norm_num [hh0, hh1, hw0, hw1, h10, h818]
  · have hm : get_document_margin kExample threePages = 10 := by decide
    have hpm : get_page_margin kExample threePages = 8 := by decide
    have hc : is_continuous threePages = true := by decide
    have hn : threePages.n_pages = 3 := by decide
    have hh0 : get_page_height threePages 0 = 800 := by decide
    have hh1 : get_page_height threePages 1 = 800 := by decide
    have hlen : threePages.pages.length = 3 := by decide
    have haw : adjpage_width threePages = 620 := by decide
    have hah : adjpage_height threePages = 900 := by decide
    have hs : threePages.scale = 1 := rfl
    have hws : threePages.width_scaled = 600 := rfl
    have hhs : threePages.height_scaled = 2416 := rfl
    simp only [draw2page, hm, hpm, hc, hlen, draw2page_loop, hn, hs, hws, hhs, haw, hah]
    norm_num [hh0, hh1, h90, h808]

/-! ## C26: the layered intersection test -/

/-- C26 (layered intersection test): for two rectangles, the result is `TRUE`
exactly when the layers are equal and the overlap has positive width and height;
the boolean does not depend on the order of the two rectangles; on `TRUE` with
a `dest`, `dest` holds the maxima of the origins, the overlap as width and
height and the common layer, and it lies inside both rectangles; on `FALSE`
with a `dest`, the width and height of `dest` are 0. -/
theorem layered_rectangle_intersect_spec (s1 s2 d : LayeredRectangle)
    (dest dest2 : Option LayeredRectangle) :
    ((layered_rectangle_intersect (some s1) (some s2) dest).1 = true ↔
      s1.layer = s2.layer ∧
      0 < min (s1.x + s1.width) (s2.x + s2.width) - max s1.x s2.x ∧
      0 < min (s1.y + s1.height) (s2.y + s2.height) - max s1.y s2.y) ∧
    (layered_rectangle_intersect (some s1) (some s2) dest).1
      = (layered_rectangle_intersect (some s2) (some s1) dest2).1 ∧
    ((layered_rectangle_intersect (some s1) (some s2) (some d)).1 = true →
      ∃ r, (layered_rectangle_intersect (some s1) (some s2) (some d)).2 = some r ∧
        r.x = max s1.x s2.x ∧ r.y = max s1.y s2.y ∧
        r.width = min (s1.x + s1.width) (s2.x + s2.width) - max s1.x s2.x ∧
        r.height = min (s1.y + s1.height) (s2.y + s2.height) - max s1.y s2.y ∧
        r.layer = s1.layer ∧ r.layer = s2.layer ∧
        (s1.x ≤ r.x ∧ r.x + r.width ≤ s1.x + s1.width ∧
          s1.y ≤ r.y ∧ r.y + r.height ≤ s1.y + s1.height) ∧
        (s2.x ≤ r.x ∧ r.x + r.width ≤ s2.x + s2.width ∧
          s2.y ≤ r.y ∧ r.y + r.height ≤ s2.y + s2.height)) ∧
    ((layered_rectangle_intersect (some s1) (some s2) (some d)).1 = false →
      ∃ r, (layered_rectangle_intersect (some s1) (some s2) (some d)).2 = some r ∧
        r.width = 0 ∧ r.height = 0) := by
  have key : ∀ (a b : LayeredRectangle) (o : Option LayeredRectangle),
      ((layered_rectangle_intersect (some a) (some b) o).1 = true ↔
        a.layer = b.layer ∧
        0 < min (a.x + a.width) (b.x + b.width) - max a.x b.x ∧
        0 < min (a.y + a.height) (b.y + b.height) - max a.y b.y) := by
    intro a b o
    simp only [layered_rectangle_intersect]
    by_cases hl : a.layer = b.layer
    · by_cases hov : min (a.x + a.width) (b.x + b.width) > max a.x b.x ∧
          min (a.y + a.height) (b.y + b.height) > max a.y b.y
      · simp only [hl, hov, and_self, if_true, true_and, true_iff]
        omega
      · simp only [hl, hov, if_true, if_false, true_and]
        constructor
        · intro h; exact absurd h (by simp)
        · intro h; exact absurd (by omega) hov
    · simp [hl]
  refine ⟨key s1 s2 dest, ?_, ?_, ?_⟩
  · rw [Bool.eq_iff_iff, key s1 s2 dest, key s2 s1 dest2]
    rw [min_comm (s1.x + s1.width), max_comm s1.x, min_comm (s1.y + s1.height),
      max_comm s1.y]
    constructor
    · rintro ⟨h1, h2, h3⟩; exact ⟨h1.symm, h2, h3⟩
    · rintro ⟨h1, h2, h3⟩; exact ⟨h1.symm, h2, h3⟩
  · intro h
    obtain ⟨hl, hx, hy⟩ := (key s1 s2 (some d)).mp h
    have hov : min (s1.x + s1.width) (s2.x + s2.width) > max s1.x s2.x ∧
        min (s1.y + s1.height) (s2.y + s2.height) > max s1.y s2.y := by
      constructor <;> omega
    refine ⟨{ x := max s1.x s2.x, y := max s1.y s2.y
              width := min (s1.x + s1.width) (s2.x + s2.width) - max s1.x s2.x
              height := min (s1.y + s1.height) (s2.y + s2.height) - max s1.y s2.y
              layer := s1.layer }, ?_, rfl, rfl, rfl, rfl, rfl, hl, ?_, ?_⟩
    · simp [layered_rectangle_intersect, hl, hov]
    · simp only
      refine ⟨le_max_left _ _, ?_, le_max_left _ _, ?_⟩
      · have := min_le_left (s1.x + s1.width) (s2.x + s2.width); omega
      · have := min_le_left (s1.y + s1.height) (s2.y + s2.height); omega
    · simp only
      refine ⟨le_max_right _ _, ?_, le_max_right _ _, ?_⟩
      · have := min_le_right (s1.x + s1.width) (s2.x + s2.width); omega
      · have := min_le_right (s1.y + s1.height) (s2.y + s2.height); omega
  · intro h
    simp only [layered_rectangle_intersect] at h ⊢
    by_cases hl : s1.layer = s2.layer
    · by_cases hov : min (s1.x + s1.width) (s2.x + s2.width) > max s1.x s2.x ∧
          min (s1.y + s1.height) (s2.y + s2.height) > max s1.y s2.y
      · simp [hl, hov] at h
      · simp only [hl, hov, if_true, if_false]
        exact ⟨_, rfl, rfl, rfl⟩
    · simp only [hl, if_false]
      exact ⟨_, rfl, rfl, rfl⟩

/-! ## C29: a render that fails -/

/-- C29 (the code departs from the claim). On the three laid-out pages with an
empty cache, a `get_page_rendering` of page 1 whose render fails returns no
surface and leaves page 1 without bitmap, yet adds the footprint
600 * 800 * 4 = 1920000 to `cache_size`; a second failing call adds it again.  The
counter no longer equals the footprint sum of the pages holding a bitmap (0), and
`previewgui_invalidate_renderings` logs the mismatch and leaves 1920000. -/
theorem failed_render_counts_footprint :
    threePagesLaid.cache_size = 0 ∧
    (get_page_rendering kExample false threePagesLaid 1).2 = none ∧
    has_rendering (get_page_rendering kExample false threePagesLaid 1).1 1 = false ∧
    (get_page_rendering kExample false threePagesLaid 1).1.cache_size = 1920000 ∧
    cache_footprint_sum kExample (get_page_rendering kExample false threePagesLaid 1).1 = 0 ∧
    (get_page_rendering kExample false
      (get_page_rendering kExample false threePagesLaid 1).1 1).1.cache_size = 3840000 ∧
    (previewgui_invalidate_renderings kExample
      (get_page_rendering kExample false threePagesLaid 1).1).1.cache_size = 1920000 ∧
    (previewgui_invalidate_renderings kExample
      (get_page_rendering kExample false threePagesLaid 1).1).2 = true := by
  refine ⟨rfl, ?_, ?_, ?_, ?_, ?_, ?_, ?_⟩ <;> decide

theorem layered_rectangle_intersect_spec_witness :
    (layered_rectangle_intersect (some squareAtOrigin) (some squareShifted) (some {})).1 = true ∧
    ∃ r, (layered_rectangle_intersect (some squareAtOrigin) (some squareShifted) (some {})).2
        = some r ∧ r.x = 5 ∧ r.y = 5 ∧ r.width = 5 ∧ r.height = 5 ∧ r.layer = 0 :=
  ⟨by decide,
    match (layered_rectangle_intersect_spec squareAtOrigin squareShifted {} none none).2.2.1
      (by decide) with
    | ⟨r, h, hx, hy, hw, hh, hl, _⟩ =>
      ⟨r, h, hx.trans (by decide), hy.trans (by decide), hw.trans (by decide),
        hh.trans (by decide), hl.trans (by decide)⟩⟩

end GuPreview
